import Mathlib

/-!
# Generic sessions plugin (plugins/protocol_generic_sessions.c)

A shallow embedding of the session and identity code of the plugin, and the
properties of it that were checked.

Conventions of the embedding
* a NUL-terminated C string is the list of its characters before the
  terminator (`CStr`);
* a pointer to bytes is a function from the index to the byte (`Bytes`), read
  modulo 256 where the C code reads an `unsigned char`;
* machine integers are `Int` or `Nat`, reduced explicitly where the C type
  wraps (`unsigned int` modulo `2 ^ 32`, `unsigned long` modulo `2 ^ 64`); `long`
  and `time_t` have 64 bits;
* the SQLite store is the three tables as lists of rows, and a statement is the
  operation it denotes on them: `sqlite3_exec` succeeds, except for an insert
  whose primary key is already in the table and for the select of
  `lwsgs_lookup_user` when its buffer `s[150]` cuts the closing quote; the other
  statement buffers are large enough for the statement text;
* one invocation of a function or of the callback reads one clock value
  (`tv_sec`) in all its calls of `lwsgs_now_secs`;
* what the code takes from the host library and libc (`lws_SHA1`,
  `lws_sql_purify`, `strftime`, the random source, the request headers) is a
  parameter.
-/

namespace GenericSessions

/-- Contents of a NUL-terminated C string: the characters before the terminator. -/
abbrev CStr := List Char

/-- Memory read through an `unsigned char *`: the byte at each index. -/
abbrev Bytes := Nat → Nat

/-! ## Session id text -/

/-- The table `static const char *hex = "0123456789abcdef"` of `sha1_to_lwsgw_hash`. -/
def hex : List Char := "0123456789abcdef".toList

/-- The read `hex[i]`. -/
def hexAt (i : Nat) : Char := hex.getD i '0'

/-- The loop `for (n = 0; n < 20; n++)` of `sha1_to_lwsgw_hash`: `k` iterations
are left and `n` is the loop counter; each iteration stores two characters. -/
def sha1_to_lwsgw_hash_loop (hash : Bytes) : Nat → Nat → CStr
  | 0, _ => []
  | k + 1, n =>
    hexAt ((hash n % 256) >>> 4) :: hexAt ((hash n % 256) &&& 15) ::
      sha1_to_lwsgw_hash_loop hash k (n + 1)

/-- The function `sha1_to_lwsgw_hash`: the hexified form of a 20-byte value. -/
def sha1_to_lwsgw_hash (hash : Bytes) : CStr :=
  sha1_to_lwsgw_hash_loop hash 20 0

/-- The test `(*p >= '0' && *p <= '9') || (*p >= 'a' && *p <= 'f')` of
`lwsgw_session_from_cookie`. -/
def isSidChar (c : Char) : Bool :=
  (decide ('0' ≤ c) && decide (c ≤ '9')) || (decide ('a' ≤ c) && decide (c ≤ 'f'))

/-- The three characters `id=` looked for in the cookie header. -/
def id_eq : CStr := ['i', 'd', '=']

/-- The first loop of `lwsgw_session_from_cookie`: advance `p` until
`p[0] == 'i' && p[1] == 'd' && p[2] == '='`, then step over these three
characters; the result is the text at `p` when the loop is left (empty at the
terminator). -/
def skip_to_id : CStr → CStr
  | [] => []
  | c :: rest =>
    if (c :: rest).take 3 = id_eq then (c :: rest).drop 3 else skip_to_id rest

/-- The loop `for (n = 0; n < sizeof(sid->id) - 1 && *p; n++)` of
`lwsgw_session_from_cookie`: `k` is the number of iterations the bound still
allows, `acc` the characters stored in `sid->id` so far.  The flag is `false`
when the loop body returns 1 on a character outside the id alphabet. -/
def sid_loop : Nat → CStr → CStr → Bool × CStr
  | 0, _, acc => (true, acc)
  | _ + 1, [], acc => (true, acc)
  | k + 1, c :: p, acc =>
    if isSidChar c then sid_loop k p (acc ++ [c]) else (false, acc)

/-- The function `lwsgw_session_from_cookie`: the return value (0 on success, 1
on failure) and the characters it stored in `sid->id`. -/
def lwsgw_session_from_cookie (cookie : CStr) : Int × CStr :=
  let p := skip_to_id cookie
  if p = [] then (1, [])
  else
    match sid_loop 40 p [] with
    | (false, acc) => (1, acc)
    | (true, acc) => if acc.length < 40 then (1, acc) else (0, acc)

/-! ## The store -/

/-- A row of the table `users`.  The columns `pwchange_time` and `token_time` are
left NULL by the insert of the register flow; a NULL `last_forgot_validated` is
read as 0 by `lwsgs_lookup_callback_user` and is stored here as 0. -/
structure UserRow where
  username : CStr
  creation_time : Int
  ip : CStr
  email : CStr
  pwhash : CStr
  pwsalt : CStr
  pwchange_time : Option Int
  token : CStr
  verified : Int
  token_time : Option Int
  last_forgot_validated : Int
  deriving DecidableEq

/-- A row of the table `sessions`. -/
structure SessionRow where
  name : CStr
  username : CStr
  expire : Int
  deriving DecidableEq

/-- A row of the table `email`. -/
structure EmailRow where
  username : CStr
  content : CStr
  deriving DecidableEq

/-- The three tables of the database: `users`, `sessions` and `email`. -/
abbrev Tables := List UserRow × List SessionRow × List EmailRow

/-! ## Library collaborators -/

/-- Functions of the host library and of libc that the plugin calls and whose
code is outside this file. -/
structure Lib where
  /-- The digest `lws_SHA1(buf, len, out)`: byte `i` of the digest of a message. -/
  lws_SHA1 : List Char → Bytes
  /-- The text SQLite compares or stores for a quoted `%s` argument that was passed
  through `lws_sql_purify(esc, s, len)`; the first argument is `len`. -/
  sql_text : Nat → CStr → CStr
  /-- The text `strftime` renders for `gmtime(&expires)` with the format of
  `lwsgw_cookie_from_session`. -/
  strftime_gmt : Int → CStr
  /-- The text `lws_urlencode(escaped, string, len)` returns; the first argument is
  `len`. -/
  lws_urlencode : Nat → CStr → CStr := fun _ s => s
  /-- What `sqlite3_exec` does with the select by user name of
  `lwsgs_email_cb_on_next` when the name holds a quote: the name stands in the
  statement as it is, so the text is no longer that select.  For the name and the
  three tables: whether the call succeeds, the tables after it, and the rows of
  `users` given to the callback. -/
  exec_unescaped : CStr → Tables → Bool × Tables × List UserRow :=
    fun _ tables => (false, tables, [])
  /-- The text `lws_sql_purify(escaped, string, len)` returns, in which every quote
  is doubled; the first argument is `len`.  The default is the text SQLite reads back,
  which is the escaped text when there is no quote in it. -/
  lws_sql_purify : Nat → CStr → CStr := sql_text
  /-- What SQLite makes of a select `... where username = '%s';` whose closing quote
  was cut by the statement buffer; the argument is the part of the escaped text that
  was kept.  `none` when the string literal does not end, so that `sqlite3_exec`
  fails; the text compared when the last character kept is the first half of a
  doubled quote and ends the literal. -/
  sql_cut : CStr → Option CStr := fun _ => none
  /-- The value of the REAL that SQLite makes of a decimal integer literal above
  `2 ^ 63 - 1`, which does not fit its 64-bit integer; below `2 ^ 64` that value is a
  whole number.  The default is the nearest `double`, a multiple of 2048. -/
  sql_real : Int → Int :=
    fun v => if v % 4096 = 1024 then v - 1024 else (v + 1024) / 2048 * 2048

/-- The function `lwsgs_now_secs`: `tv_sec` returned as `unsigned int`. -/
def lwsgs_now_secs (tv_sec : Int) : Int := tv_sec % 2 ^ 32

/-- The function `lwsgw_cookie_from_session`: the text appended at `*p`.  The
callers pass a buffer of 1024 bytes, the bounds of `snprintf` and `strftime` are
taken not to cut the text. -/
def lwsgw_cookie_from_session (lib : Lib) (sid : CStr) (expires : Int) (tv_sec : Int) : CStr :=
  let n := lwsgs_now_secs tv_sec
  ['i', 'd', '='] ++ sid ++ ";Expires=".toList
    ++ lib.strftime_gmt expires
    ++ ";path=/".toList
    ++ ";Max-Age=".toList ++ (Nat.repr ((expires - n) % 2 ^ 64).toNat).toList
    ++ ";HttpOnly".toList

/-! ## The state of a vhost -/

/-- The struct `lwsgs_user`. -/
structure lwsgs_user where
  username : CStr
  ip : CStr
  pwhash : CStr
  pwsalt : CStr
  token : CStr
  created : Int
  last_forgot_validated : Int
  email : CStr
  verified : Int
  deriving DecidableEq

/-- A local `struct lwsgs_user` before the callback stored anything in it. -/
def lwsgs_user_blank : lwsgs_user :=
  { username := [], ip := [], pwhash := [], pwsalt := [], token := [], created := 0,
    last_forgot_validated := 0, email := [], verified := 0 }

/-- The struct `per_vhost_data__generic_sessions`; the three tables stand for the
database behind `pdb`, `email_from` and `email_to` for the fields of `email`. -/
structure per_vhost_data__generic_sessions where
  admin_user : CStr
  confounder : CStr
  email_contact_person : CStr
  email_title : CStr
  email_template : CStr
  email_confirm_url : CStr
  email_from : CStr
  admin_password_sha1 : CStr
  timeout_idle_secs : Int
  timeout_absolute_secs : Int
  timeout_anon_absolute_secs : Int
  timeout_email_secs : Int
  last_session_expire : Int
  users : List UserRow
  sessions : List SessionRow
  email : List EmailRow
  u : lwsgs_user := lwsgs_user_blank
  email_to : CStr := []
  deriving DecidableEq

/-- The columns a select on `users` can name. -/
inductive UserCol where
  | username | creation_time | ip | email | verified | pwhash | pwsalt | token
  | last_forgot_validated
  deriving DecidableEq

/-- The function `lwsgs_lookup_callback_user` for one result row: every selected
column is copied to its field, the strings with `strncpy` up to the size of the
field less one. -/
def lwsgs_lookup_callback_user (cols : List UserCol) (row : UserRow) (u : lwsgs_user) :
    lwsgs_user :=
  cols.foldl (fun u c =>
    match c with
    | .username => { u with username := row.username.take 31 }
    | .ip => { u with ip := row.ip.take 15 }
    | .creation_time => { u with created := row.creation_time }
    | .last_forgot_validated => { u with last_forgot_validated := row.last_forgot_validated }
    | .email => { u with email := row.email.take 99 }
    | .verified => { u with verified := row.verified }
    | .pwhash => { u with pwhash := row.pwhash.take 40 }
    | .pwsalt => { u with pwsalt := row.pwsalt.take 40 }
    | .token => { u with token := row.token.take 40 }) u

/-- A statement `select cols from users where cond` run through `sqlite3_exec` with
`lwsgs_lookup_callback_user`: the callback runs on every row that meets the
condition, in table order. -/
def select_users (cols : List UserCol) (cond : UserRow → Bool) (users : List UserRow)
    (u : lwsgs_user) : lwsgs_user :=
  (users.filter cond).foldl (fun u row => lwsgs_lookup_callback_user cols row u) u

/-- The name that the select of `lwsgs_lookup_user` compares with.  The statement has
113 characters before the escaped name and `';` after it, and
`snprintf(s, sizeof(s) - 1, ...)` keeps 148 characters of it in `s[150]`: an escaped name
of at most 34 characters keeps its closing quote, of a longer one the first 35
characters are kept and no closing quote, and `none` stands for a text that
`sqlite3_exec` refuses. -/
def lookup_user_key (lib : Lib) (username : CStr) : Option CStr :=
  if (lib.lws_sql_purify 49 username).length ≤ 34 then some (lib.sql_text 49 username)
  else lib.sql_cut ((lib.lws_sql_purify 49 username).take 35)

/-- The function `lwsgs_lookup_user`: the return value (0 when a user was found,
1 when none was, -1 when `sqlite3_exec` failed) and the struct `u`. -/
def lwsgs_lookup_user (lib : Lib) (vhd : per_vhost_data__generic_sessions)
    (username : CStr) (u : lwsgs_user) : Int × lwsgs_user :=
  let u0 := { u with username := [] }
  match lookup_user_key lib username with
  | none => (-1, u0)
  | some key =>
    let u1 := select_users
      [.username, .creation_time, .ip, .email, .verified, .pwhash, .pwsalt,
        .last_forgot_validated]
      (fun row => decide (row.username = key)) vhd.users u0
    (if u1.username = [] then 1 else 0, u1)

/-- The function `lwsgw_expire_old_sessions`: the return value and the state after. -/
def lwsgw_expire_old_sessions (vhd : per_vhost_data__generic_sessions) (tv_sec : Int) :
    Int × per_vhost_data__generic_sessions :=
  let n := lwsgs_now_secs tv_sec
  if n - vhd.last_session_expire < 5 then (0, vhd)
  else
    (0, { vhd with
            last_session_expire := n
            sessions := vhd.sessions.filter (fun s => !decide (s.expire ≤ n)) })

/-- The number SQLite stores for the decimal integer literal that `%lu` prints for
`v`, `0 <= v < 2 ^ 64`: the integer when it fits the signed 64-bit integer of SQLite,
else the REAL of `Lib.sql_real`. -/
def sql_number (lib : Lib) (v : Int) : Int :=
  if v < 2 ^ 63 then v else lib.sql_real v

/-- The function `lwsgw_update_session`.  The `time_t` sum is printed with `%lu` as
`(unsigned long)n`; a negative sum is printed as a literal above `2 ^ 63`. -/
def lwsgw_update_session (lib : Lib) (vhd : per_vhost_data__generic_sessions)
    (hash : CStr) (user : CStr) (tv_sec : Int) : Int × per_vhost_data__generic_sessions :=
  let n0 := lwsgs_now_secs tv_sec
  let n := if user ≠ [] then n0 + vhd.timeout_absolute_secs
    else n0 + vhd.timeout_anon_absolute_secs
  (0, { vhd with
          sessions := vhd.sessions.map (fun s =>
            if s.name = lib.sql_text 50 hash then
              { s with expire := sql_number lib (n % 2 ^ 64),
                       username := lib.sql_text 50 user }
            else s) })

/-- The function `lwsgs_lookup_session` with `lwsgs_lookup_callback`: the return
value (0 if found), the buffer `username` and the state after.  The callback sets
`results = 0` and copies the column into the buffer of `len` bytes for every row
whose name is the one asked for. -/
def lwsgs_lookup_session (lib : Lib) (vhd : per_vhost_data__generic_sessions)
    (sid : CStr) (username : CStr) (len : Nat) (tv_sec : Int) :
    Int × CStr × per_vhost_data__generic_sessions :=
  let vhd1 := (lwsgw_expire_old_sessions vhd tv_sec).2
  let rows := vhd1.sessions.filter (fun s => decide (s.name = lib.sql_text 49 sid))
  let lla := rows.foldl
    (fun (_ : CStr × Int) row => (row.username.take (len - 1), (0 : Int)))
    (username, (1 : Int))
  (lla.2, lla.1, vhd1)

/-- The results of successive calls of `lws_get_random(context, buf, 20)`: the 20
bytes, or `none` when fewer were read; a script that ran out reads short. -/
abbrev Rand := List (Option Bytes)

/-- One call of `lws_get_random`. -/
def lws_get_random (rnd : Rand) : Option Bytes × Rand :=
  match rnd with
  | [] => (none, [])
  | r :: rest => (r, rest)

/-- The function `lwsgs_new_session_id` (with `sid` not NULL): the return value, the
id stored in `sid`, the state and the random script after. -/
def lwsgs_new_session_id (lib : Lib) (vhd : per_vhost_data__generic_sessions)
    (username : Option CStr) (exp : Int) (rnd : Rand) :
    Int × CStr × per_vhost_data__generic_sessions × Rand :=
  let u := username.getD []
  match lws_get_random rnd with
  | (none, rnd1) => (1, [], vhd, rnd1)
  | (some sid_rand, rnd1) =>
    let sid := sha1_to_lwsgw_hash sid_rand
    (0, sid,
      { vhd with
          sessions := vhd.sessions ++
            [{ name := lib.sql_text 49 sid, username := lib.sql_text 49 u,
               expire := exp % 2 ^ 32 }] },
      rnd1)

/-- The function `lwsgs_get_auth_level`.  The comparison of the `time_t`
`last_forgot_validated` with the `unsigned int` difference `lwsgs_now_secs() - 300`
is made in `long`, after the difference wrapped modulo `2 ^ 32`. -/
def lwsgs_get_auth_level (lib : Lib) (vhd : per_vhost_data__generic_sessions)
    (username : CStr) (tv_sec : Int) : Nat :=
  let n0 : Nat :=
    if username ≠ [] then
      (if username = vhd.admin_user then 1 ||| (4 ||| 2) else 1)
    else 0
  let r := lwsgs_lookup_user lib vhd username lwsgs_user_blank
  if r.1 = 0 then
    let n1 : Nat := if r.2.verified % 256 = 100 then n0 ||| 4 else n0
    if r.2.last_forgot_validated > (lwsgs_now_secs tv_sec - 300) % 2 ^ 32 then n1 ||| 8
    else n1
  else n0

/-- The bytes `lws_SHA1(buffer, n, ...)` reads after
`n = snprintf(buffer, size, ...)` rendered `text`: `snprintf` stores at most
`size - 1` characters and a NUL and returns the full length, so a longer text is read
back as its first `size - 1` characters, the NUL, and whatever the memory after it
holds (`mem i` is the byte at `buffer[i]`). -/
def snprintf_read_back (size : Nat) (text : CStr) (mem : Nat → Char) : List Char :=
  if text.length ≤ size - 1 then text
  else
    text.take (size - 1) ++ [Char.ofNat 0] ++
      (List.range (text.length - size)).map (fun i => mem (size + i))

/-- The text `"%s-%s-%s"` of password, confounder and salt. -/
def password_text (password confounder salt : CStr) : CStr :=
  password ++ ['-'] ++ confounder ++ ['-'] ++ salt

/-- The function `lwsgs_check_credentials`; `mem` is the memory at and after the
local `buffer[300]`. -/
def lwsgs_check_credentials (lib : Lib) (vhd : per_vhost_data__generic_sessions)
    (username password : CStr) (mem : Nat → Char) : Int :=
  let r := lwsgs_lookup_user lib vhd username lwsgs_user_blank
  if r.1 ≠ 0 then -1
  else
    let msg := snprintf_read_back 299 (password_text password vhd.confounder r.2.pwsalt) mem
    let hash := sha1_to_lwsgw_hash (lib.lws_SHA1 msg)
    if hash = r.2.pwhash then 0 else 1

/-- The function `lwsgs_hash_password`: the return value, the struct `u` with
`pwsalt` and `pwhash` set, and the random script after; `mem` is the memory at and
after the local `buffer[150]`. -/
def lwsgs_hash_password (lib : Lib) (vhd : per_vhost_data__generic_sessions)
    (password : CStr) (u : lwsgs_user) (rnd : Rand) (mem : Nat → Char) :
    Int × lwsgs_user × Rand :=
  match lws_get_random rnd with
  | (none, rnd1) => (1, u, rnd1)
  | (some salt_rand, rnd1) =>
    let u1 := { u with pwsalt := sha1_to_lwsgw_hash salt_rand }
    match lws_get_random rnd1 with
    | (none, rnd2) => (1, u1, rnd2)
    | (some _, rnd2) =>
      let msg := snprintf_read_back 149 (password_text password vhd.confounder u1.pwsalt) mem
      (0, { u1 with pwhash := sha1_to_lwsgw_hash (lib.lws_SHA1 msg) }, rnd2)

/-- The function `lwsgw_check_admin`. -/
def lwsgw_check_admin (lib : Lib) (vhd : per_vhost_data__generic_sessions)
    (username password : CStr) : Int :=
  if vhd.admin_user ≠ username then 0
  else if vhd.admin_password_sha1 = sha1_to_lwsgw_hash (lib.lws_SHA1 password) then 1
  else 0

/-! ## The protocol callback -/

/-- What the callback reads from the connection `wsi`. -/
structure Wsi where
  /-- The Cookie header as `lws_hdr_copy` stores it in `cookie[1024]`; `none` when
  the header is absent or the copy fails. -/
  cookie : Option CStr
  /-- The Host header as `lws_hdr_copy` stores it; `none` when the copy fails. -/
  host : Option CStr
  /-- The value of `lws_is_ssl(wsi)`. -/
  is_ssl : Bool
  /-- The text `lws_get_peer_simple` stores in `pss->ip`. -/
  peer : CStr
  /-- The value of `lws_http_transaction_completed(wsi)`. -/
  transaction_completed : Int
  /-- The first fragment of the URI arguments as `lws_hdr_copy_fragment` stores it;
  `none` when the copy fails. -/
  uri_fragment0 : Option CStr := none
  /-- The value of `lws_get_urlarg_by_name(wsi, name, ...)`: the text that follows
  the name in the argument that begins with it; `none` for NULL. -/
  urlarg : CStr → Option CStr := fun _ => none

/-- The indices of `param_names`. -/
inductive Fgs where
  | FGS_USERNAME | FGS_PASSWORD | FGS_PASSWORD2 | FGS_EMAIL | FGS_REGISTER | FGS_GOOD
  | FGS_BAD | FGS_REG_GOOD | FGS_REG_BAD | FGS_ADMIN | FGS_FORGOT | FGS_FORGOT_GOOD
  | FGS_FORGOT_BAD | FGS_FORGOT_POST_GOOD | FGS_FORGOT_POST_BAD | FGS_CHANGE | FGS_CURPW
  deriving DecidableEq

/-- The decoded form: `lws_urldecode_spa_get_string(pss->spa, n)`, `none` for NULL. -/
abbrev Spa := Fgs → Option CStr

/-- The fields of `struct per_session_data__generic_sessions` the session flows
use; `login_session` and `delete_session` are the strings in their `id`. -/
structure per_session_data__generic_sessions where
  login_session : CStr
  delete_session : CStr
  login_expires : Int
  onward : CStr
  ip : CStr
  logging_out : Bool
  pos : Nat := 0
  swallow : List Char := List.replicate 16 (Char.ofNat 0)
  deriving DecidableEq

/-- The headers the callback writes: the status, `Location` and the `set-cookie`
lines in the order they are added. -/
structure Response where
  status : Nat
  location : CStr
  set_cookie : List CStr
  deriving DecidableEq

/-- What one invocation of the callback leaves: its return value, the response it
wrote if any, the states after, and `args->final` where the callback sets it. -/
structure Result where
  ret : Int
  response : Option Response
  vhd : per_vhost_data__generic_sessions
  pss : per_session_data__generic_sessions
  args_final : Bool
  deriving DecidableEq

/-- The string left in a 41-byte id buffer that held `old` after the characters
`written` were stored from its start without a terminator. -/
def overlay (written old : CStr) : CStr := written ++ old.drop written.length

/-- The function `lwsgs_get_sid_from_wsi`: the return value and the characters
stored in `sid->id`. -/
def lwsgs_get_sid_from_wsi (wsi : Wsi) : Int × CStr :=
  match wsi.cookie with
  | none => (1, [])
  | some cookie =>
    if cookie.length = 0 then (1, [])
    else
      let r := lwsgw_session_from_cookie cookie
      if r.1 ≠ 0 then (1, r.2) else (0, r.2)

/-- The label `try_to_reuse`. -/
def try_to_reuse (wsi : Wsi) (vhd : per_vhost_data__generic_sessions)
    (pss : per_session_data__generic_sessions) (response : Option Response) : Result :=
  { ret := if wsi.transaction_completed ≠ 0 then -1 else 0, response := response,
    vhd := vhd, pss := pss, args_final := false }

/-- The label `redirect_with_cookie`: the 303 response with the cookie that deletes
`delete_session`, if there is one, and the cookie that installs `login_session`,
created here as an anonymous session when there is none.  The header writers and
`lws_write` are taken to succeed. -/
def redirect_with_cookie (lib : Lib) (wsi : Wsi) (vhd : per_vhost_data__generic_sessions)
    (pss : per_session_data__generic_sessions) (tv_sec : Int) (rnd : Rand) : Result :=
  let now := lwsgs_now_secs tv_sec
  let del : List CStr :=
    if pss.delete_session ≠ [] then [lwsgw_cookie_from_session lib pss.delete_session 0 tv_sec]
    else []
  if pss.login_session = [] then
    let exp := (now + vhd.timeout_anon_absolute_secs) % 2 ^ 32
    match lwsgs_new_session_id lib vhd (some []) exp rnd with
    | (r, sid, vhd1, _) =>
      if r ≠ 0 then
        { ret := 1, response := none, vhd := vhd1,
          pss := { pss with login_expires := exp, login_session := sid }, args_final := false }
      else
        try_to_reuse wsi vhd1
          { pss with login_expires := exp, login_session := sid, logging_out := false }
          (some { status := 303, location := pss.onward,
                  set_cookie := del ++ [lwsgw_cookie_from_session lib sid exp tv_sec] })
  else
    let exp := (now + vhd.timeout_absolute_secs) % 2 ^ 32
    try_to_reuse wsi vhd { pss with login_expires := exp, logging_out := false }
      (some { status := 303, location := pss.onward,
              set_cookie := del ++ [lwsgw_cookie_from_session lib pss.login_session exp tv_sec] })

/-- The label `completion_flow`. -/
def completion_flow (lib : Lib) (wsi : Wsi) (vhd : per_vhost_data__generic_sessions)
    (pss : per_session_data__generic_sessions) (tv_sec : Int) (rnd : Rand) : Result :=
  redirect_with_cookie lib wsi (lwsgw_expire_old_sessions vhd tv_sec).2 pss tv_sec rnd

/-- The label `pass`, reached with the onward URL in `cp`.  `none` stands for the
dereference of a NULL string. -/
def pass (lib : Lib) (wsi : Wsi) (vhd : per_vhost_data__generic_sessions)
    (pss : per_session_data__generic_sessions) (spa : Spa) (cp : Option CStr)
    (tv_sec : Int) (rnd : Rand) : Option Result :=
  match cp with
  | none => none
  | some cp =>
    let g := lwsgs_get_sid_from_wsi wsi
    let sid : CStr := if g.1 ≠ 0 then [] else g.2
    let pss1 := { pss with
      onward := cp.take 255
      login_expires := (lwsgs_now_secs tv_sec + vhd.timeout_absolute_secs) % 2 ^ 32 }
    if sid = [] then
      match lwsgs_new_session_id lib vhd (spa .FGS_USERNAME) pss1.login_expires rnd with
      | (r, s, vhd1, rnd1) =>
        if r ≠ 0 then some (try_to_reuse wsi vhd1 { pss1 with login_session := s } none)
        else some (completion_flow lib wsi vhd1 { pss1 with login_session := s } tv_sec rnd1)
    else
      match spa .FGS_USERNAME with
      | none => none
      | some user =>
        some (completion_flow lib wsi (lwsgw_update_session lib vhd sid user tv_sec).2
          { pss1 with login_session := sid } tv_sec rnd)

/-- The registration mail built by the register flow, as the table `email` stores it. -/
def register_mail (lib : Lib) (vhd : per_vhost_data__generic_sessions)
    (username email ip token : CStr) : CStr :=
  "From: Noreply <".toList ++ lib.sql_text 49 vhd.email_from ++ ">\nTo: ".toList
    ++ lib.sql_text 49 username ++ " <".toList ++ lib.sql_text 49 email
    ++ ">\nSubject: Registration verification\n\nHello, ".toList
    ++ lib.sql_text 49 username
    ++ "\n\nWe received a registration from IP ".toList ++ lib.sql_text 49 ip
    ++ " using this email,\nto confirm it is legitimate, please click the link below.\n\n".toList
    ++ vhd.email_confirm_url ++ "/confirm?token=".toList ++ token
    ++ "\n\nIf this request is unexpected, please ignore it and\n".toList
    ++ "no further action will be taken.\n\n".toList
    ++ "If you have any questions or concerns about this\n".toList
    ++ "automated email, you can contact a real person at\n".toList
    ++ vhd.email_contact_person ++ ".\n\n.\n".toList

/-- The label `reg_done` with the index `n` of the onward URL. -/
def reg_done (lib : Lib) (wsi : Wsi) (vhd : per_vhost_data__generic_sessions)
    (pss : per_session_data__generic_sessions) (spa : Spa) (n : Fgs)
    (tv_sec : Int) (rnd : Rand) : Option Result :=
  match spa n with
  | none => none
  | some url =>
    some (completion_flow lib wsi vhd
      { pss with onward := url.take 255, login_expires := 0, logging_out := true } tv_sec rnd)

/-- A return from the callback with no response written. -/
def plain_return (ret : Int) (vhd : per_vhost_data__generic_sessions)
    (pss : per_session_data__generic_sessions) : Result :=
  { ret := ret, response := none, vhd := vhd, pss := pss, args_final := false }

/-- The register branch of the `/login` form handler (the block under
`FGS_REGISTER`), entered with the username and the password of the form.  The two
inserts fail, as SQLite makes them, when the primary key `username` is already in
the table.  `none` stands for the dereference of a NULL string. -/
def login_register (lib : Lib) (wsi : Wsi) (vhd : per_vhost_data__generic_sessions)
    (pss : per_session_data__generic_sessions) (spa : Spa) (username password : CStr)
    (tv_sec : Int) (rnd : Rand) (mem : Nat → Char) : Option Result :=
  let g := lwsgs_get_sid_from_wsi wsi
  if g.1 ≠ 0 then
    some (plain_return 1 vhd { pss with login_session := overlay g.2 pss.login_session })
  else
    let pss1 := { pss with login_session := g.2, ip := wsi.peer }
    if spa .FGS_REG_GOOD = none ∨ spa .FGS_REG_BAD = none then
      some (plain_return (-1) vhd pss1)
    else if vhd.admin_user = username then reg_done lib wsi vhd pss1 spa .FGS_REG_BAD tv_sec rnd
    else if (lwsgs_lookup_user lib vhd username lwsgs_user_blank).1 = 0 then
      reg_done lib wsi vhd pss1 spa .FGS_REG_BAD tv_sec rnd
    else
      match spa .FGS_EMAIL with
      | none => none
      | some email =>
        let u := select_users [.username, .email]
          (fun row => decide (row.email = lib.sql_text 49 email)) vhd.users
          { (lwsgs_lookup_user lib vhd username lwsgs_user_blank).2 with username := [] }
        if u.username ≠ [] then reg_done lib wsi vhd pss1 spa .FGS_REG_BAD tv_sec rnd
        else
          match lwsgs_hash_password lib vhd password u rnd mem with
          | (r, u1, rnd1) =>
            if r ≠ 0 then reg_done lib wsi vhd pss1 spa .FGS_REG_BAD tv_sec rnd1
            else
              match lws_get_random rnd1 with
              | (none, _) => some (plain_return 1 vhd pss1)
              | (some sid_rand, rnd2) =>
                let hash := sha1_to_lwsgw_hash sid_rand
                let key := lib.sql_text 49 username
                if vhd.users.any (fun row => decide (row.username = key)) then
                  reg_done lib wsi vhd pss1 spa .FGS_REG_BAD tv_sec rnd2
                else
                  let vhd1 := { vhd with
                    users := vhd.users ++
                      [({ username := key, creation_time := lwsgs_now_secs tv_sec,
                          ip := lib.sql_text 49 pss1.ip, email := lib.sql_text 49 email,
                          pwhash := u1.pwhash, pwsalt := u1.pwsalt, pwchange_time := none,
                          token := hash, verified := 0, token_time := none,
                          last_forgot_validated := 0 } : UserRow)] }
                  if vhd1.email.any (fun row => decide (row.username = key)) then
                    reg_done lib wsi vhd1 pss1 spa .FGS_REG_BAD tv_sec rnd2
                  else
                    reg_done lib wsi
                      { vhd1 with
                          email := vhd1.email ++
                            [({ username := key,
                                content := register_mail lib vhd username email pss1.ip hash } :
                              EmailRow)] }
                      pss1 spa .FGS_REG_GOOD tv_sec rnd2

/-- The `/login` form handler at `LWS_CALLBACK_HTTP_BODY_COMPLETION` from the test
for the username and the password on: the part run when the form has no non-empty
`forgot` field. -/
def login_post (lib : Lib) (wsi : Wsi) (vhd : per_vhost_data__generic_sessions)
    (pss : per_session_data__generic_sessions) (spa : Spa)
    (tv_sec : Int) (rnd : Rand) (mem : Nat → Char) : Option Result :=
  match spa .FGS_USERNAME, spa .FGS_PASSWORD with
  | some username, some password =>
    if (spa .FGS_REGISTER).getD [] ≠ [] then
      login_register lib wsi vhd pss spa username password tv_sec rnd mem
    else if lwsgw_check_admin lib vhd username password ≠ 0 then
      match spa .FGS_ADMIN with
      | some a => pass lib wsi vhd pss spa (some a) tv_sec rnd
      | none =>
        match spa .FGS_GOOD with
        | some g => pass lib wsi vhd pss spa (some g) tv_sec rnd
        | none => some (plain_return (-1) vhd pss)
    else if lwsgs_check_credentials lib vhd username password mem = 0 then
      pass lib wsi vhd pss spa (spa .FGS_GOOD) tv_sec rnd
    else
      match spa .FGS_BAD with
      | none => some (plain_return (-1) vhd pss)
      | some b => some (completion_flow lib wsi vhd { pss with onward := b.take 255 } tv_sec rnd)
  | _, _ => some (plain_return (-1) vhd pss)

/-- The case `LWS_CALLBACK_CHECK_ACCESS_RIGHTS`: `max_len` holds the bits of
`args->max_len`, the mask the page requires, and `args_p` the string at `args->p`. -/
def check_access_rights (lib : Lib) (wsi : Wsi) (vhd : per_vhost_data__generic_sessions)
    (pss : per_session_data__generic_sessions) (max_len : Nat) (args_p : CStr)
    (tv_sec : Int) (rnd : Rand) : Result :=
  let g := lwsgs_get_sid_from_wsi wsi
  if g.1 = 0 then
    match lwsgs_lookup_session lib vhd g.2 [] 32 tv_sec with
    | (r, username, vhd1) =>
      if r ≠ 0 then
        let pss1 := { pss with delete_session := g.2 }
        match wsi.host with
        | none => { ret := 1, response := none, vhd := vhd1, pss := pss1, args_final := true }
        | some host =>
          { redirect_with_cookie lib wsi vhd1
              { pss1 with
                  onward := ((if wsi.is_ssl then "https://".toList else "http://".toList)
                    ++ host ++ args_p).take 254 }
              tv_sec rnd with args_final := true }
      else
        let n := lwsgs_get_auth_level lib vhd1 username tv_sec
        if max_len &&& n ≠ max_len then plain_return 1 vhd1 pss else plain_return 0 vhd1 pss
  else
    let n := lwsgs_get_auth_level lib vhd [] tv_sec
    if max_len &&& n ≠ max_len then plain_return 1 vhd pss else plain_return 0 vhd pss

/-! ## The other form handlers and the GET handlers -/

/-- The password reset mail built by the forgot flow, as the table `email` stores
it. -/
def forgot_mail (lib : Lib) (vhd : per_vhost_data__generic_sessions)
    (u : lwsgs_user) (ip token post_good post_bad : CStr) : CStr :=
  "From: Forgot Password Assistant Noreply <".toList ++ lib.sql_text 49 vhd.email_from
    ++ ">\nTo: ".toList ++ lib.sql_text 49 u.username ++ " <".toList
    ++ lib.sql_text 49 u.email
    ++ ">\nSubject: Password reset request\n\nHello, ".toList
    ++ lib.sql_text 49 u.username
    ++ "\n\nWe received a password reset request from IP ".toList ++ lib.sql_text 49 ip
    ++ " for this email,\nto confirm you want to do that, please click the link below.\n\n".toList
    ++ vhd.email_confirm_url ++ "/forgot?token=".toList ++ token
    ++ "&good=".toList ++ lib.lws_urlencode 49 post_good
    ++ "&bad=".toList ++ lib.lws_urlencode 49 post_bad
    ++ "\n\nIf this request is unexpected, please ignore it and\n".toList
    ++ "no further action will be taken.\n\n".toList
    ++ "If you have any questions or concerns about this\n".toList
    ++ "automated email, you can contact a real person at\n".toList
    ++ vhd.email_contact_person ++ ".\n\n.\n".toList

/-- The forgot branch of the `/login` form handler (the block under `FGS_FORGOT`).
The insert into `email` fails, as SQLite makes it, when the primary key `username`
is already in the table.  `none` stands for the dereference of a NULL string. -/
def login_forgot (lib : Lib) (wsi : Wsi) (vhd : per_vhost_data__generic_sessions)
    (pss : per_session_data__generic_sessions) (spa : Spa)
    (tv_sec : Int) (rnd : Rand) : Option Result :=
  if spa .FGS_USERNAME = none ∧ spa .FGS_EMAIL = none then some (plain_return (-1) vhd pss)
  else if spa .FGS_FORGOT_GOOD = none ∨ spa .FGS_FORGOT_BAD = none ∨
      spa .FGS_FORGOT_POST_GOOD = none ∨ spa .FGS_FORGOT_POST_BAD = none then
    some (plain_return (-1) vhd pss)
  else
    let u0 := { lwsgs_user_blank with username := [] }
    let u :=
      match spa .FGS_USERNAME with
      | some name =>
        select_users [.username, .email]
          (fun row => decide (row.username = lib.sql_text 49 name)) vhd.users u0
      | none =>
        select_users [.username, .email]
          (fun row => decide (row.email = lib.sql_text 49 ((spa .FGS_EMAIL).getD [])))
          vhd.users u0
    if u.username = [] then reg_done lib wsi vhd pss spa .FGS_FORGOT_BAD tv_sec rnd
    else
      let pss1 := { pss with ip := wsi.peer }
      match lws_get_random rnd with
      | (none, rnd1) => reg_done lib wsi vhd pss1 spa .FGS_BAD tv_sec rnd1
      | (some sid_rand, rnd1) =>
        let hash := sha1_to_lwsgw_hash sid_rand
        let key := lib.sql_text 49 u.username
        if vhd.email.any (fun row => decide (row.username = key)) then
          reg_done lib wsi vhd pss1 spa .FGS_FORGOT_BAD tv_sec rnd1
        else
          let vhd1 := { vhd with
            email := vhd.email ++
              [({ username := key,
                  content := forgot_mail lib vhd u pss1.ip hash
                    ((spa .FGS_FORGOT_POST_GOOD).getD []) ((spa .FGS_FORGOT_POST_BAD).getD []) } :
                EmailRow)] }
          let vhd2 := { vhd1 with
            users := vhd1.users.map (fun row =>
              if row.username = key then
                { row with token := hash, token_time := some (lwsgs_now_secs tv_sec) }
              else row) }
          reg_done lib wsi vhd2 pss1 spa .FGS_FORGOT_GOOD tv_sec rnd1

/-- The `/login` form handler at `LWS_CALLBACK_HTTP_BODY_COMPLETION`. -/
def login_body_completion (lib : Lib) (wsi : Wsi) (vhd : per_vhost_data__generic_sessions)
    (pss : per_session_data__generic_sessions) (spa : Spa)
    (tv_sec : Int) (rnd : Rand) (mem : Nat → Char) : Option Result :=
  if (spa .FGS_FORGOT).getD [] ≠ [] then login_forgot lib wsi vhd pss spa tv_sec rnd
  else login_post lib wsi vhd pss spa tv_sec rnd mem

/-- The `/logout` form handler at `LWS_CALLBACK_HTTP_BODY_COMPLETION`. -/
def logout_post (lib : Lib) (wsi : Wsi) (vhd : per_vhost_data__generic_sessions)
    (pss : per_session_data__generic_sessions) (spa : Spa)
    (tv_sec : Int) (rnd : Rand) : Option Result :=
  let g := lwsgs_get_sid_from_wsi wsi
  if g.1 ≠ 0 then
    some (plain_return 1 vhd { pss with login_session := overlay g.2 pss.login_session })
  else
    let pss1 := { pss with login_session := g.2 }
    let vhd1 := (lwsgw_update_session lib vhd g.2 [] tv_sec).2
    match spa .FGS_GOOD with
    | none => some (plain_return (-1) vhd1 pss1)
    | some good =>
      some (completion_flow lib wsi vhd1
        { pss1 with onward := good.take 255, login_expires := 0, logging_out := true }
        tv_sec rnd)

/-- The label `change_fail`. -/
def change_fail (lib : Lib) (wsi : Wsi) (vhd : per_vhost_data__generic_sessions)
    (pss : per_session_data__generic_sessions) (spa : Spa)
    (tv_sec : Int) (rnd : Rand) : Option Result :=
  match spa .FGS_BAD with
  | none => none
  | some b => some (completion_flow lib wsi vhd { pss with onward := b.take 255 } tv_sec rnd)

/-- The `/change` form handler from the hashing of the new password on, entered with
the struct `u` of the user whose password changes. -/
def change_update (lib : Lib) (wsi : Wsi) (vhd : per_vhost_data__generic_sessions)
    (pss : per_session_data__generic_sessions) (spa : Spa) (u : lwsgs_user)
    (tv_sec : Int) (rnd : Rand) (mem : Nat → Char) : Option Result :=
  match lwsgs_hash_password lib vhd ((spa .FGS_PASSWORD).getD []) u rnd mem with
  | (r, u1, rnd1) =>
    if r ≠ 0 then change_fail lib wsi vhd pss spa tv_sec rnd1
    else if spa .FGS_PASSWORD = none then none
    else
      pass lib wsi
        { vhd with
            users := vhd.users.map (fun row =>
              if row.username = lib.sql_text 49 u1.username then
                { row with pwhash := u1.pwhash, pwsalt := u1.pwsalt,
                           last_forgot_validated := 0 }
              else row) }
        pss spa (spa .FGS_GOOD) tv_sec rnd1

/-- The `/change` form handler when `n` has neither the logged-in bit nor
`LWSGS_AUTH_FORGOT_FLOW`: the user name and the current password of the form must be
right. -/
def change_with_credentials (lib : Lib) (wsi : Wsi) (vhd : per_vhost_data__generic_sessions)
    (pss : per_session_data__generic_sessions) (spa : Spa) (u : lwsgs_user)
    (tv_sec : Int) (rnd : Rand) (mem : Nat → Char) : Option Result :=
  match spa .FGS_USERNAME, spa .FGS_CURPW with
  | some name, some curpw =>
    if lwsgs_check_credentials lib vhd name curpw mem ≠ 0 then
      change_fail lib wsi vhd pss spa tv_sec rnd
    else change_update lib wsi vhd pss spa { u with username := name } tv_sec rnd mem
  | _, _ => none

/-- The `/change` form handler at `LWS_CALLBACK_HTTP_BODY_COMPLETION`.  `none` stands
for the use of a NULL string. -/
def change_post (lib : Lib) (wsi : Wsi) (vhd : per_vhost_data__generic_sessions)
    (pss : per_session_data__generic_sessions) (spa : Spa)
    (tv_sec : Int) (rnd : Rand) (mem : Nat → Char) : Option Result :=
  let g := lwsgs_get_sid_from_wsi wsi
  if g.1 = 0 then
    let u0 := { lwsgs_user_blank with username := [] }
    match lwsgs_lookup_session lib vhd g.2 [] 32 tv_sec with
    | (r, username, vhd1) =>
      if r = 0 then
        let lu := lwsgs_lookup_user lib vhd1 username u0
        if lu.1 ≠ 0 then change_fail lib wsi vhd1 pss spa tv_sec rnd
        else
          let n : Nat :=
            if lu.2.last_forgot_validated > (lwsgs_now_secs tv_sec - 300) % 2 ^ 32 then 1 ||| 8
            else 1
          if n &&& (8 ||| 1) = 0 then
            change_with_credentials lib wsi vhd1 pss spa lu.2 tv_sec rnd mem
          else change_update lib wsi vhd1 pss spa lu.2 tv_sec rnd mem
      else change_with_credentials lib wsi vhd1 pss spa u0 tv_sec rnd mem
  else change_with_credentials lib wsi vhd pss spa lwsgs_user_blank tv_sec rnd mem

/-- The two lines `pss->delete_session.id[0] = '\0';` and
`lwsgs_get_sid_from_wsi(wsi, &pss->delete_session);`: the string left in
`delete_session`, which held `old`. -/
def delete_session_from_wsi (wsi : Wsi) (old : CStr) : CStr :=
  let g := lwsgs_get_sid_from_wsi wsi
  if g.1 = 0 then g.2 else if g.2 = [] then [] else overlay g.2 old

/-- The label `verf_fail`. -/
def verf_fail (lib : Lib) (wsi : Wsi) (vhd : per_vhost_data__generic_sessions)
    (pss : per_session_data__generic_sessions) (tv_sec : Int) (rnd : Rand) : Result :=
  redirect_with_cookie lib wsi vhd
    { pss with
        delete_session := delete_session_from_wsi wsi pss.delete_session
        login_expires := 0
        onward := (vhd.email_confirm_url ++ "/post-verify-fail.html".toList).take 255 }
    tv_sec rnd

/-- The case `LWS_CALLBACK_HTTP` for the path `/confirm`. -/
def http_confirm (lib : Lib) (wsi : Wsi) (vhd : per_vhost_data__generic_sessions)
    (pss : per_session_data__generic_sessions) (tv_sec : Int) (rnd : Rand) : Result :=
  let pss0 := { pss with login_session := [], pos := 0, onward := "/confirm".toList }
  match wsi.uri_fragment0 with
  | none => verf_fail lib wsi vhd pss0 tv_sec rnd
  | some frag =>
    if frag.take 6 ≠ "token=".toList then verf_fail lib wsi vhd pss0 tv_sec rnd
    else
      let u := select_users [.username, .verified]
        (fun row => decide (row.token = lib.sql_text 49 (frag.drop 6))) vhd.users
        { lwsgs_user_blank with username := [] }
      if u.username = [] ∨ u.verified ≠ 1 then verf_fail lib wsi vhd pss0 tv_sec rnd
      else
        let vhd1 := { vhd with
          users := vhd.users.map (fun row =>
            if row.username = lib.sql_text 49 u.username then { row with verified := 100 }
            else row) }
        let pss1 := { pss0 with
          onward := (vhd.email_confirm_url ++ "/post-verify-ok.html".toList).take 255
          login_expires := (lwsgs_now_secs tv_sec + vhd.timeout_absolute_secs) % 2 ^ 32
          delete_session := delete_session_from_wsi wsi pss0.delete_session }
        match lwsgs_new_session_id lib vhd1 (some u.username) pss1.login_expires rnd with
        | (r, sid, vhd2, rnd1) =>
          if r ≠ 0 then verf_fail lib wsi vhd2 { pss1 with login_session := sid } tv_sec rnd1
          else redirect_with_cookie lib wsi vhd2 { pss1 with login_session := sid } tv_sec rnd1

/-- The label `forgot_fail`. -/
def forgot_fail (lib : Lib) (wsi : Wsi) (vhd : per_vhost_data__generic_sessions)
    (pss : per_session_data__generic_sessions) (tv_sec : Int) (rnd : Rand) : Result :=
  redirect_with_cookie lib wsi vhd
    { pss with
        delete_session := delete_session_from_wsi wsi pss.delete_session
        login_expires := 0
        onward := (vhd.email_confirm_url ++ ['/'] ++
          (wsi.urlarg "bad=".toList).getD "broken-forget-post-bad-url".toList).take 255 }
    tv_sec rnd

/-- The case `LWS_CALLBACK_HTTP` for the path `/forgot`. -/
def http_forgot (lib : Lib) (wsi : Wsi) (vhd : per_vhost_data__generic_sessions)
    (pss : per_session_data__generic_sessions) (tv_sec : Int) (rnd : Rand) : Result :=
  let pss0 := { pss with login_session := [], pos := 0, onward := "/forgot".toList }
  match wsi.urlarg "token=".toList with
  | none => forgot_fail lib wsi vhd pss0 tv_sec rnd
  | some token =>
    let u := select_users [.username, .verified]
      (fun row => decide (row.verified = 100) && decide (row.token = lib.sql_text 49 token)
        && (match row.token_time with
            | some t => !decide (t = 0)
            | none => false))
      vhd.users { lwsgs_user_blank with username := [] }
    if u.username = [] then forgot_fail lib wsi vhd pss0 tv_sec rnd
    else
      let vhd1 := { vhd with
        users := vhd.users.map (fun row =>
          if row.username = lib.sql_text 49 u.username then
            { row with token_time := some 0, last_forgot_validated := lwsgs_now_secs tv_sec }
          else row) }
      let pss1 := { pss0 with
        onward := (vhd.email_confirm_url ++ ['/'] ++
          (wsi.urlarg "good=".toList).getD "broken-forget-post-good-url".toList).take 255
        login_expires := (lwsgs_now_secs tv_sec + vhd.timeout_absolute_secs) % 2 ^ 32
        delete_session := delete_session_from_wsi wsi pss0.delete_session }
      match lwsgs_new_session_id lib vhd1 (some u.username) pss1.login_expires rnd with
      | (r, sid, vhd2, rnd1) =>
        if r ≠ 0 then forgot_fail lib wsi vhd2 { pss1 with login_session := sid } tv_sec rnd1
        else redirect_with_cookie lib wsi vhd2 { pss1 with login_session := sid } tv_sec rnd1

/-! ## The email worker -/

/-- The quote character of SQL string literals. -/
def sql_quote : Char := Char.ofNat 39

/-- The row that `select username from email limit 1;` gives to the callback.  The
statement has no `order by`; SQLite answers it from the index of the primary key
`username`, so the row is the one with the least user name in the order of the bytes,
whatever the order of the inserts was. -/
def email_first (rows : List EmailRow) : Option EmailRow :=
  rows.foldl (fun acc e =>
    match acc with
    | none => some e
    | some a => if e.username < a.username then some e else some a) none

/-- The function `lwsgs_email_cb_on_next`: the return value and the state after.
The second select names the user as `vhd->u.username` holds it, without
`lws_sql_purify`: for a name with a quote the result of the call is that of
`Lib.exec_unescaped`, which may change every table. -/
def lwsgs_email_cb_on_next (lib : Lib) (vhd : per_vhost_data__generic_sessions)
    (tv_sec : Int) : Int × per_vhost_data__generic_sessions :=
  let now := lwsgs_now_secs tv_sec
  let limit := (now - vhd.timeout_email_secs) % 2 ^ 64
  let users1 := vhd.users.filter
    (fun row => !(!decide (row.verified = 100) && decide (row.creation_time ≤ limit)))
  let users2 := users1.map (fun row =>
    match row.token_time with
    | some t => if t ≤ limit then { row with token_time := some 0 } else row
    | none => row)
  let u1 : lwsgs_user :=
    match email_first vhd.email with
    | none => { vhd.u with username := [] }
    | some e => { vhd.u with username := e.username.take 31 }
  let cols : List UserCol := [.username, .creation_time, .email, .ip, .verified, .token]
  if sql_quote ∈ u1.username then
    match lib.exec_unescaped u1.username (users2, vhd.sessions, vhd.email) with
    | (ok, (users3, sessions3, email3), rows) =>
      let u2 := rows.foldl (fun u row => lwsgs_lookup_callback_user cols row u) u1
      let vhd3 := { vhd with users := users3, sessions := sessions3, email := email3 }
      if !ok then (1, { vhd3 with u := u2 })
      else if u2.username = [] then (1, { vhd3 with u := u2 })
      else (0, { vhd3 with u := u2, email_to := u2.email })
  else
    let u2 := ((users2.filter (fun row => decide (row.username = u1.username))).take 1).foldl
      (fun u row => lwsgs_lookup_callback_user cols row u) u1
    if u2.username = [] then (1, { vhd with users := users2, u := u2 })
    else (0, { vhd with users := users2, u := u2, email_to := u2.email })

/-- The function `lwsgs_email_cb_get_body`: the return value and the text left in
`buf` of `len` bytes. -/
def lwsgs_email_cb_get_body (lib : Lib) (vhd : per_vhost_data__generic_sessions)
    (len : Nat) : Int × CStr :=
  let rows := vhd.email.filter (fun e => decide (e.username = lib.sql_text 49 vhd.u.username))
  (0, rows.foldl (fun _ e => e.content.take (len - 1)) ("failed".toList.take len))

/-- The function `lwsgs_email_cb_sent`: the return value and the state after. -/
def lwsgs_email_cb_sent (lib : Lib) (vhd : per_vhost_data__generic_sessions) :
    Int × per_vhost_data__generic_sessions :=
  let key := lib.sql_text 49 vhd.u.username
  (0, { vhd with
          users := vhd.users.map (fun row =>
            if row.username = key ∧ row.verified = 0 then { row with verified := 1 } else row)
          email := vhd.email.filter (fun e => !decide (e.username = key)) })

/-! ## The template interpolator -/

/-- The terminator of C strings. -/
def NUL : Char := Char.ofNat 0

/-- The table `vars` of the placeholders. -/
def vars : List CStr :=
  ["$lwsgs_user".toList, "$lwsgs_auth".toList, "$lwsgs_email".toList]

/-- The test `!strncmp(a, b, n)` for an array `a` and a C string `b`: a byte read
after the end of `b` is its terminator. -/
def strncmp_eq : List Char → List Char → Nat → Bool
  | _, _, 0 => true
  | a, b, n + 1 =>
    if a.headD NUL ≠ b.headD NUL then false
    else if a.headD NUL = NUL then true
    else strncmp_eq a.tail b.tail n

/-- The bytes a `memcpy` or `memmove` of `data` to the offset `i` leaves in the
memory `buf`. -/
def write_at (buf : List Char) (i : Nat) (data : List Char) : List Char :=
  buf.take i ++ List.replicate (i - buf.length) NUL ++ data ++ buf.drop (i + data.length)

/-- The `cnt` bytes of the memory `buf` from the offset `i` on. -/
def read_at (buf : List Char) (i cnt : Nat) : List Char := (buf.drop i).take cnt

/-- The state of the replacement loop of `LWS_CALLBACK_PROCESS_HTML`: the memory
from `args->p` on, with the bytes that lie behind the input, the offsets of `sp` and
`pss->start` from `args->p`, `old_len`, `args->len`, `pss->pos` and `pss->swallow`. -/
structure Scan where
  buf : List Char
  sp : Nat
  old_len : Int
  len : Int
  pos : Nat
  swallow : List Char
  start : Nat
  deriving DecidableEq

/-- The loop `for (n = 0; n < ARRAY_SIZE(vars); n++)` that counts the placeholders
the swallowed bytes are a beginning of: `hits` and `hit`. -/
def scan_hits (swallow : List Char) (pos : Nat) : Nat × Nat :=
  (List.range 3).foldl
    (fun (acc : Nat × Nat) n =>
      if strncmp_eq swallow (vars.getD n []) pos then (acc.1 + 1, n) else acc)
    (0, 0)

/-- The label `skip`: the swallowed bytes are put back and the scan resumes behind
their first byte. -/
def scan_skip (s : Scan) (start pos : Nat) (swallow : List Char) : Scan :=
  { s with
      buf := write_at s.buf start ((swallow.set pos NUL).take pos)
      len := s.len + 1
      pos := 0
      sp := start + 1
      swallow := swallow.set pos NUL
      start := start }

/-- One pass through the body of the replacement loop, after the test of the
padding; `vals n` is the text that replaces `vars[n]`. -/
def scan_step (vals : Nat → CStr) (s : Scan) : Scan :=
  let c := s.buf.getD s.sp NUL
  if (s.pos = 0 ∧ c = '$') ∨ s.pos ≠ 0 then
    let start := if s.pos = 0 then s.sp else s.start
    let sw := s.swallow.set s.pos c
    let pos := s.pos + 1
    if pos = 16 then scan_skip s start pos sw
    else
      let h := scan_hits sw pos
      if h.1 = 0 then scan_skip s start pos sw
      else if h.1 = 1 ∧ pos = (vars.getD h.2 []).length then
        let pc := vals h.2
        let n := pc.length
        let moved :=
          if n ≠ pos then
            write_at s.buf (start + n) (read_at s.buf (start + pos) (s.old_len - s.sp).toNat)
          else s.buf
        { buf := write_at moved start pc
          sp := start + 1 + 1
          old_len := if n ≠ pos then s.old_len + ((n : Int) - pos) + 1 else s.old_len
          len := s.len + 1
          pos := 0
          swallow := sw.set pos NUL
          start := start }
      else { s with sp := s.sp + 1, pos := pos, swallow := sw, start := start }
  else { s with len := s.len + 1, sp := s.sp + 1 }

/-- The replacement loop `while (sp < args->p + old_len)` run for at most `fuel`
passes: `none` when the passes do not suffice, else the value the callback returns
from inside the loop (-1) or 0 when the loop is left, and the state then. -/
def scan_loop (vals : Nat → CStr) (max_len : Int) : Nat → Scan → Option (Int × Scan)
  | 0, _ => none
  | fuel + 1, s =>
    if (s.sp : Int) < s.old_len then
      if s.len + 7 ≥ max_len then some (-1, s)
      else scan_loop vals max_len fuel (scan_step vals s)
    else some (0, s)

/-- The struct `lws_process_html_args`; `p` is the memory from `args->p` on. -/
structure lws_process_html_args where
  p : List Char
  len : Int
  max_len : Int
  final : Bool
  deriving DecidableEq

/-- What `LWS_CALLBACK_PROCESS_HTML` leaves: its return value, the states and the
args after. -/
structure HtmlResult where
  ret : Int
  vhd : per_vhost_data__generic_sessions
  pss : per_session_data__generic_sessions
  args : lws_process_html_args
  deriving DecidableEq

/-- The text `sprintf` renders for `%X`. -/
def hex_upper (n : Nat) : List Char := (Nat.toDigits 16 n).map Char.toUpper

/-- The three replacement texts of a request: the user name of its session, the
decimal auth level of this name, and the email of the user. -/
def html_vals (lib : Lib) (vhd : per_vhost_data__generic_sessions) (username email : CStr)
    (tv_sec : Int) : Nat → CStr := fun n =>
  match n with
  | 0 => username
  | 1 => (Nat.repr (lwsgs_get_auth_level lib vhd username tv_sec)).toList
  | _ => email

/-- The replacements and the chunk framing of `LWS_CALLBACK_PROCESS_HTML`, for the
user name and the email of the caller. -/
def process_html_body (lib : Lib) (vhd : per_vhost_data__generic_sessions)
    (pss : per_session_data__generic_sessions) (args : lws_process_html_args)
    (username email : CStr) (tv_sec : Int) (fuel : Nat) : Option HtmlResult :=
  match scan_loop (html_vals lib vhd username email tv_sec) args.max_len fuel
      { buf := args.p, sp := 0, old_len := args.len, len := 0, pos := pss.pos,
        swallow := pss.swallow, start := 0 } with
  | none => none
  | some (r, s) =>
    let pss1 := { pss with pos := s.pos, swallow := s.swallow }
    if r ≠ 0 then
      some { ret := -1, vhd := vhd, pss := pss1, args := { args with p := s.buf, len := s.len } }
    else if args.final ∧ s.len + 7 ≥ args.max_len then
      some { ret := -1, vhd := vhd, pss := pss1, args := { args with p := s.buf, len := s.len } }
    else
      let head := hex_upper s.len.toNat ++ ['\r', '\n']
      let tail : List Char :=
        if args.final then ['\r', '\n', '0', '\r', '\n', '\r', '\n'] else ['\r', '\n']
      some { ret := 0, vhd := vhd, pss := pss1,
             args := { args with
               p := head ++ write_at s.buf s.len.toNat tail
               len := s.len + head.length + tail.length } }

/-- The case `LWS_CALLBACK_PROCESS_HTML`, with the passes the replacement loop may
take. -/
def process_html (lib : Lib) (wsi : Wsi) (vhd : per_vhost_data__generic_sessions)
    (pss : per_session_data__generic_sessions) (args : lws_process_html_args)
    (tv_sec : Int) (fuel : Nat) : Option HtmlResult :=
  let g := lwsgs_get_sid_from_wsi wsi
  if g.1 = 0 then
    match lwsgs_lookup_session lib vhd g.2 [] 32 tv_sec with
    | (r, username, vhd1) =>
      if r ≠ 0 then
        some { ret := 1, vhd := vhd1, pss := { pss with delete_session := g.2 }, args := args }
      else
        let u := select_users [.username, .email]
          (fun row => decide (row.username = lib.sql_text 49 username)) vhd1.users
          { lwsgs_user_blank with email := [] }
        process_html_body lib vhd1 pss args username u.email tv_sec fuel
  else process_html_body lib vhd pss args [] [] tv_sec fuel

/-- The payload of a chunk: the `len` bytes the replacement loop leaves at `args->p`
for the input `input` followed in memory by `behind`, with idle scanner and the
replacement texts `vals`; `none` when the loop does not end with 0. -/
def payload_of (vals : Nat → CStr) (input behind : List Char) (max_len : Int) (fuel : Nat) :
    Option (List Char) :=
  match scan_loop vals max_len fuel
      { buf := input ++ behind, sp := 0, old_len := input.length, len := 0, pos := 0,
        swallow := List.replicate 16 NUL, start := 0 } with
  | some (0, s) => some (s.buf.take s.len.toNat)
  | _ => none

/-! ## Statements about the cookie text -/

/-- The cookie text is `pre ++ "id=" ++ rest` and no occurrence of `id=` starts
before `pre` ends: `rest` is the text that follows the first occurrence of `id=`. -/
def FirstId (cookie pre rest : CStr) : Prop :=
  cookie = pre ++ id_eq ++ rest ∧
    ∀ pre' rest', cookie = pre' ++ id_eq ++ rest' → pre.length ≤ pre'.length

/-- The text begins with 40 characters of the id alphabet `[0-9a-f]`. -/
def Starts40Hex (s : CStr) : Prop :=
  40 ≤ s.length ∧ ∀ c ∈ s.take 40, isSidChar c = true

/-- The id value of a cookie: the text after `id=` up to the next `;` or the end. -/
def id_value (rest : CStr) : CStr := rest.takeWhile (fun c => c != ';')

/-- The text is exactly 40 characters of the id alphabet: it matches `^[0-9a-f]{40}$`. -/
def MatchesSid (s : CStr) : Prop :=
  s.length = 40 ∧ ∀ c ∈ s, isSidChar c = true

/-- A cookie header whose id value has 41 characters of the id alphabet. -/
def cookie41 : CStr := id_eq ++ List.replicate 41 'a'

/-- A stand-in for the digest, for evaluation on concrete inputs: byte `i` of the
digest is byte `off + i` of the message, `z` after its end. -/
def toy_sha1 (off : Nat) (msg : List Char) : Bytes :=
  fun i => (msg.getD (off + i) 'z').toNat

/-- A library whose SQL text is the string itself. -/
def lib0 : Lib :=
  { lws_SHA1 := toy_sha1 0, sql_text := fun _ s => s, strftime_gmt := fun _ => [] }

/-- A configured vhost with the default timeouts and empty tables; the admin is
`root` with the password `secret`. -/
def vhd0 : per_vhost_data__generic_sessions :=
  { admin_user := ['r', 'o', 'o', 't'], confounder := ['x', 'y'],
    email_contact_person := [], email_title := [], email_template := [],
    email_confirm_url := [], email_from := [],
    admin_password_sha1 := sha1_to_lwsgw_hash (toy_sha1 0 ['s', 'e', 'c', 'r', 'e', 't']),
    timeout_idle_secs := 600, timeout_absolute_secs := 36000,
    timeout_anon_absolute_secs := 1200, timeout_email_secs := 86400,
    last_session_expire := 0, users := [], sessions := [], email := [] }

/-- The user name `bob`. -/
def bob : CStr := ['b', 'o', 'b']

/-- A users row for `bob` with the given `verified`. -/
def bob_row (verified : Int) : UserRow :=
  { username := bob, creation_time := 0, ip := [], email := ['b', '@', 'x'],
    pwhash := [], pwsalt := [], pwchange_time := none, token := [], verified := verified,
    token_time := none, last_forgot_validated := 0 }

/-- A session id of 40 times `a`. -/
def sid_a : CStr := List.replicate 40 'a'

/-- A request with no Cookie header. -/
def wsi_plain : Wsi :=
  { cookie := none, host := some ['h'], is_ssl := false, peer := ['1'],
    transaction_completed := 0 }

/-- A request whose Cookie header is `id=` and 40 times `a`. -/
def wsi_a : Wsi := { wsi_plain with cookie := some (id_eq ++ sid_a) }

/-- A fresh per-connection state. -/
def pss0 : per_session_data__generic_sessions :=
  { login_session := [], delete_session := [], login_expires := 0, onward := [], ip := [],
    logging_out := false }

/-- A state whose last sweep ran at 1000 and whose one session, of `bob`, expires at
1001. -/
def vhd_stale : per_vhost_data__generic_sessions :=
  { vhd0 with
      last_session_expire := 1000
      sessions := [{ name := sid_a, username := bob, expire := 1001 }] }

/-- A library whose stand-in digest reads the message from byte 298 on. -/
def lib298 : Lib := { lib0 with lws_SHA1 := toy_sha1 298 }

/-- A password of 300 characters. -/
def pw300 : CStr := List.replicate 300 'a'

/-- A salt of 40 characters. -/
def salt0 : CStr := List.replicate 40 '0'

/-- A state whose user `bob` has the password `pw300`: the stored hash is the
hexified digest of password, confounder and salt. -/
def vhd_pw300 : per_vhost_data__generic_sessions :=
  { vhd0 with
      users := [{ bob_row 100 with
                    pwsalt := salt0
                    pwhash := sha1_to_lwsgw_hash
                      (toy_sha1 298 (password_text pw300 vhd0.confounder salt0)) }] }

/-- Memory that holds `q` in every byte. -/
def mem0 : Nat → Char := fun _ => 'q'

/-- The login form of the admin: `root`, `secret`, and the good URL `/home`. -/
def spa_admin : Spa := fun n =>
  match n with
  | .FGS_USERNAME => some ['r', 'o', 'o', 't']
  | .FGS_PASSWORD => some ['s', 'e', 'c', 'r', 'e', 't']
  | .FGS_GOOD => some ['/', 'h', 'o', 'm', 'e']
  | _ => none

/-- A register form for the user name `bob` and the email `b@x`. -/
def spa_register : Spa := fun n =>
  match n with
  | .FGS_USERNAME => some bob
  | .FGS_PASSWORD => some ['p', 'w']
  | .FGS_EMAIL => some ['b', '@', 'x']
  | .FGS_REGISTER => some ['1']
  | .FGS_REG_GOOD => some ['/', 'o', 'k']
  | .FGS_REG_BAD => some ['/', 'b', 'a', 'd']
  | _ => none

/-- A state whose users table holds `bob`. -/
def vhd_bob : per_vhost_data__generic_sessions := { vhd0 with users := [bob_row 100] }

/-! ## Concrete inputs for the flows -/

/-- A script of three random values. -/
def rnd3 : Rand := [some (fun i => 16 * i + 3), some (fun _ => 255), some (fun i => i)]

/-- A session id of 40 times `b`. -/
def sid_b : CStr := List.replicate 40 'b'

/-- A state whose user `bob` is verified and whose session `sid_a` is bound to him. -/
def vhd_session : per_vhost_data__generic_sessions :=
  { vhd_bob with sessions := [{ name := sid_a, username := bob, expire := 40000 }] }

/-- A register form for the new user name `carol`. -/
def spa_carol : Spa := fun n =>
  match n with
  | .FGS_USERNAME => some ['c', 'a', 'r', 'o', 'l']
  | .FGS_EMAIL => some ['c', '@', 'x']
  | other => spa_register other

/-- A state whose user `bob` went through the forgot flow at second 1000 and holds the
session `sid_a`. -/
def vhd_forgot_done : per_vhost_data__generic_sessions :=
  { vhd0 with
      users := [{ bob_row 100 with last_forgot_validated := 1000 }]
      sessions := [{ name := sid_a, username := bob, expire := 40000 }] }

/-- A change form with a new password and no current password. -/
def spa_change : Spa := fun n =>
  match n with
  | .FGS_USERNAME => some bob
  | .FGS_PASSWORD => some ['n', 'e', 'w', 'p', 'w']
  | .FGS_GOOD => some ['/', 'd', 'o', 'n', 'e']
  | .FGS_BAD => some ['/', 'b', 'a', 'd']
  | _ => none

/-- A logout form with the good URL `/bye`. -/
def spa_logout : Spa := fun n =>
  match n with
  | .FGS_GOOD => some ['/', 'b', 'y', 'e']
  | _ => none

/-- A state with the session `sid_a` of `bob` and the session `sid_b`, anonymous, that
expired at second 500 and was not swept yet. -/
def vhd_two_sessions : per_vhost_data__generic_sessions :=
  { vhd_bob with
      sessions := [{ name := sid_a, username := bob, expire := 40000 },
                   { name := sid_b, username := [], expire := 500 }] }

/-- A state with an account created at second 0 and not verified, and an email expiry
of 3600 seconds. -/
def vhd_unverified : per_vhost_data__generic_sessions :=
  { vhd0 with timeout_email_secs := 3600, users := [bob_row 0] }

/-- A user name of 31 characters that ends the quoted name and spells a second
statement. -/
def inj_name : CStr := sql_quote :: ";update users set verified=9--".toList

/-- A library for which SQLite runs the statement that `inj_name` spells: the select
finds no user of the empty name, the update sets `verified` to 9 in every row of
`users`. -/
def lib_inj : Lib :=
  { lib0 with
      exec_unescaped := fun name tables =>
        if name = inj_name then
          (true, (tables.1.map (fun row => { row with verified := 9 }), tables.2), [])
        else (false, tables, []) }

/-- A register form for the user name `inj_name`. -/
def spa_inj : Spa := fun n =>
  match n with
  | .FGS_USERNAME => some inj_name
  | .FGS_EMAIL => some ['i', '@', 'x']
  | other => spa_register other

/-- The replacement texts of a caller whose user name has 11 characters. -/
def vals11 : Nat → CStr := fun n =>
  match n with
  | 0 => "elevenchars".toList
  | 1 => ['5']
  | _ => ['e', '@', 'x']

/-- A register form for the user name of the admin, `root`. -/
def spa_root : Spa := fun n =>
  match n with
  | .FGS_USERNAME => some ['r', 'o', 'o', 't']
  | other => spa_register other

/-- The second state has the users table, the mail queue, the admin name and the
confirm URL of the first: what an operation on the sessions alone leaves. -/
def Frame (v v' : per_vhost_data__generic_sessions) : Prop :=
  v'.users = v.users ∧ v'.email = v.email ∧ v'.admin_user = v.admin_user ∧
    v'.email_confirm_url = v.email_confirm_url

/-- A token, as a mail carries it. -/
def tok_t : CStr := List.replicate 40 'c'

/-- A request whose first URI fragment is `token=` and the token `tok_t`. -/
def wsi_confirm : Wsi := { wsi_plain with uri_fragment0 := some ("token=".toList ++ tok_t) }

/-- A users table whose one row has the token `tok_t`. -/
def vhd_token (name : CStr) (verified : Int) : per_vhost_data__generic_sessions :=
  { vhd0 with users := [{ bob_row verified with username := name, token := tok_t }] }

/-- A user name of 32 characters, the width of the column `username`. -/
def name32 : CStr := List.replicate 32 'n'

/-- A request for `/forgot` with the URL arguments `token=`, `good=` and `bad=`. -/
def wsi_forgot : Wsi :=
  { wsi_plain with
      urlarg := fun name =>
        if name = "token=".toList then some tok_t
        else if name = "good=".toList then some ['o', 'k']
        else if name = "bad=".toList then some ['n', 'o']
        else none }

/-- A users table whose one row is verified and has the live forgot token `tok_t`. -/
def vhd_forgot_token (name : CStr) : per_vhost_data__generic_sessions :=
  { vhd0 with
      users := [{ bob_row 100 with username := name, token := tok_t, token_time := some 900 }] }

/-- The second state has the admin name of the first and no user name that the first
had not: what every operation but the insert of a registration leaves. -/
def Keeps (v v' : per_vhost_data__generic_sessions) : Prop :=
  v'.admin_user = v.admin_user ∧
    ∀ row ∈ v'.users, ∃ row0 ∈ v.users, row0.username = row.username

/-- No row of the users table has the name of the admin. -/
def NoAdmin (v : per_vhost_data__generic_sessions) : Prop :=
  ∀ row ∈ v.users, row.username ≠ v.admin_user

/-- One operation of the plugin on the state of a vhost: a POST of `/login` (login,
registration or forgot request), a GET of `/confirm` or `/forgot`, a POST of `/change`
or `/logout`, and the callbacks `on_next` and `on_sent` of the mail worker.  A request on
which the handler uses a NULL string makes no step, and `on_next` is taken at a mail
queue in which no user name has a quote in its first 31 characters. -/
inductive Step (lib : Lib) :
    per_vhost_data__generic_sessions → per_vhost_data__generic_sessions → Prop
  | login (v : per_vhost_data__generic_sessions) (wsi : Wsi)
      (pss : per_session_data__generic_sessions) (spa : Spa) (tv_sec : Int) (rnd : Rand)
      (mem : Nat → Char) (r : Result) :
      login_body_completion lib wsi v pss spa tv_sec rnd mem = some r → Step lib v r.vhd
  | confirm (v : per_vhost_data__generic_sessions) (wsi : Wsi)
      (pss : per_session_data__generic_sessions) (tv_sec : Int) (rnd : Rand) :
      Step lib v (http_confirm lib wsi v pss tv_sec rnd).vhd
  | forgot (v : per_vhost_data__generic_sessions) (wsi : Wsi)
      (pss : per_session_data__generic_sessions) (tv_sec : Int) (rnd : Rand) :
      Step lib v (http_forgot lib wsi v pss tv_sec rnd).vhd
  | change (v : per_vhost_data__generic_sessions) (wsi : Wsi)
      (pss : per_session_data__generic_sessions) (spa : Spa) (tv_sec : Int) (rnd : Rand)
      (mem : Nat → Char) (r : Result) :
      change_post lib wsi v pss spa tv_sec rnd mem = some r → Step lib v r.vhd
  | logout (v : per_vhost_data__generic_sessions) (wsi : Wsi)
      (pss : per_session_data__generic_sessions) (spa : Spa) (tv_sec : Int) (rnd : Rand)
      (r : Result) :
      logout_post lib wsi v pss spa tv_sec rnd = some r → Step lib v r.vhd
  | on_next (v : per_vhost_data__generic_sessions) (tv_sec : Int) :
      (∀ e ∈ v.email, sql_quote ∉ e.username.take 31) →
      Step lib v (lwsgs_email_cb_on_next lib v tv_sec).2
  | on_sent (v : per_vhost_data__generic_sessions) :
      Step lib v (lwsgs_email_cb_sent lib v).2

/-- The second state has the admin name of the first, and every user name in it was in
the first or is the escaped text of a string other than the admin name: what every
operation leaves. -/
def Grows (lib : Lib) (v v' : per_vhost_data__generic_sessions) : Prop :=
  v'.admin_user = v.admin_user ∧
    ∀ row ∈ v'.users, (∃ row0 ∈ v.users, row0.username = row.username) ∨
      ∃ s, v.admin_user ≠ s ∧ row.username = lib.sql_text 49 s

/-- The result of the registration of `carol`, sent with the cookie of the session
`sid_a`, on the state `vhd_bob`. -/
def carol_registered : Result :=
  (login_body_completion lib0 wsi_a vhd_bob pss0 spa_carol 1000 rnd3 mem0).getD
    (plain_return 0 vhd_bob pss0)

/-- The input `$lwsgs`, the beginning of the three placeholders, as a chunk that is not
the last, with room for 100 bytes. -/
def args_pending : lws_process_html_args :=
  { p := "$lwsgs".toList, len := 6, max_len := 100, final := false }

/-- An empty chunk that is not the last, with room for `max_len` bytes. -/
def args_empty (max_len : Int) : lws_process_html_args :=
  { p := [], len := 0, max_len := max_len, final := false }

/-- A library whose stand-in digest reads the message from byte 148 on. -/
def lib148 : Lib := { lib0 with lws_SHA1 := toy_sha1 148 }

/-- A password of 120 characters. -/
def pw120 : CStr := List.replicate 120 'a'

/-- A change form with the new password `pw120` and no current password. -/
def spa_change120 : Spa := fun n =>
  match n with
  | .FGS_PASSWORD => some pw120
  | other => spa_change other

/-- The first `n` bytes of the memory `buf`; the bytes behind the list are read as
NUL, as `scan_step` reads them. -/
def mem_bytes (buf : List Char) (n : Nat) : List Char :=
  buf.take n ++ List.replicate (n - buf.length) NUL

/-- The value of a hexadecimal digit, as the reader of a chunk size takes it. -/
def hex_digit_value (c : Char) : Nat :=
  if '0' ≤ c ∧ c ≤ '9' then c.toNat - '0'.toNat
  else if 'A' ≤ c ∧ c ≤ 'F' then c.toNat - 'A'.toNat + 10
  else if 'a' ≤ c ∧ c ≤ 'f' then c.toNat - 'a'.toNat + 10
  else 0

/-- The number that a chunk-size line denotes for the reader of a chunked body. -/
def chunk_size_value (digits : List Char) : Nat :=
  digits.foldl (fun acc c => 16 * acc + hex_digit_value c) 0

/-- The first state of the replacement loop of an invocation. -/
def scan_init (pss : per_session_data__generic_sessions) (args : lws_process_html_args) :
    Scan :=
  { buf := args.p, sp := 0, old_len := args.len, len := 0, pos := pss.pos,
    swallow := pss.swallow, start := 0 }

/-- The last chunk `hi $lwsgs_user!` of a page, with room for 100 bytes. -/
def args_hi : lws_process_html_args :=
  { p := "hi $lwsgs_user!".toList, len := 15, max_len := 100, final := true }

/-- What the interpolator leaves for `args_hi` and the user `bob`. -/
def html_hi : HtmlResult :=
  (process_html_body lib0 vhd0 pss0 args_hi bob [] 1000 100).getD
    { ret := 1, vhd := vhd0, pss := pss0, args := args_hi }

/-- The scanner is idle or holds in `swallow` the first `pos` bytes of a placeholder
that has more bytes than `pos`. -/
def Pending (pos : Nat) (swallow : List Char) : Prop :=
  swallow.length = 16 ∧
    (pos = 0 ∨ ∃ v ∈ vars, pos < v.length ∧ swallow.take pos = v.take pos)

/-- One invocation of the interpolator that returns takes the per-connection state
from the first to the second. -/
def Invoked (lib : Lib) (pss pss' : per_session_data__generic_sessions) : Prop :=
  ∃ (vhd : per_vhost_data__generic_sessions) (args : lws_process_html_args)
    (username email : CStr) (tv_sec : Int) (fuel : Nat) (res : HtmlResult),
    process_html_body lib vhd pss args username email tv_sec fuel = some res ∧ pss' = res.pss

/-- What the interpolator leaves for the chunk `$lwsgs`. -/
def html_pending : HtmlResult :=
  (process_html_body lib0 vhd0 pss0 args_pending [] [] 1000 100).getD
    { ret := 1, vhd := vhd0, pss := pss0, args := args_pending }

/-- The clock reading `tv` is not negative and the two session timeouts `A` (sessions
of a user) and `B` (anonymous sessions) are not negative and do not carry an expiry
computed at `tv` over `2 ^ 32`. -/
def NoWrap (A B tv : Int) : Prop :=
  0 ≤ A ∧ 0 ≤ B ∧ 0 ≤ tv ∧ tv + A < 2 ^ 32 ∧ tv + B < 2 ^ 32

/-- The state has the session timeouts `A` and `B`, its last sweep is not after `now`,
and no session of its table expires before the last sweep. -/
def Good (A B now : Int) (v : per_vhost_data__generic_sessions) : Prop :=
  v.timeout_absolute_secs = A ∧ v.timeout_anon_absolute_secs = B ∧
    v.last_session_expire ≤ now ∧ ∀ s ∈ v.sessions, v.last_session_expire ≤ s.expire

/-- What `LWS_CALLBACK_ADD_HEADERS` leaves: its return value, the values of the
`set-cookie:` headers it added at `args->p`, and the states after. -/
structure HeadersResult where
  ret : Int
  set_cookie : List CStr
  vhd : per_vhost_data__generic_sessions
  pss : per_session_data__generic_sessions
  deriving DecidableEq

/-- The case `LWS_CALLBACK_ADD_HEADERS`: the sweep, the cookie that deletes
`delete_session`, and a new anonymous session with its cookie when the connection has no
login session, the request brings none and the connection is not logging out.  The
header writer is taken to succeed. -/
def add_headers (lib : Lib) (wsi : Wsi) (vhd : per_vhost_data__generic_sessions)
    (pss : per_session_data__generic_sessions) (tv_sec : Int) (rnd : Rand) : HeadersResult :=
  let vhd1 := (lwsgw_expire_old_sessions vhd tv_sec).2
  let del : List CStr :=
    if pss.delete_session ≠ [] then [lwsgw_cookie_from_session lib pss.delete_session 0 tv_sec]
    else []
  let login : CStr :=
    if pss.login_session = [] then (lwsgs_get_sid_from_wsi wsi).2 else pss.login_session
  if login = [] ∧ pss.logging_out = false then
    let exp := (lwsgs_now_secs tv_sec + vhd1.timeout_anon_absolute_secs) % 2 ^ 32
    match lwsgs_new_session_id lib vhd1 (some []) exp rnd with
    | (r, sid, vhd2, _) =>
      if r ≠ 0 then
        { ret := if wsi.transaction_completed ≠ 0 then -1 else 0, set_cookie := del,
          vhd := vhd2, pss := { pss with login_session := sid, login_expires := exp } }
      else
        { ret := 0, set_cookie := del ++ [lwsgw_cookie_from_session lib sid exp tv_sec],
          vhd := vhd2, pss := { pss with login_session := sid, login_expires := exp } }
  else { ret := 0, set_cookie := del, vhd := vhd1, pss := { pss with login_session := login } }

/-- One operation of the plugin at the clock reading `tv`, on a state paired with the
clock reading of the operation before: the clock does not go back, and a reading at
which sessions are touched satisfies `NoWrap`.  The operations are the form handlers, the
GET handlers, the access check, the interpolator, the header callback and the callbacks
of the mail worker; `on_next` is taken where the statement it builds from the queued
name leaves the sessions table as it is, so that every `expire` is one that the insert
or the update of the plugin has set. -/
inductive TStep (lib : Lib) (A B : Int) :
    per_vhost_data__generic_sessions × Int → per_vhost_data__generic_sessions × Int → Prop
  | login (v : per_vhost_data__generic_sessions) (c : Int) (wsi : Wsi)
      (pss : per_session_data__generic_sessions) (spa : Spa) (tv : Int) (rnd : Rand)
      (mem : Nat → Char) (r : Result) :
      c ≤ tv → NoWrap A B tv →
      login_body_completion lib wsi v pss spa tv rnd mem = some r →
      TStep lib A B (v, c) (r.vhd, tv)
  | confirm (v : per_vhost_data__generic_sessions) (c : Int) (wsi : Wsi)
      (pss : per_session_data__generic_sessions) (tv : Int) (rnd : Rand) :
      c ≤ tv → NoWrap A B tv →
      TStep lib A B (v, c) ((http_confirm lib wsi v pss tv rnd).vhd, tv)
  | forgot (v : per_vhost_data__generic_sessions) (c : Int) (wsi : Wsi)
      (pss : per_session_data__generic_sessions) (tv : Int) (rnd : Rand) :
      c ≤ tv → NoWrap A B tv →
      TStep lib A B (v, c) ((http_forgot lib wsi v pss tv rnd).vhd, tv)
  | change (v : per_vhost_data__generic_sessions) (c : Int) (wsi : Wsi)
      (pss : per_session_data__generic_sessions) (spa : Spa) (tv : Int) (rnd : Rand)
      (mem : Nat → Char) (r : Result) :
      c ≤ tv → NoWrap A B tv →
      change_post lib wsi v pss spa tv rnd mem = some r →
      TStep lib A B (v, c) (r.vhd, tv)
  | logout (v : per_vhost_data__generic_sessions) (c : Int) (wsi : Wsi)
      (pss : per_session_data__generic_sessions) (spa : Spa) (tv : Int) (rnd : Rand)
      (r : Result) :
      c ≤ tv → NoWrap A B tv →
      logout_post lib wsi v pss spa tv rnd = some r →
      TStep lib A B (v, c) (r.vhd, tv)
  | access (v : per_vhost_data__generic_sessions) (c : Int) (wsi : Wsi)
      (pss : per_session_data__generic_sessions) (max_len : Nat) (args_p : CStr) (tv : Int)
      (rnd : Rand) :
      c ≤ tv → NoWrap A B tv →
      TStep lib A B (v, c) ((check_access_rights lib wsi v pss max_len args_p tv rnd).vhd, tv)
  | html (v : per_vhost_data__generic_sessions) (c : Int) (wsi : Wsi)
      (pss : per_session_data__generic_sessions) (args : lws_process_html_args) (tv : Int)
      (fuel : Nat) (res : HtmlResult) :
      c ≤ tv → NoWrap A B tv →
      process_html lib wsi v pss args tv fuel = some res →
      TStep lib A B (v, c) (res.vhd, tv)
  | headers (v : per_vhost_data__generic_sessions) (c : Int) (wsi : Wsi)
      (pss : per_session_data__generic_sessions) (tv : Int) (rnd : Rand) :
      c ≤ tv → NoWrap A B tv →
      TStep lib A B (v, c) ((add_headers lib wsi v pss tv rnd).vhd, tv)
  | on_next (v : per_vhost_data__generic_sessions) (c : Int) (tv : Int) :
      c ≤ tv → (lwsgs_email_cb_on_next lib v tv).2.sessions = v.sessions →
      TStep lib A B (v, c) ((lwsgs_email_cb_on_next lib v tv).2, tv)
  | on_sent (v : per_vhost_data__generic_sessions) (c : Int) :
      TStep lib A B (v, c) ((lwsgs_email_cb_sent lib v).2, c)

/-- A user name of 40 times `n`, which `lws_sql_purify` leaves as it is. -/
def name40 : CStr := List.replicate 40 'n'

/-- A state whose users table holds a verified user of the name `name40`. -/
def vhd_name40 : per_vhost_data__generic_sessions :=
  { vhd0 with users := [{ bob_row 100 with username := name40, email := ['n', '@', 'x'] }] }

/-- A register form for the user name `name40` and the email `b@x`. -/
def spa_name40 : Spa := fun n =>
  match n with
  | .FGS_USERNAME => some name40
  | other => spa_register other

/-- The state `vhd_session` with a negative timeout of anonymous sessions. -/
def vhd_negative : per_vhost_data__generic_sessions :=
  { vhd_session with timeout_anon_absolute_secs := -2000 }

/-- A mail queue into which `zed` was inserted before `amy`. -/
def queue_zed_amy : List EmailRow :=
  [{ username := ['z', 'e', 'd'], content := [] }, { username := ['a', 'm', 'y'], content := [] }]

/-! ## Lemmas on the cookie scanner -/

set_option maxRecDepth 100000


theorem id_eq_length : id_eq.length = 3 := rfl

theorem take3_of_decomp (rest : CStr) : (id_eq ++ rest).take 3 = id_eq := by
  simp [id_eq]

theorem decomp_nil_ne (pre rest : CStr) : ([] : CStr) ≠ pre ++ id_eq ++ rest := by
  intro h
  have := congrArg List.length h
  simp [id_eq] at this
  omega

/-- Either `skip_to_id` stops right after the first `id=`, or the text has no `id=`
and it stops at the terminator. -/
theorem skip_to_id_spec (cookie : CStr) :
    (∃ pre, FirstId cookie pre (skip_to_id cookie)) ∨
      ((∀ pre rest, cookie ≠ pre ++ id_eq ++ rest) ∧ skip_to_id cookie = []) := by
  induction cookie with
  | nil => exact Or.inr ⟨fun pre rest => decomp_nil_ne pre rest, rfl⟩
  | cons c t ih =>
    by_cases h3 : (c :: t).take 3 = id_eq
    · left
      refine ⟨[], ?_, fun _ _ _ => Nat.zero_le _⟩
      have hs : skip_to_id (c :: t) = (c :: t).drop 3 := by
        rw [skip_to_id, if_pos h3]
      rw [hs, List.nil_append, ← h3, List.take_append_drop]
    · have hs : skip_to_id (c :: t) = skip_to_id t := by
        rw [skip_to_id, if_neg h3]
      have hne : ∀ rest', c :: t ≠ [] ++ id_eq ++ rest' := by
        intro rest' h
        apply h3
        rw [h, List.nil_append]
        exact take3_of_decomp rest'
      rcases ih with ⟨pre, hdec, hmin⟩ | ⟨hno, hnil⟩
      · left
        refine ⟨c :: pre, ?_, ?_⟩
        · rw [hs]
          exact congrArg (List.cons c) hdec
        · intro pre' rest' h
          cases pre' with
          | nil => exact absurd h (hne rest')
          | cons a p'' =>
            have ht : t = p'' ++ id_eq ++ rest' := by
              simp only [List.cons_append, List.cons.injEq] at h
              simpa using h.2
            have := hmin p'' rest' ht
            simp only [List.length_cons]
            omega
      · right
        refine ⟨?_, by rw [hs, hnil]⟩
        intro pre' rest' h
        cases pre' with
        | nil => exact hne rest' h
        | cons a p'' =>
          apply hno p'' rest'
          simp only [List.cons_append, List.cons.injEq] at h
          simpa using h.2

/-- The first occurrence of `id=` is unique. -/
theorem FirstId_unique (cookie p1 r1 p2 r2 : CStr)
    (h1 : FirstId cookie p1 r1) (h2 : FirstId cookie p2 r2) : r1 = r2 := by
  have hl : p1.length = p2.length :=
    Nat.le_antisymm (h1.2 p2 r2 h2.1) (h2.2 p1 r1 h1.1)
  have heq : p1 ++ (id_eq ++ r1) = p2 ++ (id_eq ++ r2) := by
    have := h1.1.symm.trans h2.1
    simpa [List.append_assoc] using this
  have := (List.append_inj heq hl).2
  exact List.append_cancel_left this

theorem skip_to_id_of_first (cookie pre rest : CStr) (h : FirstId cookie pre rest) :
    skip_to_id cookie = rest := by
  rcases skip_to_id_spec cookie with ⟨pre0, h0⟩ | ⟨hno, _⟩
  · exact FirstId_unique cookie pre0 _ pre rest h0 h
  · exact absurd h.1 (hno pre rest)

/-- What the id loop returns: all of the next `k` characters when they exist and are
in the alphabet, a failure or a short id otherwise. -/
theorem sid_loop_spec (k : Nat) : ∀ (p acc : CStr),
    ((k ≤ p.length ∧ ∀ c ∈ p.take k, isSidChar c = true) ∧
        sid_loop k p acc = (true, acc ++ p.take k)) ∨
      (¬ (k ≤ p.length ∧ ∀ c ∈ p.take k, isSidChar c = true) ∧
        ((sid_loop k p acc).1 = false ∨ (sid_loop k p acc).2.length < acc.length + k)) := by
  induction k with
  | zero =>
    intro p acc
    left
    simp [sid_loop]
  | succ k ih =>
    intro p acc
    cases p with
    | nil =>
      right
      simp [sid_loop]
    | cons c p =>
      by_cases hc : isSidChar c = true
      · have hs : sid_loop (k + 1) (c :: p) acc = sid_loop k p (acc ++ [c]) := by
          rw [sid_loop]; simp [hc]
        rcases ih p (acc ++ [c]) with ⟨⟨hlen, hall⟩, hres⟩ | ⟨hnot, hres⟩
        · left
          refine ⟨⟨by simpa using hlen, ?_⟩, ?_⟩
          · intro d hd
            simp only [List.take_succ_cons, List.mem_cons] at hd
            rcases hd with rfl | hd
            · exact hc
            · exact hall d hd
          · rw [hs, hres]; simp
        · right
          refine ⟨?_, ?_⟩
          · rintro ⟨hlen, hall⟩
            apply hnot
            refine ⟨by simpa using hlen, ?_⟩
            intro d hd
            apply hall
            simp only [List.take_succ_cons, List.mem_cons]
            exact Or.inr hd
          · rw [hs]
            rcases hres with h | h
            · exact Or.inl h
            · right
              simp only [List.length_append, List.length_singleton] at h
              omega
      · right
        refine ⟨?_, ?_⟩
        · rintro ⟨_, hall⟩
          apply hc
          apply hall
          simp
        · left
          rw [sid_loop]; simp [hc]

/-- The decoder in terms of the text after the first `id=`. -/
theorem session_from_cookie_spec (cookie : CStr) :
    (Starts40Hex (skip_to_id cookie) ∧
        lwsgw_session_from_cookie cookie = (0, (skip_to_id cookie).take 40)) ∨
      (¬ Starts40Hex (skip_to_id cookie) ∧ (lwsgw_session_from_cookie cookie).1 = 1) := by
  unfold lwsgw_session_from_cookie Starts40Hex
  by_cases hp : skip_to_id cookie = []
  · right
    simp [hp]
  · rcases sid_loop_spec 40 (skip_to_id cookie) [] with ⟨hok, hres⟩ | ⟨hnot, hres⟩
    · left
      refine ⟨hok, ?_⟩
      simp only [hp, if_false, hres, List.nil_append]
      have : ((skip_to_id cookie).take 40).length = 40 := by
        rw [List.length_take]; omega
      simp [this]
    · right
      refine ⟨hnot, ?_⟩
      simp only [hp, if_false]
      rcases hsl : sid_loop 40 (skip_to_id cookie) [] with ⟨b, acc⟩
      rw [hsl] at hres
      cases b with
      | false => rfl
      | true =>
        simp only [List.length_nil, Nat.zero_add] at hres
        rcases hres with h | h
        · exact absurd h (by simp)
        · simp [h]

theorem sidChar_ne_semicolon (c : Char) (h : isSidChar c = true) : (c != ';') = true := by
  by_contra hne
  have hc : c = ';' := by simpa using hne
  subst hc
  exact absurd h (by decide)

theorem takeWhile_take_of_all (q : Char → Bool) (n : Nat) : ∀ (l : CStr),
    n ≤ l.length → (∀ c ∈ l.take n, q c = true) → (l.takeWhile q).take n = l.take n := by
  induction n with
  | zero => intro l _ _; simp
  | succ n ih =>
    intro l hlen hall
    cases l with
    | nil => simp
    | cons a t =>
      have ha : q a = true := hall a (by simp)
      have ht : ∀ c ∈ t.take n, q c = true := by
        intro c hc
        apply hall
        simp only [List.take_succ_cons, List.mem_cons]
        exact Or.inr hc
      have hl : n ≤ t.length := by simpa using hlen
      rw [List.takeWhile_cons_of_pos ha, List.take_succ_cons, List.take_succ_cons, ih t hl ht]

/-- Cutting the id value at the next `;` does not change whether it begins with 40
characters of the id alphabet, nor these 40 characters. -/
theorem starts40_id_value (rest : CStr) :
    (Starts40Hex (id_value rest) ↔ Starts40Hex rest) ∧
      (Starts40Hex rest → (id_value rest).take 40 = rest.take 40) := by
  have key : Starts40Hex rest → (id_value rest).take 40 = rest.take 40 := by
    intro h
    exact takeWhile_take_of_all _ 40 rest h.1 (fun c hc => sidChar_ne_semicolon c (h.2 c hc))
  refine ⟨⟨?_, ?_⟩, key⟩
  · intro h
    have hsplit : rest = id_value rest ++ rest.dropWhile (fun c => c != ';') := by
      unfold id_value
      exact (List.takeWhile_append_dropWhile _ rest).symm
    have htake : rest.take 40 = (id_value rest).take 40 := by
      conv_lhs => rw [hsplit]
      exact List.take_append_of_le_length h.1
    refine ⟨?_, ?_⟩
    · have := congrArg List.length hsplit
      rw [List.length_append] at this
      have h1 := h.1
      omega
    · rw [htake]
      exact h.2
  · intro h
    have hk := key h
    refine ⟨?_, ?_⟩
    · have := congrArg List.length hk
      rw [List.length_take, List.length_take] at this
      have h1 := h.1
      omega
    · rw [hk]
      exact h.2

theorem hexAt_isSidChar : ∀ i, i < 16 → isSidChar (hexAt i) = true := by
  decide

theorem hash_loop_length (hash : Bytes) (k : Nat) : ∀ n,
    (sha1_to_lwsgw_hash_loop hash k n).length = 2 * k := by
  induction k with
  | zero => intro n; rfl
  | succ k ih =>
    intro n
    rw [sha1_to_lwsgw_hash_loop, List.length_cons, List.length_cons, ih]
    omega

theorem hash_loop_sidChars (hash : Bytes) (k : Nat) : ∀ n,
    ∀ c ∈ sha1_to_lwsgw_hash_loop hash k n, isSidChar c = true := by
  induction k with
  | zero => intro n c hc; simp [sha1_to_lwsgw_hash_loop] at hc
  | succ k ih =>
    intro n c hc
    rw [sha1_to_lwsgw_hash_loop] at hc
    simp only [List.mem_cons] at hc
    rcases hc with rfl | rfl | hc
    · apply hexAt_isSidChar
      rw [Nat.shiftRight_eq_div_pow]
      have : hash n % 256 < 256 := Nat.mod_lt _ (by norm_num)
      omega
    · apply hexAt_isSidChar
      have : hash n % 256 &&& 15 ≤ 15 := Nat.and_le_right
      omega
    · exact ih (n + 1) c hc

/-! ## The claims on the cookie codec -/

/-- C1: `lwsgw_session_from_cookie` succeeds exactly when the text that follows the
first occurrence of `id=` begins with 40 characters in `[0-9a-f]`, and then the
session id it stores is these 40 characters; in every other case (no `id=`, fewer
than 40 characters left, a character outside the alphabet among the first 40) it
returns 1. -/
theorem session_from_cookie_contract (cookie : CStr) :
    (∃ pre rest, FirstId cookie pre rest ∧ Starts40Hex rest ∧
        lwsgw_session_from_cookie cookie = (0, rest.take 40)) ∨
      ((¬ ∃ pre rest, FirstId cookie pre rest ∧ Starts40Hex rest) ∧
        (lwsgw_session_from_cookie cookie).1 = 1) := by
  rcases session_from_cookie_spec cookie with ⟨h40, hres⟩ | ⟨hnot, hres⟩
  · rcases skip_to_id_spec cookie with ⟨pre, hf⟩ | ⟨_, hnil⟩
    · exact Or.inl ⟨pre, _, hf, h40, hres⟩
    · exfalso
      rw [hnil] at h40
      simp [Starts40Hex] at h40
  · right
    refine ⟨?_, hres⟩
    rintro ⟨pre, rest, hf, h40⟩
    rw [skip_to_id_of_first cookie pre rest hf] at hnot
    exact hnot h40

/-- C2, as stated, fails: the id value of `id=` followed by 41 times `a` has 41
characters, so it does not match `^[0-9a-f]{40}$`, and the decoder returns 0. -/
theorem session_from_cookie_accepts_41 :
    FirstId cookie41 [] (List.replicate 41 'a') ∧
      ¬ MatchesSid (id_value (List.replicate 41 'a')) ∧
      lwsgw_session_from_cookie cookie41 = (0, List.replicate 40 'a') := by
  refine ⟨⟨rfl, fun _ _ _ => Nat.zero_le _⟩, ?_, ?_⟩
  · intro h
    have h1 := h.1
    revert h1
    decide
  · decide

/-- C2, amended: the decoder returns 1 exactly when `id=` is absent or the id value
(the text after the first `id=` up to the next `;` or the end) does not begin with
40 characters in `[0-9a-f]`; an id value that begins with 40 such characters is
accepted whatever follows them, and the session id is its first 40 characters. -/
theorem session_from_cookie_id_value (cookie : CStr) :
    (∃ pre rest, FirstId cookie pre rest ∧ Starts40Hex (id_value rest) ∧
        lwsgw_session_from_cookie cookie = (0, (id_value rest).take 40)) ∨
      ((¬ ∃ pre rest, FirstId cookie pre rest ∧ Starts40Hex (id_value rest)) ∧
        (lwsgw_session_from_cookie cookie).1 = 1) := by
  rcases session_from_cookie_spec cookie with ⟨h40, hres⟩ | ⟨hnot, hres⟩
  · rcases skip_to_id_spec cookie with ⟨pre, hf⟩ | ⟨_, hnil⟩
    · left
      refine ⟨pre, _, hf, (starts40_id_value _).1.2 h40, ?_⟩
      rw [(starts40_id_value _).2 h40]
      exact hres
    · exfalso
      rw [hnil] at h40
      simp [Starts40Hex] at h40
  · right
    refine ⟨?_, hres⟩
    rintro ⟨pre, rest, hf, h40⟩
    rw [skip_to_id_of_first cookie pre rest hf] at hnot
    exact hnot ((starts40_id_value rest).1.1 h40)

/-- C3: the hexified form of any 20 bytes is 40 characters in `[0-9a-f]`, and
decoding the cookie text built from it, for any expiry and any current time, returns
0 and stores exactly this session id. -/
theorem session_id_round_trip (lib : Lib) (r : Bytes) (expires tv_sec : Int) :
    (sha1_to_lwsgw_hash r).length = 40 ∧
      (∀ c ∈ sha1_to_lwsgw_hash r, isSidChar c = true) ∧
      lwsgw_session_from_cookie
          (lwsgw_cookie_from_session lib (sha1_to_lwsgw_hash r) expires tv_sec) =
        (0, sha1_to_lwsgw_hash r) := by
  have hlen : (sha1_to_lwsgw_hash r).length = 40 := hash_loop_length r 20 0
  have hall : ∀ c ∈ sha1_to_lwsgw_hash r, isSidChar c = true := hash_loop_sidChars r 20 0
  refine ⟨hlen, hall, ?_⟩
  generalize hrest : (";Expires=".toList ++ lib.strftime_gmt expires ++ ";path=/".toList
    ++ ";Max-Age=".toList
    ++ (Nat.repr ((expires - lwsgs_now_secs tv_sec) % 2 ^ 64).toNat).toList
    ++ ";HttpOnly".toList) = tail
  have hcookie : lwsgw_cookie_from_session lib (sha1_to_lwsgw_hash r) expires tv_sec =
      [] ++ id_eq ++ (sha1_to_lwsgw_hash r ++ tail) := by
    rw [← hrest]
    simp [lwsgw_cookie_from_session, id_eq, List.append_assoc]
  have hfirst : FirstId (lwsgw_cookie_from_session lib (sha1_to_lwsgw_hash r) expires tv_sec)
      [] (sha1_to_lwsgw_hash r ++ tail) := ⟨hcookie, fun _ _ _ => Nat.zero_le _⟩
  have htake : (sha1_to_lwsgw_hash r ++ tail).take 40 = sha1_to_lwsgw_hash r := by
    rw [← hlen]
    exact List.take_left _ _
  have h40 : Starts40Hex (sha1_to_lwsgw_hash r ++ tail) := by
    refine ⟨by rw [List.length_append]; omega, ?_⟩
    rw [htake]
    exact hall
  rcases session_from_cookie_spec
      (lwsgw_cookie_from_session lib (sha1_to_lwsgw_hash r) expires tv_sec) with
    ⟨_, hres⟩ | ⟨hnot, _⟩
  · rw [hres, skip_to_id_of_first _ _ _ hfirst, htake]
  · rw [skip_to_id_of_first _ _ _ hfirst] at hnot
    exact absurd h40 hnot

/-! ## Lemmas on the store -/

theorem now_secs_range (tv_sec : Int) :
    0 ≤ lwsgs_now_secs tv_sec ∧ lwsgs_now_secs tv_sec < 2 ^ 32 := by
  unfold lwsgs_now_secs
  exact ⟨Int.emod_nonneg _ (by norm_num), Int.emod_lt_of_pos _ (by norm_num)⟩

/-- A fold whose step fixes a projection from the row alone ends with the
projection of some row of the list. -/
theorem foldl_proj_mem {α β γ : Type} (F : β → α → β) (π : β → γ) (h : α → γ)
    (hF : ∀ b a, π (F b a) = h a) : ∀ (l : List α) (b : β), l ≠ [] →
    ∃ a ∈ l, π (l.foldl F b) = h a := by
  intro l
  induction l with
  | nil => intro b hne; exact absurd rfl hne
  | cons a t ih =>
    intro b _
    by_cases ht : t = []
    · subst ht
      exact ⟨a, by simp, by simp [hF]⟩
    · rcases ih (F b a) ht with ⟨a', ha', heq⟩
      exact ⟨a', List.mem_cons_of_mem _ ha', by simpa using heq⟩

theorem expire_email (vhd : per_vhost_data__generic_sessions) (tv_sec : Int) :
    (lwsgw_expire_old_sessions vhd tv_sec).2.email = vhd.email := by
  by_cases h : lwsgs_now_secs tv_sec - vhd.last_session_expire < 5 <;>
    simp [lwsgw_expire_old_sessions, h]

theorem expire_users (vhd : per_vhost_data__generic_sessions) (tv_sec : Int) :
    (lwsgw_expire_old_sessions vhd tv_sec).2.users = vhd.users ∧
      (lwsgw_expire_old_sessions vhd tv_sec).2.admin_user = vhd.admin_user := by
  by_cases h : lwsgs_now_secs tv_sec - vhd.last_session_expire < 5 <;>
    simp [lwsgw_expire_old_sessions, h]

theorem lookup_session_state (lib : Lib) (vhd : per_vhost_data__generic_sessions)
    (sid username : CStr) (len : Nat) (tv_sec : Int) :
    (lwsgs_lookup_session lib vhd sid username len tv_sec).2.2 =
      (lwsgw_expire_old_sessions vhd tv_sec).2 := rfl

/-- The session lookup reports found exactly when the table, after the sweep, has a
row with the name asked for; the name it returns is then that of such a row. -/
theorem lookup_session_found (lib : Lib) (vhd : per_vhost_data__generic_sessions)
    (sid username : CStr) (len : Nat) (tv_sec : Int)
    (hfound : (lwsgs_lookup_session lib vhd sid username len tv_sec).1 = 0) :
    ∃ s ∈ (lwsgw_expire_old_sessions vhd tv_sec).2.sessions,
      s.name = lib.sql_text 49 sid ∧
        (lwsgs_lookup_session lib vhd sid username len tv_sec).2.1 =
          s.username.take (len - 1) := by
  unfold lwsgs_lookup_session at hfound ⊢
  simp only at hfound ⊢
  by_cases hrows : ((lwsgw_expire_old_sessions vhd tv_sec).2.sessions.filter
      (fun s => decide (s.name = lib.sql_text 49 sid))) = []
  · rw [hrows] at hfound
    simp at hfound
  · rcases foldl_proj_mem
        (fun (_ : CStr × Int) (row : SessionRow) => (row.username.take (len - 1), (0 : Int)))
        (fun x => x.1) (fun row => row.username.take (len - 1)) (fun _ _ => rfl)
        _ (username, (1 : Int)) hrows with ⟨s, hs, heq⟩
    rw [List.mem_filter] at hs
    exact ⟨s, hs.1, by simpa using hs.2, heq⟩

/-! ## The claims on the auth gate and the sweep -/

/-- C4, as stated, fails: for a users row whose `verified` is 356 the level has
VERIFIED(4) set, though the user is not the admin and no row has `verified == 100`. -/
theorem auth_level_verified_356 :
    (lwsgs_get_auth_level lib0 { vhd0 with users := [bob_row 356] } bob 1000).testBit 2 = true ∧
      bob ≠ vhd0.admin_user ∧
      (lwsgs_lookup_user lib0 { vhd0 with users := [bob_row 356] } bob lwsgs_user_blank).1 = 0 ∧
      (lwsgs_lookup_user lib0 { vhd0 with users := [bob_row 356] } bob
        lwsgs_user_blank).2.verified = 356 := by
  decide

/-- C4, amended: when the clock of `lwsgs_now_secs` is at least 300, the auth level
is the bitset below 16 in which LOGGED_IN(1) is set iff the username is non-empty,
ADMIN(2) iff it is non-empty and equals `admin_user`, VERIFIED(4) iff it is non-empty
and equals `admin_user` or the looked-up user has `(verified & 0xff) == 100`, and
FORGOT_FLOW(8) iff a user is found and its `last_forgot_validated > now - 300`; the
admin identity with no users row yields exactly 7. -/
theorem auth_level_bits (lib : Lib) (vhd : per_vhost_data__generic_sessions)
    (username : CStr) (tv_sec : Int) (hnow : 300 ≤ lwsgs_now_secs tv_sec) :
    lwsgs_get_auth_level lib vhd username tv_sec < 16 ∧
      ((lwsgs_get_auth_level lib vhd username tv_sec).testBit 0 = true ↔ username ≠ []) ∧
      ((lwsgs_get_auth_level lib vhd username tv_sec).testBit 1 = true ↔
        (username ≠ [] ∧ username = vhd.admin_user)) ∧
      ((lwsgs_get_auth_level lib vhd username tv_sec).testBit 2 = true ↔
        ((username ≠ [] ∧ username = vhd.admin_user) ∨
          ((lwsgs_lookup_user lib vhd username lwsgs_user_blank).1 = 0 ∧
            (lwsgs_lookup_user lib vhd username lwsgs_user_blank).2.verified % 256 = 100))) ∧
      ((lwsgs_get_auth_level lib vhd username tv_sec).testBit 3 = true ↔
        ((lwsgs_lookup_user lib vhd username lwsgs_user_blank).1 = 0 ∧
          (lwsgs_lookup_user lib vhd username lwsgs_user_blank).2.last_forgot_validated >
            lwsgs_now_secs tv_sec - 300)) ∧
      (username ≠ [] → username = vhd.admin_user →
        (lwsgs_lookup_user lib vhd username lwsgs_user_blank).1 ≠ 0 →
        lwsgs_get_auth_level lib vhd username tv_sec = 7) := by
  have hmod : (lwsgs_now_secs tv_sec - 300) % 2 ^ 32 = lwsgs_now_secs tv_sec - 300 := by
    have h := now_secs_range tv_sec
    apply Int.emod_eq_of_lt
    · omega
    · have := h.2
      omega
  unfold lwsgs_get_auth_level
  simp only [hmod]
  generalize lwsgs_lookup_user lib vhd username lwsgs_user_blank = r
  by_cases h1 : username = [] <;> by_cases h2 : username = vhd.admin_user <;>
    by_cases h3 : r.1 = 0 <;> by_cases h4 : r.2.verified % 256 = 100 <;>
    by_cases h5 : r.2.last_forgot_validated > lwsgs_now_secs tv_sec - 300 <;>
    simp [h1, h2, h3, h4, h5] <;> (try simp_all) <;> (try decide)

/-- C7: at a time `now` with `now - last_sweep >= 5` the sweep leaves exactly the
sessions with `expire > now`, each unchanged and in the same order, removes those
with `expire <= now`, and sets `last_sweep` to `now`; with `now - last_sweep < 5` it
changes nothing.  It never touches the users or the mail queue and returns 0. -/
theorem expire_old_sessions_sweep (vhd : per_vhost_data__generic_sessions) (tv_sec : Int) :
    (5 ≤ lwsgs_now_secs tv_sec - vhd.last_session_expire →
        (lwsgw_expire_old_sessions vhd tv_sec).2.sessions =
            vhd.sessions.filter (fun s => decide (lwsgs_now_secs tv_sec < s.expire)) ∧
          (∀ s, s ∈ (lwsgw_expire_old_sessions vhd tv_sec).2.sessions ↔
            (s ∈ vhd.sessions ∧ ¬ s.expire ≤ lwsgs_now_secs tv_sec)) ∧
          (lwsgw_expire_old_sessions vhd tv_sec).2.last_session_expire =
            lwsgs_now_secs tv_sec) ∧
      (lwsgs_now_secs tv_sec - vhd.last_session_expire < 5 →
        (lwsgw_expire_old_sessions vhd tv_sec).2 = vhd) ∧
      (lwsgw_expire_old_sessions vhd tv_sec).2.users = vhd.users ∧
      (lwsgw_expire_old_sessions vhd tv_sec).2.email = vhd.email ∧
      (lwsgw_expire_old_sessions vhd tv_sec).1 = 0 := by
  by_cases hc : lwsgs_now_secs tv_sec - vhd.last_session_expire < 5
  · have hid : lwsgw_expire_old_sessions vhd tv_sec = (0, vhd) := by
      simp [lwsgw_expire_old_sessions, hc]
    rw [hid]
    exact ⟨fun h => absurd hc (by omega), fun _ => rfl, rfl, rfl, rfl⟩
  · have hsw : lwsgw_expire_old_sessions vhd tv_sec =
        (0, { vhd with
                last_session_expire := lwsgs_now_secs tv_sec
                sessions := vhd.sessions.filter
                  (fun s => !decide (s.expire ≤ lwsgs_now_secs tv_sec)) }) := by
      simp [lwsgw_expire_old_sessions, hc]
    rw [hsw]
    refine ⟨fun _ => ⟨?_, ?_, rfl⟩, fun h => absurd h hc, rfl, rfl, rfl⟩
    · apply List.filter_congr
      intro s _
      by_cases hle : s.expire ≤ lwsgs_now_secs tv_sec
      · have : ¬ lwsgs_now_secs tv_sec < s.expire := not_lt.mpr hle
        simp [hle, this]
      · have : lwsgs_now_secs tv_sec < s.expire := not_le.mp hle
        simp [hle, this]
    · intro s
      simp [List.mem_filter]

/-- The witness of C4: the admin of the sample state, at second 1000. -/
theorem auth_level_bits_witness :
    300 ≤ lwsgs_now_secs 1000 ∧
      lwsgs_get_auth_level lib0 vhd0 vhd0.admin_user 1000 = 7 :=
  ⟨by decide,
    (auth_level_bits lib0 vhd0 vhd0.admin_user 1000 (by decide)).2.2.2.2.2
      (by decide) rfl (by decide)⟩

/-- C6, as stated, fails: two seconds after a sweep the lookup finds a session whose
`expire` is not greater than the current time. -/
theorem lookup_session_stale :
    (lwsgs_lookup_session lib0 vhd_stale sid_a [] 32 1002).1 = 0 ∧
      (lwsgs_lookup_session lib0 vhd_stale sid_a [] 32 1002).2.1 = bob ∧
      (lwsgs_lookup_session lib0 vhd_stale sid_a [] 32 1002).2.2.sessions =
        [{ name := sid_a, username := bob, expire := 1001 }] ∧
      (1001 : Int) ≤ lwsgs_now_secs 1002 := by
  decide

/-- C6, amended: when the call of `lwsgs_lookup_session` runs the sweep, that is when
`now - last_sweep >= 5`, and it reports a session as found, the table holds a session
of that name, the user name returned is its user name, and the `expire` of every
session of that name is strictly greater than the current time. -/
theorem lookup_session_after_sweep (lib : Lib) (vhd : per_vhost_data__generic_sessions)
    (sid username : CStr) (len : Nat) (tv_sec : Int)
    (hsweep : 5 ≤ lwsgs_now_secs tv_sec - vhd.last_session_expire)
    (hfound : (lwsgs_lookup_session lib vhd sid username len tv_sec).1 = 0) :
    (∃ s ∈ (lwsgs_lookup_session lib vhd sid username len tv_sec).2.2.sessions,
        s.name = lib.sql_text 49 sid ∧
          (lwsgs_lookup_session lib vhd sid username len tv_sec).2.1 =
            s.username.take (len - 1)) ∧
      (∀ s ∈ (lwsgs_lookup_session lib vhd sid username len tv_sec).2.2.sessions,
        s.name = lib.sql_text 49 sid → lwsgs_now_secs tv_sec < s.expire) := by
  refine ⟨?_, ?_⟩
  · rw [lookup_session_state]
    exact lookup_session_found lib vhd sid username len tv_sec hfound
  · intro s hs _
    rw [lookup_session_state] at hs
    have hn : ¬ lwsgs_now_secs tv_sec - vhd.last_session_expire < 5 := by omega
    simp only [lwsgw_expire_old_sessions, hn, if_false, List.mem_filter] at hs
    have := hs.2
    simp only [Bool.not_eq_true', decide_eq_false_iff_not, not_le] at this
    exact this

/-- The witness of C6: the sample session looked up ten seconds after the sweep, one
second before it expires. -/
theorem lookup_session_after_sweep_witness :
    5 ≤ lwsgs_now_secs 1000 - ({ vhd_stale with last_session_expire := 990 } :
        per_vhost_data__generic_sessions).last_session_expire ∧
      (lwsgs_lookup_session lib0 { vhd_stale with last_session_expire := 990 }
        sid_a [] 32 1000).1 = 0 ∧
      (∀ s ∈ (lwsgs_lookup_session lib0 { vhd_stale with last_session_expire := 990 }
          sid_a [] 32 1000).2.2.sessions,
        s.name = lib0.sql_text 49 sid_a → lwsgs_now_secs 1000 < s.expire) :=
  ⟨by decide, by decide,
    (lookup_session_after_sweep lib0 { vhd_stale with last_session_expire := 990 }
      sid_a [] 32 1000 (by decide) (by decide)).2⟩

/-! ## Lemmas on the form handlers -/

theorem get_sid_length (wsi : Wsi) (h : (lwsgs_get_sid_from_wsi wsi).1 = 0) :
    (lwsgs_get_sid_from_wsi wsi).2.length = 40 := by
  unfold lwsgs_get_sid_from_wsi at h ⊢
  cases hc : wsi.cookie with
  | none => simp [hc] at h
  | some c =>
    simp only [hc] at h ⊢
    by_cases h0 : c.length = 0
    · simp [h0] at h
    · simp only [h0, if_false] at h ⊢
      by_cases hr : (lwsgw_session_from_cookie c).1 ≠ 0
      · simp [hr] at h
      · simp only [hr, if_false]
        rcases session_from_cookie_spec c with ⟨h40, hres⟩ | ⟨_, hres⟩
        · rw [hres]
          simp only [List.length_take]
          have := h40.1
          omega
        · have h0' : (lwsgw_session_from_cookie c).1 = 0 := by simpa using hr
          rw [hres] at h0'
          exact absurd h0' (by decide)

theorem take_ne_nil (l : CStr) (n : Nat) (hn : 0 < n) (hl : l ≠ []) : l.take n ≠ [] := by
  intro h
  rw [List.take_eq_nil_iff] at h
  rcases h with h | h
  · omega
  · exact hl h

/-- An escaped name of at most 34 characters is compared as the text SQLite reads
back from it: the select of the lookup is not cut. -/
theorem lookup_user_key_fits (lib : Lib) (username : CStr)
    (hfit : (lib.lws_sql_purify 49 username).length ≤ 34) :
    lookup_user_key lib username = some (lib.sql_text 49 username) := by
  unfold lookup_user_key
  rw [if_pos hfit]

/-- The user lookup that failed reports -1 and leaves an empty user name. -/
theorem lookup_user_failed (lib : Lib) (vhd : per_vhost_data__generic_sessions)
    (username : CStr) (u : lwsgs_user) (hkey : lookup_user_key lib username = none) :
    lwsgs_lookup_user lib vhd username u = (-1, { u with username := [] }) := by
  unfold lwsgs_lookup_user
  simp only [hkey]

/-- The user lookup whose select compares with `key` reports found exactly when the
users table holds a row whose name is `key`, and `key` is not empty. -/
theorem lookup_user_found_iff (lib : Lib) (vhd : per_vhost_data__generic_sessions)
    (username : CStr) (u : lwsgs_user) (key : CStr)
    (hkey : lookup_user_key lib username = some key) :
    (lwsgs_lookup_user lib vhd username u).1 = 0 ↔
      (key ≠ [] ∧ ∃ row ∈ vhd.users, row.username = key) := by
  unfold lwsgs_lookup_user select_users
  simp only [hkey]
  by_cases hrows : (vhd.users.filter (fun row => decide (row.username = key))) = []
  · rw [hrows]
    simp only [List.foldl_nil, if_true]
    constructor
    · intro h
      exact absurd h (by decide)
    · rintro ⟨_, row, hrow, heq⟩
      have : row ∈ vhd.users.filter (fun row => decide (row.username = key)) := by
        rw [List.mem_filter]
        exact ⟨hrow, by simpa using heq⟩
      rw [hrows] at this
      simp at this
  · rcases foldl_proj_mem
        (fun (u : lwsgs_user) (row : UserRow) =>
          lwsgs_lookup_callback_user
            [.username, .creation_time, .ip, .email, .verified, .pwhash, .pwsalt,
              .last_forgot_validated] row u)
        (fun u => u.username) (fun row => row.username.take 31) (fun _ _ => rfl)
        _ { u with username := [] } hrows with ⟨row, hrow, heq⟩
    rw [List.mem_filter] at hrow
    have hname : row.username = key := by simpa using hrow.2
    rw [heq, hname]
    constructor
    · intro h
      have hne : key ≠ [] := by
        intro hnil
        rw [hnil] at h
        simp at h
      exact ⟨hne, row, hrow.1, hname⟩
    · rintro ⟨hne, _⟩
      simp [take_ne_nil _ 31 (by norm_num) hne]

/-- The select by email of the register flow leaves a non-empty user name when
rows hold the email and all of them have a non-empty user name. -/
theorem select_email_found (lib : Lib) (users : List UserRow) (email : CStr) (u : lwsgs_user)
    (hex : ∃ row ∈ users, row.email = lib.sql_text 49 email)
    (hne : ∀ row ∈ users, row.email = lib.sql_text 49 email → row.username ≠ []) :
    (select_users [.username, .email]
      (fun row => decide (row.email = lib.sql_text 49 email)) users u).username ≠ [] := by
  unfold select_users
  have hrows : (users.filter (fun row => decide (row.email = lib.sql_text 49 email))) ≠ [] := by
    rcases hex with ⟨row, hrow, heq⟩
    intro hnil
    have : row ∈ users.filter (fun row => decide (row.email = lib.sql_text 49 email)) := by
      rw [List.mem_filter]
      exact ⟨hrow, by simpa using heq⟩
    rw [hnil] at this
    simp at this
  rcases foldl_proj_mem
      (fun (u : lwsgs_user) (row : UserRow) =>
        lwsgs_lookup_callback_user [.username, .email] row u)
      (fun u => u.username) (fun row => row.username.take 31) (fun _ _ => rfl)
      _ u hrows with ⟨row, hrow, heq⟩
  rw [List.mem_filter] at hrow
  rw [heq]
  exact take_ne_nil _ 31 (by norm_num) (hne row hrow.1 (by simpa using hrow.2))

/-- The label `reg_done` with the bad URL, for a connection that has a login
session id: a 303 to the URL, the users and the mail queue as they were. -/
theorem reg_done_bad (lib : Lib) (wsi : Wsi) (vhd : per_vhost_data__generic_sessions)
    (pss : per_session_data__generic_sessions) (spa : Spa) (reg_bad : CStr) (tv_sec : Int)
    (rnd : Rand) (hbad : spa .FGS_REG_BAD = some reg_bad) (hsess : pss.login_session ≠ []) :
    ∃ r, reg_done lib wsi vhd pss spa .FGS_REG_BAD tv_sec rnd = some r ∧
      r.vhd.users = vhd.users ∧ r.vhd.email = vhd.email ∧
      ∃ cookies, r.response =
        some { status := 303, location := reg_bad.take 255, set_cookie := cookies } := by
  unfold reg_done completion_flow redirect_with_cookie try_to_reuse
  simp only [hbad, hsess, if_false]
  exact ⟨_, rfl, (expire_users vhd tv_sec).1, expire_email vhd tv_sec, _, rfl⟩

/-! ## The claims on credentials, login and register -/

/-- C8, evaluated at a password of 300 characters: the stored hash of `bob` is the
hexified digest of password, confounder and salt, yet `lwsgs_check_credentials`
returns 1, because the bytes it passes to the digest are the 298 characters that
`snprintf` stored, a NUL, and the memory behind them. -/
theorem check_credentials_long_password :
    (∃ row ∈ vhd_pw300.users, row.username = bob ∧
        row.pwhash = sha1_to_lwsgw_hash
          (lib298.lws_SHA1 (password_text pw300 vhd_pw300.confounder row.pwsalt))) ∧
      lwsgs_check_credentials lib298 vhd_pw300 bob pw300 mem0 = 1 ∧
      snprintf_read_back 299 (password_text pw300 vhd_pw300.confounder salt0) mem0 ≠
        password_text pw300 vhd_pw300.confounder salt0 := by
  refine ⟨⟨_, List.mem_singleton.mpr rfl, rfl, rfl⟩, ?_, ?_⟩
  · decide
  · decide

/-- C9, evaluated at an admin login that carries a well-formed session id absent from
the sessions table: the response is the 303 to the good URL with a Set-Cookie that
installs this id, and afterwards the sessions table is still empty, so that a lookup
of the installed id, one second later, finds no session. -/
theorem login_with_absent_session :
    lwsgw_check_admin lib0 vhd0 ['r', 'o', 'o', 't'] ['s', 'e', 'c', 'r', 'e', 't'] = 1 ∧
      (login_post lib0 wsi_a vhd0 pss0 spa_admin 1000 [] mem0).map
          (fun r => (r.ret, r.response, r.pss.login_session, r.vhd.sessions)) =
        some (0,
          some { status := 303, location := ['/', 'h', 'o', 'm', 'e'],
                 set_cookie := [lwsgw_cookie_from_session lib0 sid_a 37000 1000] },
          sid_a, []) ∧
      (login_post lib0 wsi_a vhd0 pss0 spa_admin 1000 [] mem0).map
          (fun r => (lwsgs_lookup_session lib0 r.vhd r.pss.login_session [] 32 1001).1) =
        some 1 := by
  decide

/-- C10, as stated, fails: a register request for the user name `bob`, already in the
users table, that carries no session cookie gets no redirect; the callback returns 1
without a response. -/
theorem register_without_cookie :
    login_post lib0 wsi_plain vhd_bob pss0 spa_register 1000 [] mem0 =
        some (plain_return 1 vhd_bob pss0) ∧
      (plain_return 1 vhd_bob pss0).response = none ∧
      (∃ row ∈ vhd_bob.users, some row.username = spa_register .FGS_USERNAME) := by
  refine ⟨by decide, rfl, _, List.mem_singleton.mpr rfl, rfl⟩

/-- C10, amended: for every register request that carries a well-formed session
cookie and the reg-good and reg-bad URLs, and whose non-empty user name is already in
the users table and has an escaped text of at most 34 characters (the select of
`lwsgs_lookup_user` keeps its closing quote in `s[150]`), or whose email is already in
the users table on rows with a non-empty user name, the users table and the mail queue
are unchanged afterwards and the response is the 303 redirect to the reg-bad URL (its
first 255 characters). -/
theorem register_duplicate (lib : Lib) (wsi : Wsi) (vhd : per_vhost_data__generic_sessions)
    (pss : per_session_data__generic_sessions) (spa : Spa)
    (username password reg reg_good reg_bad : CStr) (tv_sec : Int) (rnd : Rand)
    (mem : Nat → Char)
    (huser : spa .FGS_USERNAME = some username) (hpw : spa .FGS_PASSWORD = some password)
    (hreg : spa .FGS_REGISTER = some reg) (hreg1 : reg ≠ [])
    (hsid : (lwsgs_get_sid_from_wsi wsi).1 = 0)
    (hgood : spa .FGS_REG_GOOD = some reg_good) (hbad : spa .FGS_REG_BAD = some reg_bad)
    (hdup : ((lib.lws_sql_purify 49 username).length ≤ 34 ∧
          lib.sql_text 49 username ≠ [] ∧
          ∃ row ∈ vhd.users, row.username = lib.sql_text 49 username) ∨
        (∃ email, spa .FGS_EMAIL = some email ∧
          (∃ row ∈ vhd.users, row.email = lib.sql_text 49 email) ∧
          ∀ row ∈ vhd.users, row.email = lib.sql_text 49 email → row.username ≠ [])) :
    ∃ r, login_post lib wsi vhd pss spa tv_sec rnd mem = some r ∧
      r.vhd.users = vhd.users ∧ r.vhd.email = vhd.email ∧
      ∃ cookies, r.response =
        some { status := 303, location := reg_bad.take 255, set_cookie := cookies } := by
  have hsess : ({ pss with login_session := (lwsgs_get_sid_from_wsi wsi).2, ip := wsi.peer } :
      per_session_data__generic_sessions).login_session ≠ [] := by
    intro hnil
    have := get_sid_length wsi hsid
    simp only at hnil
    rw [hnil] at this
    simp at this
  have hfinal := fun rnd' => reg_done_bad lib wsi vhd
    { pss with login_session := (lwsgs_get_sid_from_wsi wsi).2, ip := wsi.peer }
    spa reg_bad tv_sec rnd' hbad hsess
  unfold login_post
  simp only [huser, hpw, hreg, Option.getD_some, ne_eq, hreg1, not_false_eq_true, if_true]
  unfold login_register
  simp only [hsid, ne_eq, not_true_eq_false, if_false, hgood, hbad, or_self]
  by_cases hadmin : vhd.admin_user = username
  · simp only [hadmin, if_true]
    exact hfinal rnd
  · simp only [hadmin, if_false]
    by_cases hfound : (lwsgs_lookup_user lib vhd username lwsgs_user_blank).1 = 0
    · simp only [hfound, if_true]
      exact hfinal rnd
    · simp only [hfound, if_false]
      rcases hdup with ⟨hfit, hname⟩ | ⟨email, hemail, hex, hne⟩
      · exact absurd ((lookup_user_found_iff lib vhd username lwsgs_user_blank _
          (lookup_user_key_fits lib username hfit)).mpr hname) hfound
      · simp only [hemail]
        have hu := select_email_found lib vhd.users email
          { (lwsgs_lookup_user lib vhd username lwsgs_user_blank).2 with username := [] } hex hne
        simp only [hu, not_false_eq_true, if_true]
        exact hfinal rnd

/-- The witness of C10: the register form for `bob`, who is in the users table, sent
with a well-formed session cookie. -/
theorem register_duplicate_witness :
    (lwsgs_get_sid_from_wsi wsi_a).1 = 0 ∧
      ((lib0.lws_sql_purify 49 bob).length ≤ 34 ∧ lib0.sql_text 49 bob ≠ [] ∧
        ∃ row ∈ vhd_bob.users, row.username = lib0.sql_text 49 bob) ∧
      ∃ r, login_post lib0 wsi_a vhd_bob pss0 spa_register 1000 [] mem0 = some r ∧
        r.vhd.users = vhd_bob.users ∧ r.vhd.email = vhd_bob.email ∧
        ∃ cookies, r.response =
          some { status := 303, location := (['/', 'b', 'a', 'd'] : CStr).take 255,
                 set_cookie := cookies } :=
  have hdup : (lib0.lws_sql_purify 49 bob).length ≤ 34 ∧ lib0.sql_text 49 bob ≠ [] ∧
      ∃ row ∈ vhd_bob.users, row.username = lib0.sql_text 49 bob :=
    ⟨by decide, by decide, _, List.mem_singleton.mpr rfl, rfl⟩
  ⟨by decide, hdup,
    register_duplicate lib0 wsi_a vhd_bob pss0 spa_register bob ['p', 'w'] ['1']
      ['/', 'o', 'k'] ['/', 'b', 'a', 'd'] 1000 [] mem0 rfl rfl rfl (by decide) (by decide)
      rfl rfl (Or.inl hdup)⟩

/-! ## The claims evaluated on the flows -/

/-- C12, evaluated at a register request that carries the cookie of a session bound
to `bob`: whether the registration succeeds (`carol`) or not (`bob` again), the
sessions table is unchanged, the session is still bound to `bob`, and the Set-Cookie of
the response installs the same session id again. -/
theorem register_keeps_session :
    (login_body_completion lib0 wsi_a vhd_session pss0 spa_carol 1000 rnd3 mem0).map
        (fun r => (r.response, r.vhd.sessions)) =
      some (some { status := 303, location := ['/', 'o', 'k'],
                   set_cookie := [lwsgw_cookie_from_session lib0 sid_a 37000 1000] },
        [{ name := sid_a, username := bob, expire := 40000 }]) ∧
      (login_body_completion lib0 wsi_a vhd_session pss0 spa_register 1000 rnd3 mem0).map
          (fun r => (r.response, r.vhd.sessions)) =
        some (some { status := 303, location := ['/', 'b', 'a', 'd'],
                     set_cookie := [lwsgw_cookie_from_session lib0 sid_a 37000 1000] },
          [{ name := sid_a, username := bob, expire := 40000 }]) ∧
      (login_body_completion lib0 wsi_a vhd_session pss0 spa_carol 1000 rnd3 mem0).map
          (fun r => (lwsgs_lookup_session lib0 r.vhd sid_a [] 32 1001).2.1) = some bob := by
  decide

/-- C15, evaluated 301 seconds after `bob` consumed a forgot token: the auth level
has no FORGOT_FLOW bit, the form has no current password, and the change still
succeeds: the stored hash and salt are replaced and the redirect goes to the good
URL. -/
theorem change_after_grace :
    lwsgs_get_auth_level lib0 vhd_forgot_done bob 1301 = 5 ∧
      spa_change .FGS_CURPW = none ∧
      (change_post lib0 wsi_a vhd_forgot_done pss0 spa_change 1301 rnd3 mem0).map
          (fun r => (r.response.map (fun x => x.location),
            r.vhd.users.map (fun u => (u.username, u.pwsalt, u.last_forgot_validated)))) =
        some (some ['/', 'd', 'o', 'n', 'e'],
          [(bob, sha1_to_lwsgw_hash (fun i => 16 * i + 3), 0)]) ∧
      (change_post lib0 wsi_a vhd_forgot_done pss0 spa_change 1301 rnd3 mem0).map
          (fun r => r.vhd.users.map (fun u => decide (u.pwhash = (bob_row 100).pwhash))) =
        some [false] := by
  decide

/-- C17, evaluated at an account created at second 0, not verified, with an email
expiry of 3600 seconds: `lwsgs_email_cb_on_next` at second 3599 deletes it, although
its creation time is greater than 3599 - 3600. -/
theorem on_next_before_expiry :
    vhd_unverified.users = [bob_row 0] ∧
      (bob_row 0).creation_time > 3599 - vhd_unverified.timeout_email_secs ∧
      (lwsgs_email_cb_on_next lib0 vhd_unverified 3599).2.users = [] ∧
      (lwsgs_email_cb_on_next lib0 vhd_unverified 3601).2.users = [] := by
  decide

/-- C18, evaluated on two operations from an empty users table: a register request
for a user name that ends the quoted name and spells an update, then
`lwsgs_email_cb_on_next`, which puts the queued name into its select as it is.  The
user goes from `verified` 0 to 9; with a verified user in the table, that user goes
from 100 to 9. -/
theorem on_next_unescaped_name :
    vhd0.users = [] ∧
      (login_body_completion lib_inj wsi_a vhd0 pss0 spa_inj 200000 rnd3 mem0).map
          (fun r => (r.vhd.users.map (fun u => (u.username, u.verified)),
            (lwsgs_email_cb_on_next lib_inj r.vhd 200001).2.users.map
              (fun u => (u.username, u.verified)))) =
        some ([(inj_name, 0)], [(inj_name, 9)]) ∧
      (login_body_completion lib_inj wsi_a vhd_bob pss0 spa_inj 200000 rnd3 mem0).map
          (fun r => (r.vhd.users.map (fun u => (u.username, u.verified)),
            (lwsgs_email_cb_on_next lib_inj r.vhd 200001).2.users.map
              (fun u => (u.username, u.verified)))) =
        some ([(bob, 100), (inj_name, 0)], [(bob, 9), (inj_name, 9)]) := by
  decide

/-- C20, evaluated at a replacement of exactly the length of the placeholder: for the
input `hello $lwsgs_user!` and a user name of 11 characters the payload is `hello `
and the name, one byte short, without the `!` of the suffix.  For an empty name and an
empty suffix the payload is one byte long, with the byte that lies behind the input. -/
theorem interpolate_same_length :
    (vals11 0).length = "$lwsgs_user".toList.length ∧
      payload_of vals11 "hello $lwsgs_user!".toList ['z', 'z'] 1000 100 =
        some ("hello ".toList ++ vals11 0) ∧
      payload_of (fun _ => []) "abc$lwsgs_user".toList ['z', 'z'] 1000 100 =
        some ['a', 'b', 'c', 'z'] := by
  decide

/-- C11, as stated, fails: a register request for the user name of the admin that
carries no session cookie gets no redirect; the callback returns 1 without a
response. -/
theorem register_admin_without_cookie :
    spa_root .FGS_USERNAME = some vhd0.admin_user ∧
      login_body_completion lib0 wsi_plain vhd0 pss0 spa_root 1000 rnd3 mem0 =
        some (plain_return 1 vhd0 pss0) ∧
      (plain_return 1 vhd0 pss0).response = none := by
  decide

/-- C16, as stated, fails: a logout that carries the session id `sid_a` removes the
other session of the table, `sid_b`, which had expired, because the sweep runs before
the response. -/
theorem logout_sweeps_other_sessions :
    vhd_two_sessions.sessions =
        [{ name := sid_a, username := bob, expire := 40000 },
         { name := sid_b, username := [], expire := 500 }] ∧
      (logout_post lib0 wsi_a vhd_two_sessions pss0 spa_logout 1000 rnd3).map
          (fun r => (r.response.map (fun x => x.location), r.vhd.sessions)) =
        some (some ['/', 'b', 'y', 'e'], [{ name := sid_a, username := [], expire := 2200 }]) := by
  decide

theorem Frame.frame_rfl (v : per_vhost_data__generic_sessions) : Frame v v := ⟨rfl, rfl, rfl, rfl⟩

theorem Frame.frame_trans {v1 v2 v3 : per_vhost_data__generic_sessions}
    (h12 : Frame v1 v2) (h23 : Frame v2 v3) : Frame v1 v3 :=
  ⟨h23.1.trans h12.1, h23.2.1.trans h12.2.1, h23.2.2.1.trans h12.2.2.1,
    h23.2.2.2.trans h12.2.2.2⟩

theorem hash_ne_nil (b : Bytes) : sha1_to_lwsgw_hash b ≠ [] := by
  intro h
  have := hash_loop_length b 20 0
  rw [show sha1_to_lwsgw_hash_loop b 20 0 = sha1_to_lwsgw_hash b from rfl, h] at this
  simp at this

theorem expire_frame (vhd : per_vhost_data__generic_sessions) (tv_sec : Int) :
    Frame vhd (lwsgw_expire_old_sessions vhd tv_sec).2 := by
  refine ⟨(expire_users vhd tv_sec).1, expire_email vhd tv_sec, (expire_users vhd tv_sec).2, ?_⟩
  by_cases h : lwsgs_now_secs tv_sec - vhd.last_session_expire < 5 <;>
    simp [lwsgw_expire_old_sessions, h]

theorem update_session_frame (lib : Lib) (vhd : per_vhost_data__generic_sessions)
    (hash user : CStr) (tv_sec : Int) :
    Frame vhd (lwsgw_update_session lib vhd hash user tv_sec).2 := ⟨rfl, rfl, rfl, rfl⟩

theorem new_session_frame (lib : Lib) (vhd : per_vhost_data__generic_sessions)
    (username : Option CStr) (exp : Int) (rnd : Rand) :
    Frame vhd (lwsgs_new_session_id lib vhd username exp rnd).2.2.1 := by
  unfold Frame lwsgs_new_session_id lws_get_random
  cases rnd with
  | nil => simp
  | cons r rest => cases r <;> simp

theorem new_session_ok (lib : Lib) (vhd : per_vhost_data__generic_sessions)
    (username : Option CStr) (exp : Int) (b : Bytes) (rest : Rand) :
    lwsgs_new_session_id lib vhd username exp (some b :: rest) =
      (0, sha1_to_lwsgw_hash b,
        { vhd with
            sessions := vhd.sessions ++
              [{ name := lib.sql_text 49 (sha1_to_lwsgw_hash b),
                 username := lib.sql_text 49 (username.getD []), expire := exp % 2 ^ 32 }] },
        rest) := rfl

theorem redirect_frame (lib : Lib) (wsi : Wsi) (vhd : per_vhost_data__generic_sessions)
    (pss : per_session_data__generic_sessions) (tv_sec : Int) (rnd : Rand) :
    Frame vhd (redirect_with_cookie lib wsi vhd pss tv_sec rnd).vhd := by
  unfold redirect_with_cookie
  by_cases h : pss.login_session = []
  · simp only [h, if_true]
    have hf := new_session_frame lib vhd (some [])
      ((lwsgs_now_secs tv_sec + vhd.timeout_anon_absolute_secs) % 2 ^ 32) rnd
    rcases hn : lwsgs_new_session_id lib vhd (some [])
      ((lwsgs_now_secs tv_sec + vhd.timeout_anon_absolute_secs) % 2 ^ 32) rnd with ⟨r, sid, v1, r1⟩
    rw [hn] at hf
    simp only at hf ⊢
    split
    · exact hf
    · simpa [try_to_reuse] using hf
  · simp only [h, if_false, try_to_reuse]
    exact Frame.frame_rfl vhd

/-- The response of `redirect_with_cookie` is the 303 to `onward` when the connection
has a login session id or the random source delivers one. -/
theorem redirect_response (lib : Lib) (wsi : Wsi) (vhd : per_vhost_data__generic_sessions)
    (pss : per_session_data__generic_sessions) (tv_sec : Int) (rnd : Rand)
    (h : pss.login_session ≠ [] ∨ ∃ b rest, rnd = some b :: rest) :
    ∃ cookies, (redirect_with_cookie lib wsi vhd pss tv_sec rnd).response =
      some { status := 303, location := pss.onward, set_cookie := cookies } := by
  unfold redirect_with_cookie
  by_cases hs : pss.login_session = []
  · rcases h with h | ⟨b, rest, hr⟩
    · exact absurd hs h
    · subst hr
      simp only [hs, if_true, new_session_ok]
      exact ⟨_, rfl⟩
  · simp only [hs, if_false, try_to_reuse]
    exact ⟨_, rfl⟩

theorem completion_frame (lib : Lib) (wsi : Wsi) (vhd : per_vhost_data__generic_sessions)
    (pss : per_session_data__generic_sessions) (tv_sec : Int) (rnd : Rand) :
    Frame vhd (completion_flow lib wsi vhd pss tv_sec rnd).vhd :=
  Frame.frame_trans (expire_frame vhd tv_sec) (redirect_frame lib wsi _ pss tv_sec rnd)

theorem select_users_nil (cols : List UserCol) (cond : UserRow → Bool) (users : List UserRow)
    (u : lwsgs_user) (h : users.filter cond = []) : select_users cols cond users u = u := by
  unfold select_users
  rw [h]
  rfl

theorem select_users_mem {γ : Type} (cols : List UserCol) (cond : UserRow → Bool)
    (users : List UserRow) (u : lwsgs_user) (π : lwsgs_user → γ) (h : UserRow → γ)
    (hF : ∀ b a, π (lwsgs_lookup_callback_user cols a b) = h a)
    (hne : users.filter cond ≠ []) :
    ∃ row ∈ users, cond row = true ∧ π (select_users cols cond users u) = h row := by
  unfold select_users
  rcases foldl_proj_mem (fun u row => lwsgs_lookup_callback_user cols row u) π h hF _ u hne
    with ⟨row, hrow, heq⟩
  rw [List.mem_filter] at hrow
  exact ⟨row, hrow.1, hrow.2, heq⟩

/-! ## Lemmas on the GET handlers -/

theorem token_frag (T : CStr) :
    ("token=".toList ++ T).take 6 = "token=".toList ∧ ("token=".toList ++ T).drop 6 = T :=
  ⟨rfl, rfl⟩

theorem verf_fail_spec (lib : Lib) (wsi : Wsi) (vhd : per_vhost_data__generic_sessions)
    (pss : per_session_data__generic_sessions) (tv_sec : Int) (b : Bytes) (rest : Rand) :
    (verf_fail lib wsi vhd pss tv_sec (some b :: rest)).vhd.users = vhd.users ∧
      ∃ cookies, (verf_fail lib wsi vhd pss tv_sec (some b :: rest)).response =
        some { status := 303,
               location := (vhd.email_confirm_url ++ "/post-verify-fail.html".toList).take 255,
               set_cookie := cookies } := by
  unfold verf_fail
  exact ⟨(redirect_frame lib wsi vhd _ tv_sec _).1,
    redirect_response lib wsi vhd _ tv_sec _ (Or.inr ⟨b, rest, rfl⟩)⟩

/-- The confirm handler when no row of the users table has the token with
`verified == 1`: the users table is unchanged and the redirect goes to the fail
page. -/
theorem confirm_miss (lib : Lib) (wsi : Wsi) (vhd : per_vhost_data__generic_sessions)
    (pss : per_session_data__generic_sessions) (tv_sec : Int) (T : CStr) (b : Bytes)
    (rest : Rand)
    (hfrag : wsi.uri_fragment0 = some ("token=".toList ++ T))
    (hno : ∀ r ∈ vhd.users, r.token = lib.sql_text 49 T → r.verified ≠ 1) :
    (http_confirm lib wsi vhd pss tv_sec (some b :: rest)).vhd.users = vhd.users ∧
      ∃ cookies, (http_confirm lib wsi vhd pss tv_sec (some b :: rest)).response =
        some { status := 303,
               location := (vhd.email_confirm_url ++ "/post-verify-fail.html".toList).take 255,
               set_cookie := cookies } := by
  unfold http_confirm
  simp only [hfrag, (token_frag T).1, (token_frag T).2, ne_eq, not_true_eq_false, if_false]
  split
  · exact verf_fail_spec lib wsi vhd _ tv_sec b rest
  · rename_i hcond
    exfalso
    apply hcond
    by_cases hrows :
        vhd.users.filter (fun row => decide (row.token = lib.sql_text 49 T)) = []
    · left
      rw [select_users_nil _ _ _ _ hrows]
    · rcases select_users_mem [.username, .verified]
          (fun row => decide (row.token = lib.sql_text 49 T))
          vhd.users { lwsgs_user_blank with username := [] }
          (fun u => u.verified) (fun row => row.verified) (fun _ _ => rfl) hrows
        with ⟨row, hrow, hc, hv⟩
      right
      rw [hv]
      exact hno row hrow (by simpa using hc)

/-- The confirm handler when exactly one row `r` has the token, with `verified == 1`
and a name that the struct and the escape keep: the rows of that name get
`verified = 100` and the redirect goes to the ok page. -/
theorem confirm_hit (lib : Lib) (wsi : Wsi) (vhd : per_vhost_data__generic_sessions)
    (pss : per_session_data__generic_sessions) (tv_sec : Int) (T : CStr) (b : Bytes)
    (rest : Rand) (r : UserRow)
    (hfrag : wsi.uri_fragment0 = some ("token=".toList ++ T))
    (hr : r ∈ vhd.users) (htok : r.token = lib.sql_text 49 T) (hver : r.verified = 1)
    (hne : r.username ≠ []) (hname : lib.sql_text 49 (r.username.take 31) = r.username)
    (huniq : ∀ x ∈ vhd.users, x.token = lib.sql_text 49 T → x = r) :
    (http_confirm lib wsi vhd pss tv_sec (some b :: rest)).vhd.users =
        vhd.users.map (fun x =>
          if x.username = r.username then { x with verified := 100 } else x) ∧
      ∃ cookies, (http_confirm lib wsi vhd pss tv_sec (some b :: rest)).response =
        some { status := 303,
               location := (vhd.email_confirm_url ++ "/post-verify-ok.html".toList).take 255,
               set_cookie := cookies } := by
  have hrows : vhd.users.filter (fun row => decide (row.token = lib.sql_text 49 T)) ≠ [] := by
    intro h
    have : r ∈ vhd.users.filter (fun row => decide (row.token = lib.sql_text 49 T)) :=
      List.mem_filter.mpr ⟨hr, by simpa using htok⟩
    rw [h] at this
    exact absurd this (List.not_mem_nil _)
  rcases select_users_mem [.username, .verified]
      (fun row => decide (row.token = lib.sql_text 49 T))
      vhd.users { lwsgs_user_blank with username := [] }
      (fun u => (u.username, u.verified)) (fun row => (row.username.take 31, row.verified))
      (fun _ _ => rfl) hrows
    with ⟨row, hrow, hc, hv⟩
  have hrow_eq : row = r := huniq row hrow (by simpa using hc)
  subst hrow_eq
  have hu1 := congrArg Prod.fst hv
  have hu2 := congrArg Prod.snd hv
  simp only at hu1 hu2
  have htake : row.username.take 31 ≠ [] := take_ne_nil _ 31 (by decide) hne
  unfold http_confirm
  simp only [hfrag, (token_frag T).1, (token_frag T).2, ne_eq, not_true_eq_false, if_false,
    hu1, hu2, hver, htake, or_self, hname, new_session_ok]
  constructor
  · exact (redirect_frame lib wsi _ _ tv_sec _).1
  · apply redirect_response
    left
    exact hash_ne_nil b
theorem confirm_url_kept (lib : Lib) (wsi : Wsi) (vhd : per_vhost_data__generic_sessions)
    (pss : per_session_data__generic_sessions) (tv_sec : Int) (rnd : Rand) :
    (http_confirm lib wsi vhd pss tv_sec rnd).vhd.email_confirm_url =
      vhd.email_confirm_url := by
  have hfail : ∀ (v : per_vhost_data__generic_sessions)
      (p : per_session_data__generic_sessions) (rn : Rand),
      (verf_fail lib wsi v p tv_sec rn).vhd.email_confirm_url = v.email_confirm_url := by
    intro v p rn
    unfold verf_fail
    exact (redirect_frame lib wsi v _ tv_sec rn).2.2.2
  unfold http_confirm
  simp only []
  split
  · exact hfail _ _ _
  · split
    · exact hfail _ _ _
    · split
      · exact hfail _ _ _
      · rcases rnd with _ | ⟨_ | b, rest⟩ <;>
          simp only [lwsgs_new_session_id, lws_get_random, ne_eq, one_ne_zero,
            not_false_eq_true, not_true_eq_false, if_true, if_false]
        · exact hfail _ _ _
        · exact hfail _ _ _
        · exact (redirect_frame lib wsi _ _ tv_sec _).2.2.2

/-- C13, evaluated at a users table whose one user has a name of 32 characters, the
token and `verified == 1`: the handler copies 31 characters of the name into
`username[32]`, so its update matches no row; `verified` stays 1 and the redirect goes
to the ok page, also at a second confirm with the same token. -/
theorem confirm_long_name :
    (vhd_token name32 1).users.map (fun r => (r.username.length, r.token, r.verified)) =
        [(32, tok_t, 1)] ∧
      ((http_confirm lib0 wsi_confirm (vhd_token name32 1) pss0 1000 rnd3).vhd.users =
          (vhd_token name32 1).users ∧
        (http_confirm lib0 wsi_confirm (vhd_token name32 1) pss0 1000 rnd3).response.map
            (fun x => (x.status, x.location)) =
          some (303, "/post-verify-ok.html".toList)) ∧
      (http_confirm lib0 wsi_confirm
          (http_confirm lib0 wsi_confirm (vhd_token name32 1) pss0 1000 rnd3).vhd pss0 1001
          rnd3).response.map (fun x => (x.status, x.location)) =
        some (303, "/post-verify-ok.html".toList) := by
  decide

/-- The `/confirm` handler where the name fits the local `username[32]`: for every
users table and token T, at a GET of `/confirm` whose first
fragment is `token=T`, with a random source that delivers: if exactly one row has the
token (as the escape renders it), that row has `verified == 1` and a non-empty name that
its first 31 characters and the escape give back, then the rows of that name get
`verified = 100`, nothing else in the users table changes, the redirect goes to
`<confirm_url>/post-verify-ok.html`, and a confirm with the same token on the resulting
state leaves the users table as it is and goes to the fail page; if no row has the token
with `verified == 1`, the users table is unchanged and the redirect goes to
`<confirm_url>/post-verify-fail.html`. -/
theorem confirm_token (lib : Lib) (wsi : Wsi) (vhd : per_vhost_data__generic_sessions)
    (pss : per_session_data__generic_sessions) (tv_sec : Int) (T : CStr) (b : Bytes)
    (rest : Rand)
    (hfrag : wsi.uri_fragment0 = some ("token=".toList ++ T)) :
    (∀ r ∈ vhd.users, r.token = lib.sql_text 49 T → r.verified = 1 → r.username ≠ [] →
        lib.sql_text 49 (r.username.take 31) = r.username →
        (∀ x ∈ vhd.users, x.token = lib.sql_text 49 T → x = r) →
        (http_confirm lib wsi vhd pss tv_sec (some b :: rest)).vhd.users =
            vhd.users.map (fun x =>
              if x.username = r.username then { x with verified := 100 } else x) ∧
          (∃ cookies, (http_confirm lib wsi vhd pss tv_sec (some b :: rest)).response =
            some { status := 303,
                   location :=
                     (vhd.email_confirm_url ++ "/post-verify-ok.html".toList).take 255,
                   set_cookie := cookies }) ∧
          ∀ (wsi2 : Wsi) (pss2 : per_session_data__generic_sessions) (t2 : Int) (b2 : Bytes)
            (rest2 : Rand), wsi2.uri_fragment0 = some ("token=".toList ++ T) →
            (http_confirm lib wsi2 (http_confirm lib wsi vhd pss tv_sec (some b :: rest)).vhd
                pss2 t2 (some b2 :: rest2)).vhd.users =
              (http_confirm lib wsi vhd pss tv_sec (some b :: rest)).vhd.users ∧
            ∃ cookies,
              (http_confirm lib wsi2 (http_confirm lib wsi vhd pss tv_sec (some b :: rest)).vhd
                pss2 t2 (some b2 :: rest2)).response =
              some { status := 303,
                     location :=
                       (vhd.email_confirm_url ++ "/post-verify-fail.html".toList).take 255,
                     set_cookie := cookies }) ∧
      ((∀ r ∈ vhd.users, r.token = lib.sql_text 49 T → r.verified ≠ 1) →
        (http_confirm lib wsi vhd pss tv_sec (some b :: rest)).vhd.users = vhd.users ∧
          ∃ cookies, (http_confirm lib wsi vhd pss tv_sec (some b :: rest)).response =
            some { status := 303,
                   location :=
                     (vhd.email_confirm_url ++ "/post-verify-fail.html".toList).take 255,
                   set_cookie := cookies }) := by
  refine ⟨?_, confirm_miss lib wsi vhd pss tv_sec T b rest hfrag⟩
  intro r hr htok hver hne hname huniq
  have hhit := confirm_hit lib wsi vhd pss tv_sec T b rest r hfrag hr htok hver hne hname huniq
  refine ⟨hhit.1, hhit.2, ?_⟩
  intro wsi2 pss2 t2 b2 rest2 hfrag2
  have hurl := confirm_url_kept lib wsi vhd pss tv_sec (some b :: rest)
  have hmiss := confirm_miss lib wsi2
    (http_confirm lib wsi vhd pss tv_sec (some b :: rest)).vhd pss2 t2 T b2 rest2 hfrag2 (by
      intro x hx hxtok hxver
      rw [hhit.1, List.mem_map] at hx
      rcases hx with ⟨y, hy, hxy⟩
      by_cases hyn : y.username = r.username
      · rw [if_pos hyn] at hxy
        rw [← hxy] at hxver
        simp at hxver
      · rw [if_neg hyn] at hxy
        rw [← hxy] at hxtok
        exact hyn (congrArg UserRow.username (huniq y hy hxtok)))
  rw [hurl] at hmiss
  exact hmiss

/-- The confirm of `bob`, who has the token and `verified == 1`, sets `verified` to 100. -/
theorem confirm_token_witness :
    wsi_confirm.uri_fragment0 = some ("token=".toList ++ tok_t) ∧
      (http_confirm lib0 wsi_confirm (vhd_token bob 1) pss0 1000
          (some (fun i => i) :: [])).vhd.users =
        (vhd_token bob 1).users.map (fun x =>
          if x.username = bob then { x with verified := 100 } else x) :=
  ⟨rfl,
    ((confirm_token lib0 wsi_confirm (vhd_token bob 1) pss0 1000 tok_t (fun i => i) [] rfl).1
      { bob_row 1 with username := bob, token := tok_t } (List.mem_singleton.mpr rfl) rfl rfl
      (by decide) (by decide) (by decide)).1⟩

theorem forgot_fail_spec (lib : Lib) (wsi : Wsi) (vhd : per_vhost_data__generic_sessions)
    (pss : per_session_data__generic_sessions) (tv_sec : Int) (b : Bytes) (rest : Rand) :
    (forgot_fail lib wsi vhd pss tv_sec (some b :: rest)).vhd.users = vhd.users ∧
      ∃ cookies, (forgot_fail lib wsi vhd pss tv_sec (some b :: rest)).response =
        some { status := 303,
               location := (vhd.email_confirm_url ++ ['/'] ++
                 (wsi.urlarg "bad=".toList).getD "broken-forget-post-bad-url".toList).take 255,
               set_cookie := cookies } := by
  unfold forgot_fail
  exact ⟨(redirect_frame lib wsi vhd _ tv_sec _).1,
    redirect_response lib wsi vhd _ tv_sec _ (Or.inr ⟨b, rest, rfl⟩)⟩

/-- The forgot handler when no verified row has the token with a token time other
than 0: the users table is unchanged and the redirect goes to the bad URL. -/
theorem forgot_miss (lib : Lib) (wsi : Wsi) (vhd : per_vhost_data__generic_sessions)
    (pss : per_session_data__generic_sessions) (tv_sec : Int) (T : CStr) (b : Bytes)
    (rest : Rand)
    (harg : wsi.urlarg "token=".toList = some T)
    (hno : ∀ r ∈ vhd.users, r.token = lib.sql_text 49 T → r.verified = 100 →
      ∀ t, r.token_time = some t → t = 0) :
    (http_forgot lib wsi vhd pss tv_sec (some b :: rest)).vhd.users = vhd.users ∧
      ∃ cookies, (http_forgot lib wsi vhd pss tv_sec (some b :: rest)).response =
        some { status := 303,
               location := (vhd.email_confirm_url ++ ['/'] ++
                 (wsi.urlarg "bad=".toList).getD "broken-forget-post-bad-url".toList).take 255,
               set_cookie := cookies } := by
  unfold http_forgot
  simp only [harg]
  have hrows : vhd.users.filter
      (fun row => decide (row.verified = 100) && decide (row.token = lib.sql_text 49 T)
        && (match row.token_time with
            | some t => !decide (t = 0)
            | none => false)) = [] := by
    rw [List.filter_eq_nil_iff]
    intro r hr hc
    simp only [Bool.and_eq_true, decide_eq_true_eq] at hc
    rcases hc with ⟨⟨hv, ht⟩, htt⟩
    cases htime : r.token_time with
    | none => rw [htime] at htt; simp at htt
    | some t =>
      rw [htime] at htt
      have := hno r hr ht hv t htime
      simp [this] at htt
  rw [select_users_nil _ _ _ _ hrows]
  simp only [if_true]
  exact forgot_fail_spec lib wsi vhd _ tv_sec b rest

/-- The forgot handler when exactly one row `r` has the token, verified, with a token
time other than 0 and a name that the struct and the escape keep: the rows of that name
get `token_time = 0` and `last_forgot_validated = now`, and the redirect goes to the
good URL. -/
theorem forgot_hit (lib : Lib) (wsi : Wsi) (vhd : per_vhost_data__generic_sessions)
    (pss : per_session_data__generic_sessions) (tv_sec : Int) (T : CStr) (b : Bytes)
    (rest : Rand) (r : UserRow) (t : Int)
    (harg : wsi.urlarg "token=".toList = some T)
    (hr : r ∈ vhd.users) (htok : r.token = lib.sql_text 49 T) (hver : r.verified = 100)
    (htime : r.token_time = some t) (ht : t ≠ 0)
    (hne : r.username ≠ []) (hname : lib.sql_text 49 (r.username.take 31) = r.username)
    (huniq : ∀ x ∈ vhd.users, x.token = lib.sql_text 49 T → x = r) :
    (http_forgot lib wsi vhd pss tv_sec (some b :: rest)).vhd.users =
        vhd.users.map (fun x =>
          if x.username = r.username then
            { x with token_time := some 0, last_forgot_validated := lwsgs_now_secs tv_sec }
          else x) ∧
      ∃ cookies, (http_forgot lib wsi vhd pss tv_sec (some b :: rest)).response =
        some { status := 303,
               location := (vhd.email_confirm_url ++ ['/'] ++
                 (wsi.urlarg "good=".toList).getD "broken-forget-post-good-url".toList).take 255,
               set_cookie := cookies } := by
  have hrows : vhd.users.filter
      (fun row => decide (row.verified = 100) && decide (row.token = lib.sql_text 49 T)
        && (match row.token_time with
            | some t => !decide (t = 0)
            | none => false)) ≠ [] := by
    intro h
    have : r ∈ vhd.users.filter
        (fun row => decide (row.verified = 100) && decide (row.token = lib.sql_text 49 T)
          && (match row.token_time with
              | some t => !decide (t = 0)
              | none => false)) :=
      List.mem_filter.mpr ⟨hr, by simp [hver, htok, htime, ht]⟩
    rw [h] at this
    exact absurd this (List.not_mem_nil _)
  rcases select_users_mem [.username, .verified] _
      vhd.users { lwsgs_user_blank with username := [] }
      (fun u => u.username) (fun row => row.username.take 31)
      (fun _ _ => rfl) hrows
    with ⟨row, hrow, hc, hv⟩
  have hrow_eq : row = r := huniq row hrow (by
    simp only [Bool.and_eq_true, decide_eq_true_eq] at hc
    exact hc.1.2)
  subst hrow_eq
  have htake : row.username.take 31 ≠ [] := take_ne_nil _ 31 (by decide) hne
  unfold http_forgot
  simp only [harg, hv, htake, if_false, hname, new_session_ok, ne_eq, not_true_eq_false]
  constructor
  · exact (redirect_frame lib wsi _ _ tv_sec _).1
  · apply redirect_response
    left
    exact hash_ne_nil b

theorem forgot_url_kept (lib : Lib) (wsi : Wsi) (vhd : per_vhost_data__generic_sessions)
    (pss : per_session_data__generic_sessions) (tv_sec : Int) (rnd : Rand) :
    (http_forgot lib wsi vhd pss tv_sec rnd).vhd.email_confirm_url =
      vhd.email_confirm_url := by
  have hfail : ∀ (v : per_vhost_data__generic_sessions)
      (p : per_session_data__generic_sessions) (rn : Rand),
      (forgot_fail lib wsi v p tv_sec rn).vhd.email_confirm_url = v.email_confirm_url := by
    intro v p rn
    unfold forgot_fail
    exact (redirect_frame lib wsi v _ tv_sec rn).2.2.2
  unfold http_forgot
  simp only []
  split
  · exact hfail _ _ _
  · split
    · exact hfail _ _ _
    · rcases rnd with _ | ⟨_ | b, rest⟩ <;>
        simp only [lwsgs_new_session_id, lws_get_random, ne_eq, one_ne_zero,
          not_false_eq_true, not_true_eq_false, if_true, if_false]
      · exact hfail _ _ _
      · exact hfail _ _ _
      · exact (redirect_frame lib wsi _ _ tv_sec _).2.2.2

/-- C14, evaluated at a users table whose one user is verified, has a name of 32
characters and the live token: the handler copies 31 characters of the name into
`username[32]`, so its update matches no row; the redirect goes to the good URL with
`token_time` and `last_forgot_validated` as they were, and a second request with the
same token succeeds again. -/
theorem forgot_long_name :
    (vhd_forgot_token name32).users.map
        (fun r => (r.username.length, r.token, r.verified, r.token_time)) =
        [(32, tok_t, 100, some 900)] ∧
      ((http_forgot lib0 wsi_forgot (vhd_forgot_token name32) pss0 1000 rnd3).vhd.users =
          (vhd_forgot_token name32).users ∧
        (http_forgot lib0 wsi_forgot (vhd_forgot_token name32) pss0 1000 rnd3).response.map
            (fun x => (x.status, x.location)) = some (303, ['/', 'o', 'k'])) ∧
      (http_forgot lib0 wsi_forgot
          (http_forgot lib0 wsi_forgot (vhd_forgot_token name32) pss0 1000 rnd3).vhd pss0 1001
          rnd3).response.map (fun x => (x.status, x.location)) = some (303, ['/', 'o', 'k']) := by
  decide

/-- The `/forgot` handler where the name fits the local `username[32]`: for every
users table and token T, at a GET of `/forgot` with the URL
argument `token=T` and a random source that delivers: if exactly one row has the token
(as the escape renders it), that row has `verified == 100`, a token time other than 0
and a non-empty name that its first 31 characters and the escape give back, then the
rows of that name get `token_time = 0` and `last_forgot_validated = now`, nothing else
in the users table changes, the redirect goes to `<confirm_url>/<good>`, and a request
with the same token on the resulting state leaves the users table as it is and goes to
`<confirm_url>/<bad>`; if no row with `verified == 100` and a token time other than 0 has
the token, the users table is unchanged and the redirect goes to `<confirm_url>/<bad>`. -/
theorem forgot_token (lib : Lib) (wsi : Wsi) (vhd : per_vhost_data__generic_sessions)
    (pss : per_session_data__generic_sessions) (tv_sec : Int) (T : CStr) (b : Bytes)
    (rest : Rand)
    (harg : wsi.urlarg "token=".toList = some T) :
    (∀ r ∈ vhd.users, r.token = lib.sql_text 49 T → r.verified = 100 →
        (∃ t, r.token_time = some t ∧ t ≠ 0) → r.username ≠ [] →
        lib.sql_text 49 (r.username.take 31) = r.username →
        (∀ x ∈ vhd.users, x.token = lib.sql_text 49 T → x = r) →
        (http_forgot lib wsi vhd pss tv_sec (some b :: rest)).vhd.users =
            vhd.users.map (fun x =>
              if x.username = r.username then
                { x with token_time := some 0, last_forgot_validated := lwsgs_now_secs tv_sec }
              else x) ∧
          (∃ cookies, (http_forgot lib wsi vhd pss tv_sec (some b :: rest)).response =
            some { status := 303,
                   location := (vhd.email_confirm_url ++ ['/'] ++
                     (wsi.urlarg "good=".toList).getD
                       "broken-forget-post-good-url".toList).take 255,
                   set_cookie := cookies }) ∧
          ∀ (wsi2 : Wsi) (pss2 : per_session_data__generic_sessions) (t2 : Int) (b2 : Bytes)
            (rest2 : Rand), wsi2.urlarg "token=".toList = some T →
            (http_forgot lib wsi2 (http_forgot lib wsi vhd pss tv_sec (some b :: rest)).vhd
                pss2 t2 (some b2 :: rest2)).vhd.users =
              (http_forgot lib wsi vhd pss tv_sec (some b :: rest)).vhd.users ∧
            ∃ cookies,
              (http_forgot lib wsi2 (http_forgot lib wsi vhd pss tv_sec (some b :: rest)).vhd
                pss2 t2 (some b2 :: rest2)).response =
              some { status := 303,
                     location := (vhd.email_confirm_url ++ ['/'] ++
                       (wsi2.urlarg "bad=".toList).getD
                         "broken-forget-post-bad-url".toList).take 255,
                     set_cookie := cookies }) ∧
      ((∀ r ∈ vhd.users, r.token = lib.sql_text 49 T → r.verified = 100 →
          ∀ t, r.token_time = some t → t = 0) →
        (http_forgot lib wsi vhd pss tv_sec (some b :: rest)).vhd.users = vhd.users ∧
          ∃ cookies, (http_forgot lib wsi vhd pss tv_sec (some b :: rest)).response =
            some { status := 303,
                   location := (vhd.email_confirm_url ++ ['/'] ++
                     (wsi.urlarg "bad=".toList).getD
                       "broken-forget-post-bad-url".toList).take 255,
                   set_cookie := cookies }) := by
  refine ⟨?_, forgot_miss lib wsi vhd pss tv_sec T b rest harg⟩
  intro r hr htok hver htime hne hname huniq
  rcases htime with ⟨t, htime, ht⟩
  have hhit := forgot_hit lib wsi vhd pss tv_sec T b rest r t harg hr htok hver htime ht hne
    hname huniq
  refine ⟨hhit.1, hhit.2, ?_⟩
  intro wsi2 pss2 t2 b2 rest2 harg2
  have hurl := forgot_url_kept lib wsi vhd pss tv_sec (some b :: rest)
  have hmiss := forgot_miss lib wsi2
    (http_forgot lib wsi vhd pss tv_sec (some b :: rest)).vhd pss2 t2 T b2 rest2 harg2 (by
      intro x hx hxtok _ t' hxt
      rw [hhit.1, List.mem_map] at hx
      rcases hx with ⟨y, hy, hxy⟩
      by_cases hyn : y.username = r.username
      · rw [if_pos hyn] at hxy
        rw [← hxy] at hxt
        simp only [Option.some.injEq] at hxt
        exact hxt.symm
      · rw [if_neg hyn] at hxy
        rw [← hxy] at hxtok
        exact absurd (congrArg UserRow.username (huniq y hy hxtok)) hyn)
  rw [hurl] at hmiss
  exact hmiss

/-- The forgot request of `bob`, who is verified and has the live token, consumes the
token. -/
theorem forgot_token_witness :
    wsi_forgot.urlarg "token=".toList = some tok_t ∧
      (http_forgot lib0 wsi_forgot (vhd_forgot_token bob) pss0 1000
          (some (fun i => i) :: [])).vhd.users =
        (vhd_forgot_token bob).users.map (fun x =>
          if x.username = bob then
            { x with token_time := some 0, last_forgot_validated := lwsgs_now_secs 1000 }
          else x) :=
  ⟨by decide,
    ((forgot_token lib0 wsi_forgot (vhd_forgot_token bob) pss0 1000 tok_t (fun i => i) []
        (by decide)).1
      { bob_row 100 with username := bob, token := tok_t, token_time := some 900 }
      (List.mem_singleton.mpr rfl) rfl rfl ⟨900, rfl, by decide⟩
      (by decide) (by decide) (by decide)).1⟩

/-! ## Lemmas on the form handlers -/

theorem redirect_vhd (lib : Lib) (wsi : Wsi) (vhd : per_vhost_data__generic_sessions)
    (pss : per_session_data__generic_sessions) (tv_sec : Int) (rnd : Rand)
    (h : pss.login_session ≠ []) :
    (redirect_with_cookie lib wsi vhd pss tv_sec rnd).vhd = vhd := by
  unfold redirect_with_cookie
  simp only [h, if_false, try_to_reuse]

theorem get_sid_ne_nil (wsi : Wsi) (h : (lwsgs_get_sid_from_wsi wsi).1 = 0) :
    (lwsgs_get_sid_from_wsi wsi).2 ≠ [] := by
  intro hnil
  have := get_sid_length wsi h
  rw [hnil] at this
  simp at this

theorem expire_sessions_subset (vhd : per_vhost_data__generic_sessions) (tv_sec : Int)
    (s : SessionRow) (h : s ∈ (lwsgw_expire_old_sessions vhd tv_sec).2.sessions) :
    s ∈ vhd.sessions := by
  unfold lwsgw_expire_old_sessions at h
  by_cases hc : lwsgs_now_secs tv_sec - vhd.last_session_expire < 5
  · simpa [hc] using h
  · simp only [hc, if_false, List.mem_filter] at h
    exact h.1

/-- The number stored for a sum that is not negative and fits 63 bits is the sum. -/
theorem sql_number_small (lib : Lib) (n : Int) (h0 : 0 ≤ n) (h1 : n < 2 ^ 63) :
    sql_number lib (n % 2 ^ 64) = n := by
  have h : n % 2 ^ 64 = n := Int.emod_eq_of_lt h0 (by omega)
  unfold sql_number
  rw [h, if_pos h1]

/-- The auth level of the empty user name is 0, where the escape of the empty string
is empty. -/
theorem auth_level_anonymous (lib : Lib) (vhd : per_vhost_data__generic_sessions)
    (tv_sec : Int) (hE : lib.sql_text 49 [] = []) (hP : lib.lws_sql_purify 49 [] = []) :
    lwsgs_get_auth_level lib vhd [] tv_sec = 0 := by
  have hnf : ¬ (lwsgs_lookup_user lib vhd [] lwsgs_user_blank).1 = 0 := by
    rw [lookup_user_found_iff lib vhd [] lwsgs_user_blank _
      (lookup_user_key_fits lib [] (by rw [hP]; exact Nat.zero_le _))]
    intro h
    exact h.1 hE
  unfold lwsgs_get_auth_level
  simp only [hnf, if_false, ne_eq, not_true_eq_false]

/-- C16, amended: for every POST of `/logout` with a well-formed session cookie id S
and a good URL, where the escape gives back S and the empty string and
`now + timeout_anon_absolute_secs` is not negative (and below `2 ^ 63`, as the sum of an
`unsigned int` and an `int` is): the sessions table afterwards is the table in which the rows named S have the user name "" and
`expire = now + timeout_anon_absolute_secs`, swept of the rows with `expire <= now` when
the last sweep is 5 seconds old or more (every other row that the sweep leaves is
unchanged); the users table is unchanged; the response is the 303 redirect to the good
URL (its first 255 characters); and whenever a later session lookup finds S, the auth
level of the user name it returns is 0. -/
theorem logout_demotes (lib : Lib) (wsi : Wsi) (vhd : per_vhost_data__generic_sessions)
    (pss : per_session_data__generic_sessions) (spa : Spa) (good : CStr)
    (tv_sec : Int) (rnd : Rand)
    (hsid : (lwsgs_get_sid_from_wsi wsi).1 = 0)
    (hgood : spa .FGS_GOOD = some good)
    (hS : lib.sql_text 50 (lwsgs_get_sid_from_wsi wsi).2 = (lwsgs_get_sid_from_wsi wsi).2 ∧
      lib.sql_text 49 (lwsgs_get_sid_from_wsi wsi).2 = (lwsgs_get_sid_from_wsi wsi).2)
    (hE : lib.sql_text 50 [] = [] ∧ lib.sql_text 49 [] = [] ∧ lib.lws_sql_purify 49 [] = [])
    (hn : 0 ≤ lwsgs_now_secs tv_sec + vhd.timeout_anon_absolute_secs ∧
      lwsgs_now_secs tv_sec + vhd.timeout_anon_absolute_secs < 2 ^ 63) :
    ∃ r, logout_post lib wsi vhd pss spa tv_sec rnd = some r ∧
      r.vhd.sessions =
        (if lwsgs_now_secs tv_sec - vhd.last_session_expire < 5 then
          vhd.sessions.map (fun s =>
            if s.name = (lwsgs_get_sid_from_wsi wsi).2 then
              { s with
                  expire := lwsgs_now_secs tv_sec + vhd.timeout_anon_absolute_secs,
                  username := [] }
            else s)
        else
          (vhd.sessions.map (fun s =>
            if s.name = (lwsgs_get_sid_from_wsi wsi).2 then
              { s with
                  expire := lwsgs_now_secs tv_sec + vhd.timeout_anon_absolute_secs,
                  username := [] }
            else s)).filter (fun s => !decide (s.expire ≤ lwsgs_now_secs tv_sec))) ∧
      r.vhd.users = vhd.users ∧
      (∃ cookies, r.response =
        some { status := 303, location := good.take 255, set_cookie := cookies }) ∧
      ∀ (t2 : Int) (buf : CStr),
        (lwsgs_lookup_session lib r.vhd (lwsgs_get_sid_from_wsi wsi).2 buf 32 t2).1 = 0 →
        lwsgs_get_auth_level lib r.vhd
          (lwsgs_lookup_session lib r.vhd (lwsgs_get_sid_from_wsi wsi).2 buf 32 t2).2.1 t2 = 0 := by
  have hne := get_sid_ne_nil wsi hsid
  unfold logout_post
  simp only [hsid, ne_eq, not_true_eq_false, if_false, hgood]
  refine ⟨_, rfl, ?_⟩
  unfold completion_flow
  rw [redirect_vhd lib wsi _ _ tv_sec rnd hne]
  have hsess : (lwsgw_expire_old_sessions
      (lwsgw_update_session lib vhd (lwsgs_get_sid_from_wsi wsi).2 [] tv_sec).2 tv_sec).2.sessions =
      (if lwsgs_now_secs tv_sec - vhd.last_session_expire < 5 then
          vhd.sessions.map (fun s =>
            if s.name = (lwsgs_get_sid_from_wsi wsi).2 then
              { s with
                  expire := lwsgs_now_secs tv_sec + vhd.timeout_anon_absolute_secs,
                  username := [] }
            else s)
        else
          (vhd.sessions.map (fun s =>
            if s.name = (lwsgs_get_sid_from_wsi wsi).2 then
              { s with
                  expire := lwsgs_now_secs tv_sec + vhd.timeout_anon_absolute_secs,
                  username := [] }
            else s)).filter (fun s => !decide (s.expire ≤ lwsgs_now_secs tv_sec))) := by
    unfold lwsgw_expire_old_sessions lwsgw_update_session
    simp only [hS.1, hE.1, ne_eq, not_true_eq_false, if_false,
      sql_number_small lib _ hn.1 hn.2]
    split <;> rfl
  refine ⟨hsess, ?_, ?_, ?_⟩
  · exact ((expire_users _ tv_sec).1).trans rfl
  · exact redirect_response lib wsi _ _ tv_sec rnd (Or.inl hne)
  · intro t2 buf hfound
    rcases lookup_session_found lib _ _ buf 32 t2 hfound with ⟨s, hs, hname, huser⟩
    rw [huser]
    have hs1 := expire_sessions_subset _ t2 s hs
    have hs2 : s.username = [] := by
      rw [hsess] at hs1
      rw [hS.2] at hname
      have hmem : s ∈ vhd.sessions.map (fun s =>
            if s.name = (lwsgs_get_sid_from_wsi wsi).2 then
              { s with
                  expire := lwsgs_now_secs tv_sec + vhd.timeout_anon_absolute_secs,
                  username := [] }
            else s) := by
        split at hs1
        · exact hs1
        · exact (List.mem_filter.mp hs1).1
      rcases List.mem_map.mp hmem with ⟨s0, _, hs0⟩
      by_cases hn0 : s0.name = (lwsgs_get_sid_from_wsi wsi).2
      · rw [if_pos hn0] at hs0
        rw [← hs0]
      · rw [if_neg hn0] at hs0
        rw [← hs0] at hname
        exact absurd hname hn0
    rw [hs2, List.take_nil]
    exact auth_level_anonymous lib _ t2 hE.2.1 hE.2.2

/-- The witness of C16: the logout of the session `sid_a`, bound to `bob`, at second
1000 with the timeout of 1200 seconds. -/
theorem logout_demotes_witness :
    (lwsgs_get_sid_from_wsi wsi_a).1 = 0 ∧
      ∃ r, logout_post lib0 wsi_a vhd_session pss0 spa_logout 1000 rnd3 = some r ∧
        r.vhd.sessions = [{ name := sid_a, username := [], expire := 2200 }] ∧
        r.vhd.users = vhd_session.users ∧
        ∃ cookies, r.response =
          some { status := 303, location := (['/', 'b', 'y', 'e'] : CStr).take 255,
                 set_cookie := cookies } :=
  ⟨by decide,
    match logout_demotes lib0 wsi_a vhd_session pss0 spa_logout ['/', 'b', 'y', 'e'] 1000 rnd3
      (by decide) rfl ⟨rfl, rfl⟩ ⟨rfl, rfl, rfl⟩ (by decide) with
    | ⟨r, h1, h2, h3, h4, _⟩ => ⟨r, h1, h2.trans (by decide), h3, h4⟩⟩

theorem Keeps.keeps_rfl (v : per_vhost_data__generic_sessions) : Keeps v v :=
  ⟨rfl, fun row h => ⟨row, h, rfl⟩⟩

theorem Keeps.keeps_trans {v1 v2 v3 : per_vhost_data__generic_sessions}
    (h12 : Keeps v1 v2) (h23 : Keeps v2 v3) : Keeps v1 v3 := by
  refine ⟨h23.1.trans h12.1, ?_⟩
  intro row hrow
  rcases h23.2 row hrow with ⟨r2, hr2, hn2⟩
  rcases h12.2 r2 hr2 with ⟨r1, hr1, hn1⟩
  exact ⟨r1, hr1, hn1.trans hn2⟩

theorem Frame.keeps {v v' : per_vhost_data__generic_sessions} (h : Frame v v') : Keeps v v' := by
  refine ⟨h.2.2.1, ?_⟩
  intro row hrow
  rw [h.1] at hrow
  exact ⟨row, hrow, rfl⟩

/-- An update of the users table that leaves the names of the rows. -/
theorem keeps_map (v : per_vhost_data__generic_sessions) (f : UserRow → UserRow)
    (hf : ∀ x, (f x).username = x.username) :
    Keeps v { v with users := v.users.map f } := by
  refine ⟨rfl, ?_⟩
  intro row hrow
  rcases List.mem_map.mp hrow with ⟨x, hx, hfx⟩
  exact ⟨x, hx, by rw [← hfx, hf]⟩

theorem try_to_reuse_vhd (wsi : Wsi) (vhd : per_vhost_data__generic_sessions)
    (pss : per_session_data__generic_sessions) (resp : Option Response) :
    (try_to_reuse wsi vhd pss resp).vhd = vhd := rfl

theorem pass_frame (lib : Lib) (wsi : Wsi) (vhd : per_vhost_data__generic_sessions)
    (pss : per_session_data__generic_sessions) (spa : Spa) (cp : Option CStr)
    (tv_sec : Int) (rnd : Rand) (r : Result)
    (h : pass lib wsi vhd pss spa cp tv_sec rnd = some r) : Frame vhd r.vhd := by
  unfold pass at h
  cases cp with
  | none => simp at h
  | some cp =>
    simp only [] at h
    have hf := new_session_frame lib vhd (spa .FGS_USERNAME)
      ((lwsgs_now_secs tv_sec + vhd.timeout_absolute_secs) % 2 ^ 32) rnd
    repeat' split at h
    all_goals first
      | (simp at h; done)
      | (cases h
         first
           | exact hf
           | exact Frame.frame_trans hf (completion_frame lib wsi _ _ tv_sec _)
           | exact Frame.frame_trans (update_session_frame lib vhd _ _ tv_sec)
               (completion_frame lib wsi _ _ tv_sec _))

theorem reg_done_frame (lib : Lib) (wsi : Wsi) (vhd : per_vhost_data__generic_sessions)
    (pss : per_session_data__generic_sessions) (spa : Spa) (n : Fgs)
    (tv_sec : Int) (rnd : Rand) (r : Result)
    (h : reg_done lib wsi vhd pss spa n tv_sec rnd = some r) : Frame vhd r.vhd := by
  unfold reg_done at h
  split at h
  · simp at h
  · cases h
    exact completion_frame lib wsi _ _ tv_sec _
/-- A state framed by the first has its user names. -/
theorem names_of_frame (lib : Lib) (vhd v' : per_vhost_data__generic_sessions) (username : CStr)
    (hfr : Frame vhd v') :
    v'.admin_user = vhd.admin_user ∧
      ∀ row ∈ v'.users, (∃ row0 ∈ vhd.users, row0.username = row.username) ∨
        (vhd.admin_user ≠ username ∧ row.username = lib.sql_text 49 username) := by
  refine ⟨hfr.2.2.1, fun row hrow => Or.inl ?_⟩
  rw [hfr.1] at hrow
  exact ⟨row, hrow, rfl⟩

/-- A state framed by the first with one row added for a name that is not the admin
name. -/
theorem names_of_insert (lib : Lib) (vhd v1 v' : per_vhost_data__generic_sessions)
    (username : CStr) (hfr : Frame v1 v') (hadm : ¬ vhd.admin_user = username)
    (ha : v1.admin_user = vhd.admin_user)
    (hu : ∃ new, v1.users = vhd.users ++ [new] ∧ new.username = lib.sql_text 49 username) :
    v'.admin_user = vhd.admin_user ∧
      ∀ row ∈ v'.users, (∃ row0 ∈ vhd.users, row0.username = row.username) ∨
        (vhd.admin_user ≠ username ∧ row.username = lib.sql_text 49 username) := by
  rcases hu with ⟨new, hu, hnew⟩
  refine ⟨hfr.2.2.1.trans ha, fun row hrow => ?_⟩
  rw [hfr.1, hu, List.mem_append, List.mem_singleton] at hrow
  rcases hrow with h1 | h1
  · exact Or.inl ⟨row, h1, rfl⟩
  · exact Or.inr ⟨hadm, by rw [h1, hnew]⟩

/-- The user names after the register branch: those of the table before, and the
escaped name of the form when that name is not the admin name. -/
theorem login_register_names (lib : Lib) (wsi : Wsi) (vhd : per_vhost_data__generic_sessions)
    (pss : per_session_data__generic_sessions) (spa : Spa) (username password : CStr)
    (tv_sec : Int) (rnd : Rand) (mem : Nat → Char) (r : Result)
    (h : login_register lib wsi vhd pss spa username password tv_sec rnd mem = some r) :
    r.vhd.admin_user = vhd.admin_user ∧
      ∀ row ∈ r.vhd.users, (∃ row0 ∈ vhd.users, row0.username = row.username) ∨
        (vhd.admin_user ≠ username ∧ row.username = lib.sql_text 49 username) := by
  unfold login_register at h
  generalize lwsgs_lookup_user lib vhd username lwsgs_user_blank = lu at h
  cases hemail : spa .FGS_EMAIL with
  | none =>
    rw [hemail] at h
    simp only [] at h
    repeat' split at h
    all_goals first
      | (simp at h; done)
      | (cases h
         exact names_of_frame lib vhd _ username (Frame.frame_rfl vhd))
      | exact names_of_frame lib vhd _ username (reg_done_frame _ _ _ _ _ _ _ _ _ h)
  | some email =>
    rw [hemail] at h
    simp only [] at h
    generalize select_users [.username, .email]
      (fun row => decide (row.email = lib.sql_text 49 email)) vhd.users _ = u at h
    generalize lwsgs_hash_password lib vhd password u rnd mem = hp at h
    rcases hp with ⟨r0, u1, rnd1⟩
    simp only [] at h
    rcases hr : lws_get_random rnd1 with ⟨_ | sid_rand, rnd2⟩ <;> rw [hr] at h <;>
      simp only [] at h <;> repeat' split at h
    all_goals first
      | (simp at h; done)
      | (cases h
         exact names_of_frame lib vhd _ username (Frame.frame_rfl vhd))
      | skip
    all_goals (have hfr := reg_done_frame _ _ _ _ _ _ _ _ _ h; clear h)
    all_goals first
      | exact names_of_frame lib vhd _ username hfr
      | exact names_of_insert lib vhd _ _ username hfr (by assumption) rfl ⟨_, rfl, rfl⟩
theorem Keeps.grows (lib : Lib) {v v' : per_vhost_data__generic_sessions} (h : Keeps v v') :
    Grows lib v v' :=
  ⟨h.1, fun row hrow => Or.inl (h.2 row hrow)⟩

theorem login_post_grows (lib : Lib) (wsi : Wsi) (vhd : per_vhost_data__generic_sessions)
    (pss : per_session_data__generic_sessions) (spa : Spa)
    (tv_sec : Int) (rnd : Rand) (mem : Nat → Char) (r : Result)
    (h : login_post lib wsi vhd pss spa tv_sec rnd mem = some r) : Grows lib vhd r.vhd := by
  unfold login_post at h
  split at h
  · rename_i username password _ _
    split at h
    · have hn := login_register_names lib wsi vhd pss spa username password tv_sec rnd mem r h
      exact ⟨hn.1, fun row hrow => (hn.2 row hrow).imp id (fun hx => ⟨username, hx.1, hx.2⟩)⟩
    · repeat' split at h
      all_goals first
        | (cases h
           exact (Keeps.keeps_rfl vhd).grows lib)
        | exact (pass_frame _ _ _ _ _ _ _ _ _ h).keeps.grows lib
        | (cases h
           exact (completion_frame lib wsi vhd _ tv_sec rnd).keeps.grows lib)
  · cases h
    exact (Keeps.keeps_rfl vhd).grows lib

theorem login_forgot_keeps (lib : Lib) (wsi : Wsi) (vhd : per_vhost_data__generic_sessions)
    (pss : per_session_data__generic_sessions) (spa : Spa)
    (tv_sec : Int) (rnd : Rand) (r : Result)
    (h : login_forgot lib wsi vhd pss spa tv_sec rnd = some r) : Keeps vhd r.vhd := by
  unfold login_forgot at h
  have key : ∀ u : lwsgs_user,
      (if spa .FGS_USERNAME = none ∧ spa .FGS_EMAIL = none then
          some (plain_return (-1) vhd pss)
        else if spa .FGS_FORGOT_GOOD = none ∨ spa .FGS_FORGOT_BAD = none ∨
            spa .FGS_FORGOT_POST_GOOD = none ∨ spa .FGS_FORGOT_POST_BAD = none then
          some (plain_return (-1) vhd pss)
        else
          if u.username = [] then reg_done lib wsi vhd pss spa .FGS_FORGOT_BAD tv_sec rnd
          else
            let pss1 := { pss with ip := wsi.peer }
            match lws_get_random rnd with
            | (none, rnd1) => reg_done lib wsi vhd pss1 spa .FGS_BAD tv_sec rnd1
            | (some sid_rand, rnd1) =>
              let hash := sha1_to_lwsgw_hash sid_rand
              let key := lib.sql_text 49 u.username
              if vhd.email.any (fun row => decide (row.username = key)) then
                reg_done lib wsi vhd pss1 spa .FGS_FORGOT_BAD tv_sec rnd1
              else
                let vhd1 := { vhd with
                  email := vhd.email ++
                    [({ username := key,
                        content := forgot_mail lib vhd u pss1.ip hash
                          ((spa .FGS_FORGOT_POST_GOOD).getD [])
                          ((spa .FGS_FORGOT_POST_BAD).getD []) } : EmailRow)] }
                let vhd2 := { vhd1 with
                  users := vhd1.users.map (fun row =>
                    if row.username = key then
                      { row with token := hash, token_time := some (lwsgs_now_secs tv_sec) }
                    else row) }
                reg_done lib wsi vhd2 pss1 spa .FGS_FORGOT_GOOD tv_sec rnd1) = some r →
      Keeps vhd r.vhd := by
    intro u h
    simp only [] at h
    rcases hr : lws_get_random rnd with ⟨_ | sid_rand, rnd1⟩ <;> rw [hr] at h <;>
      simp only [] at h <;> repeat' split at h
    all_goals first
      | (cases h
         exact Keeps.keeps_rfl vhd)
      | skip
    all_goals (have hfr := reg_done_frame _ _ _ _ _ _ _ _ _ h; clear h)
    all_goals first
      | exact hfr.keeps
      | exact Keeps.keeps_trans
          (keeps_map vhd (fun row =>
            if row.username = lib.sql_text 49 u.username then
              { row with token := sha1_to_lwsgw_hash sid_rand,
                         token_time := some (lwsgs_now_secs tv_sec) }
            else row) (fun x => by dsimp only []; split <;> rfl))
          ⟨hfr.2.2.1, fun row hrow => ⟨row, hfr.1 ▸ hrow, rfl⟩⟩
  exact key _ h

theorem login_body_grows (lib : Lib) (wsi : Wsi) (vhd : per_vhost_data__generic_sessions)
    (pss : per_session_data__generic_sessions) (spa : Spa)
    (tv_sec : Int) (rnd : Rand) (mem : Nat → Char) (r : Result)
    (h : login_body_completion lib wsi vhd pss spa tv_sec rnd mem = some r) :
    Grows lib vhd r.vhd := by
  unfold login_body_completion at h
  split at h
  · exact (login_forgot_keeps lib wsi vhd pss spa tv_sec rnd r h).grows lib
  · exact login_post_grows lib wsi vhd pss spa tv_sec rnd mem r h
theorem change_fail_frame (lib : Lib) (wsi : Wsi) (vhd : per_vhost_data__generic_sessions)
    (pss : per_session_data__generic_sessions) (spa : Spa) (tv_sec : Int) (rnd : Rand)
    (r : Result) (h : change_fail lib wsi vhd pss spa tv_sec rnd = some r) :
    Frame vhd r.vhd := by
  unfold change_fail at h
  split at h
  · simp at h
  · cases h
    exact completion_frame lib wsi vhd _ tv_sec rnd

theorem change_update_keeps (lib : Lib) (wsi : Wsi) (vhd : per_vhost_data__generic_sessions)
    (pss : per_session_data__generic_sessions) (spa : Spa) (u : lwsgs_user) (tv_sec : Int)
    (rnd : Rand) (mem : Nat → Char) (r : Result)
    (h : change_update lib wsi vhd pss spa u tv_sec rnd mem = some r) : Keeps vhd r.vhd := by
  unfold change_update at h
  generalize lwsgs_hash_password lib vhd ((spa .FGS_PASSWORD).getD []) u rnd mem = hp at h
  rcases hp with ⟨r0, u1, rnd1⟩
  simp only [] at h
  split at h
  · exact (change_fail_frame lib wsi vhd pss spa tv_sec rnd1 r h).keeps
  · split at h
    · simp at h
    · exact Keeps.keeps_trans
        (keeps_map vhd (fun row =>
          if row.username = lib.sql_text 49 u1.username then
            { row with pwhash := u1.pwhash, pwsalt := u1.pwsalt, last_forgot_validated := 0 }
          else row) (fun x => by dsimp only []; split <;> rfl))
        (pass_frame _ _ _ _ _ _ _ _ _ h).keeps

theorem change_with_credentials_keeps (lib : Lib) (wsi : Wsi)
    (vhd : per_vhost_data__generic_sessions) (pss : per_session_data__generic_sessions)
    (spa : Spa) (u : lwsgs_user) (tv_sec : Int) (rnd : Rand) (mem : Nat → Char) (r : Result)
    (h : change_with_credentials lib wsi vhd pss spa u tv_sec rnd mem = some r) :
    Keeps vhd r.vhd := by
  unfold change_with_credentials at h
  split at h
  · split at h
    · exact (change_fail_frame lib wsi vhd pss spa tv_sec rnd r h).keeps
    · exact change_update_keeps lib wsi vhd pss spa _ tv_sec rnd mem r h
  · simp at h

theorem change_post_keeps (lib : Lib) (wsi : Wsi) (vhd : per_vhost_data__generic_sessions)
    (pss : per_session_data__generic_sessions) (spa : Spa) (tv_sec : Int) (rnd : Rand)
    (mem : Nat → Char) (r : Result)
    (h : change_post lib wsi vhd pss spa tv_sec rnd mem = some r) : Keeps vhd r.vhd := by
  unfold change_post at h
  simp only [] at h
  split at h
  · rw [lookup_session_state] at h
    have hex := (expire_frame vhd tv_sec).keeps
    repeat' split at h
    all_goals first
      | exact Keeps.keeps_trans hex (change_fail_frame _ _ _ _ _ _ _ r h).keeps
      | exact Keeps.keeps_trans hex (change_with_credentials_keeps _ _ _ _ _ _ _ _ _ r h)
      | exact Keeps.keeps_trans hex (change_update_keeps _ _ _ _ _ _ _ _ _ r h)
  · exact change_with_credentials_keeps _ _ _ _ _ _ _ _ _ r h

theorem logout_post_frame (lib : Lib) (wsi : Wsi) (vhd : per_vhost_data__generic_sessions)
    (pss : per_session_data__generic_sessions) (spa : Spa) (tv_sec : Int) (rnd : Rand)
    (r : Result) (h : logout_post lib wsi vhd pss spa tv_sec rnd = some r) :
    Frame vhd r.vhd := by
  unfold logout_post at h
  simp only [] at h
  repeat' split at h
  all_goals first
    | (cases h
       exact Frame.frame_rfl vhd)
    | (cases h
       exact Frame.frame_trans (update_session_frame lib vhd _ _ tv_sec)
         (completion_frame lib wsi _ _ tv_sec rnd))

theorem verf_fail_frame (lib : Lib) (wsi : Wsi) (vhd : per_vhost_data__generic_sessions)
    (pss : per_session_data__generic_sessions) (tv_sec : Int) (rnd : Rand) :
    Frame vhd (verf_fail lib wsi vhd pss tv_sec rnd).vhd := by
  unfold verf_fail
  exact redirect_frame lib wsi vhd _ tv_sec rnd

theorem forgot_fail_frame (lib : Lib) (wsi : Wsi) (vhd : per_vhost_data__generic_sessions)
    (pss : per_session_data__generic_sessions) (tv_sec : Int) (rnd : Rand) :
    Frame vhd (forgot_fail lib wsi vhd pss tv_sec rnd).vhd := by
  unfold forgot_fail
  exact redirect_frame lib wsi vhd _ tv_sec rnd

/-- A state whose users table is that of the first with rows updated under their
names. -/
theorem keeps_of_users (v v' : per_vhost_data__generic_sessions) (f : UserRow → UserRow)
    (ha : v'.admin_user = v.admin_user) (hu : v'.users = v.users.map f)
    (hf : ∀ x, (f x).username = x.username) : Keeps v v' := by
  refine ⟨ha, ?_⟩
  intro row hrow
  rw [hu] at hrow
  rcases List.mem_map.mp hrow with ⟨x, hx, hfx⟩
  exact ⟨x, hx, by rw [← hfx, hf]⟩

theorem http_confirm_keeps (lib : Lib) (wsi : Wsi) (vhd : per_vhost_data__generic_sessions)
    (pss : per_session_data__generic_sessions) (tv_sec : Int) (rnd : Rand) :
    Keeps vhd (http_confirm lib wsi vhd pss tv_sec rnd).vhd := by
  unfold http_confirm
  simp only []
  split
  · exact (verf_fail_frame lib wsi vhd _ tv_sec rnd).keeps
  · split
    · exact (verf_fail_frame lib wsi vhd _ tv_sec rnd).keeps
    · split
      · exact (verf_fail_frame lib wsi vhd _ tv_sec rnd).keeps
      · rcases rnd with _ | ⟨_ | b, rest⟩ <;>
          simp only [lwsgs_new_session_id, lws_get_random, ne_eq, one_ne_zero,
            not_false_eq_true, not_true_eq_false, if_true, if_false]
        · refine Keeps.keeps_trans ?_ (verf_fail_frame lib wsi _ _ tv_sec _).keeps
          refine keeps_of_users vhd _ _ rfl rfl ?_
          intro x
          dsimp only []
          split <;> rfl
        · refine Keeps.keeps_trans ?_ (verf_fail_frame lib wsi _ _ tv_sec _).keeps
          refine keeps_of_users vhd _ _ rfl rfl ?_
          intro x
          dsimp only []
          split <;> rfl
        · refine Keeps.keeps_trans ?_ (redirect_frame lib wsi _ _ tv_sec _).keeps
          refine keeps_of_users vhd _ _ rfl rfl ?_
          intro x
          dsimp only []
          split <;> rfl

theorem http_forgot_keeps (lib : Lib) (wsi : Wsi) (vhd : per_vhost_data__generic_sessions)
    (pss : per_session_data__generic_sessions) (tv_sec : Int) (rnd : Rand) :
    Keeps vhd (http_forgot lib wsi vhd pss tv_sec rnd).vhd := by
  unfold http_forgot
  simp only []
  split
  · exact (forgot_fail_frame lib wsi vhd _ tv_sec rnd).keeps
  · split
    · exact (forgot_fail_frame lib wsi vhd _ tv_sec rnd).keeps
    · rcases rnd with _ | ⟨_ | b, rest⟩ <;>
        simp only [lwsgs_new_session_id, lws_get_random, ne_eq, one_ne_zero,
          not_false_eq_true, not_true_eq_false, if_true, if_false]
      · refine Keeps.keeps_trans ?_ (forgot_fail_frame lib wsi _ _ tv_sec _).keeps
        refine keeps_of_users vhd _ _ rfl rfl ?_
        intro x
        dsimp only []
        split <;> rfl
      · refine Keeps.keeps_trans ?_ (forgot_fail_frame lib wsi _ _ tv_sec _).keeps
        refine keeps_of_users vhd _ _ rfl rfl ?_
        intro x
        dsimp only []
        split <;> rfl
      · refine Keeps.keeps_trans ?_ (redirect_frame lib wsi _ _ tv_sec _).keeps
        refine keeps_of_users vhd _ _ rfl rfl ?_
        intro x
        dsimp only []
        split <;> rfl
theorem email_first_fold_mem (rows : List EmailRow) :
    ∀ (acc : Option EmailRow) (e : EmailRow),
      rows.foldl (fun acc e =>
        match acc with
        | none => some e
        | some a => if e.username < a.username then some e else some a) acc = some e →
      acc = some e ∨ e ∈ rows := by
  induction rows with
  | nil =>
    intro acc e h
    exact Or.inl h
  | cons x rest ih =>
    intro acc e h
    rw [List.foldl_cons] at h
    rcases ih _ e h with h1 | h1
    · cases acc with
      | none =>
        simp only [Option.some.injEq] at h1
        exact Or.inr (h1 ▸ List.mem_cons_self _ _)
      | some a =>
        simp only at h1
        split at h1
        · simp only [Option.some.injEq] at h1
          exact Or.inr (h1 ▸ List.mem_cons_self _ _)
        · exact Or.inl h1
    · exact Or.inr (List.mem_cons_of_mem _ h1)

/-- The row that the first select of `on_next` reads is a row of the mail queue. -/
theorem email_first_mem (rows : List EmailRow) (e : EmailRow)
    (h : email_first rows = some e) : e ∈ rows := by
  rcases email_first_fold_mem rows none e h with h1 | h1
  · cases h1
  · exact h1

theorem on_next_keeps (lib : Lib) (vhd : per_vhost_data__generic_sessions) (tv_sec : Int)
    (hq : ∀ e ∈ vhd.email, sql_quote ∉ e.username.take 31) :
    Keeps vhd (lwsgs_email_cb_on_next lib vhd tv_sec).2 := by
  have hnames : ∀ row ∈ (vhd.users.filter (fun row =>
        !(!decide (row.verified = 100) &&
          decide (row.creation_time ≤
            (lwsgs_now_secs tv_sec - vhd.timeout_email_secs) % 2 ^ 64)))).map (fun row =>
        match row.token_time with
        | some t =>
          if t ≤ (lwsgs_now_secs tv_sec - vhd.timeout_email_secs) % 2 ^ 64 then
            { row with token_time := some 0 }
          else row
        | none => row),
      ∃ row0 ∈ vhd.users, row0.username = row.username := by
    intro row hrow
    rcases List.mem_map.mp hrow with ⟨x, hx, hfx⟩
    refine ⟨x, (List.mem_filter.mp hx).1, ?_⟩
    rw [← hfx]
    split
    · split <;> rfl
    · rfl
  unfold lwsgs_email_cb_on_next
  simp only []
  cases he : email_first vhd.email with
  | none =>
    simp only [List.not_mem_nil, if_false]
    split <;> exact ⟨rfl, hnames⟩
  | some e =>
    simp only [hq e (email_first_mem _ e he), if_false]
    split <;> exact ⟨rfl, hnames⟩

theorem on_sent_keeps (lib : Lib) (vhd : per_vhost_data__generic_sessions) :
    Keeps vhd (lwsgs_email_cb_sent lib vhd).2 := by
  unfold lwsgs_email_cb_sent
  refine keeps_of_users vhd _ _ rfl rfl ?_
  intro x
  dsimp only []
  split <;> rfl

/-- Every operation leaves the admin name, and a user name it adds is the escaped text
of a string other than the admin name. -/
theorem step_grows (lib : Lib) (v v' : per_vhost_data__generic_sessions)
    (h : Step lib v v') : Grows lib v v' := by
  cases h with
  | login wsi pss spa tv_sec rnd mem r h =>
    exact login_body_grows lib wsi v pss spa tv_sec rnd mem r h
  | confirm wsi pss tv_sec rnd => exact (http_confirm_keeps lib wsi v pss tv_sec rnd).grows lib
  | forgot wsi pss tv_sec rnd => exact (http_forgot_keeps lib wsi v pss tv_sec rnd).grows lib
  | change wsi pss spa tv_sec rnd mem r h =>
    exact (change_post_keeps lib wsi v pss spa tv_sec rnd mem r h).grows lib
  | logout wsi pss spa tv_sec rnd r h =>
    exact (logout_post_frame lib wsi v pss spa tv_sec rnd r h).keeps.grows lib
  | on_next tv_sec hq => exact (on_next_keeps lib v tv_sec hq).grows lib
  | on_sent => exact (on_sent_keeps lib v).grows lib

theorem Grows.noAdmin (lib : Lib) {v v' : per_vhost_data__generic_sessions}
    (h : Grows lib v v') (hadm : ∀ s, lib.sql_text 49 s = v.admin_user → s = v.admin_user)
    (hv : NoAdmin v) : NoAdmin v' := by
  intro row hrow
  rw [h.1]
  rcases h.2 row hrow with ⟨r0, hr0, hn⟩ | ⟨s, hs, hn⟩
  · rw [← hn]
    exact hv r0 hr0
  · intro heq
    rw [hn] at heq
    exact hs (hadm s heq).symm

theorem reach_noAdmin (lib : Lib) (v v' : per_vhost_data__generic_sessions)
    (hadm : ∀ s, lib.sql_text 49 s = v.admin_user → s = v.admin_user)
    (hv : NoAdmin v) (h : Relation.ReflTransGen (Step lib) v v') :
    v'.admin_user = v.admin_user ∧ NoAdmin v' := by
  induction h with
  | refl => exact ⟨rfl, hv⟩
  | tail _ hstep ih =>
    have hg := step_grows lib _ _ hstep
    refine ⟨hg.1.trans ih.1, hg.noAdmin lib ?_ ih.2⟩
    rw [ih.1]
    exact hadm
/-- C11, amended: starting from a users table with no row whose user name is the admin
name, after any sequence of `/login` posts (login, registration, forgot request),
`/confirm` and `/forgot` requests, `/change` and `/logout` posts and mail worker
callbacks (`on_next` at a queue in which no user name has a quote in its first 31
characters, `on_sent`), no row
of the users table has the admin name, provided the escape gives the admin name for no
other string; and at such a state a register request that names the admin, carries a
well-formed session cookie and brings the reg-good and reg-bad URLs leaves the users
table unchanged and is answered with the 303 redirect to the reg-bad URL (its first 255
characters). -/
theorem admin_never_stored (lib : Lib) (v v' : per_vhost_data__generic_sessions)
    (hadm : ∀ s, lib.sql_text 49 s = v.admin_user → s = v.admin_user)
    (h0 : ∀ row ∈ v.users, row.username ≠ v.admin_user)
    (hreach : Relation.ReflTransGen (Step lib) v v') :
    (∀ row ∈ v'.users, row.username ≠ v.admin_user) ∧
      ∀ (wsi : Wsi) (pss : per_session_data__generic_sessions) (spa : Spa)
        (password reg reg_good reg_bad : CStr) (tv_sec : Int) (rnd : Rand) (mem : Nat → Char),
        (spa .FGS_FORGOT).getD [] = [] → spa .FGS_USERNAME = some v.admin_user →
        spa .FGS_PASSWORD = some password → spa .FGS_REGISTER = some reg → reg ≠ [] →
        (lwsgs_get_sid_from_wsi wsi).1 = 0 →
        spa .FGS_REG_GOOD = some reg_good → spa .FGS_REG_BAD = some reg_bad →
        ∃ r, login_body_completion lib wsi v' pss spa tv_sec rnd mem = some r ∧
          r.vhd.users = v'.users ∧
          ∃ cookies, r.response =
            some { status := 303, location := reg_bad.take 255, set_cookie := cookies } := by
  have hinv := reach_noAdmin lib v v' hadm h0 hreach
  refine ⟨fun row hrow => hinv.1 ▸ hinv.2 row hrow, ?_⟩
  intro wsi pss spa password reg reg_good reg_bad tv_sec rnd mem hforgot huser hpw hreg hreg1
    hsid hgood hbad
  have hsess : ({ pss with login_session := (lwsgs_get_sid_from_wsi wsi).2, ip := wsi.peer } :
      per_session_data__generic_sessions).login_session ≠ [] := get_sid_ne_nil wsi hsid
  rcases reg_done_bad lib wsi v'
      { pss with login_session := (lwsgs_get_sid_from_wsi wsi).2, ip := wsi.peer }
      spa reg_bad tv_sec rnd hbad hsess with ⟨r, hr, hu, _, hresp⟩
  refine ⟨r, ?_, hu, hresp⟩
  unfold login_body_completion
  simp only [hforgot, ne_eq, not_true_eq_false, if_false]
  unfold login_post
  simp only [huser, hpw, hreg, Option.getD_some, ne_eq, hreg1, not_false_eq_true, if_true]
  unfold login_register
  simp only [hsid, ne_eq, not_true_eq_false, if_false, hgood, hbad, or_self, hinv.1, if_true,
    reduceCtorEq]
  exact hr

/-- The witness of C11: the registration of `carol` on the table that holds `bob`. -/
theorem admin_never_stored_witness :
    (∀ row ∈ vhd_bob.users, row.username ≠ vhd_bob.admin_user) ∧
      carol_registered.vhd.users.map (fun row => row.username) =
        [bob, ['c', 'a', 'r', 'o', 'l']] ∧
      ∀ row ∈ carol_registered.vhd.users, row.username ≠ vhd_bob.admin_user :=
  have h0 : ∀ row ∈ vhd_bob.users, row.username ≠ vhd_bob.admin_user := by decide
  ⟨h0, by decide,
    (admin_never_stored lib0 vhd_bob carol_registered.vhd (fun _ h => h) h0
      (Relation.ReflTransGen.single
        (Step.login vhd_bob wsi_a pss0 spa_carol 1000 rnd3 mem0 carol_registered
          (by decide)))).1⟩

/-! ## The claims evaluated on the cookie text and the chunk framing -/

/-- The cookie text for an expiry that is not before the clock reading: the number
after `Max-Age=` is the decimal text of the seconds left. -/
theorem cookie_max_age_future (lib : Lib) (sid : CStr) (expires tv_sec : Int)
    (h : lwsgs_now_secs tv_sec ≤ expires) (h2 : expires - lwsgs_now_secs tv_sec < 2 ^ 64) :
    lwsgw_cookie_from_session lib sid expires tv_sec =
      "id=".toList ++ sid ++ ";Expires=".toList ++ lib.strftime_gmt expires ++
        ";path=/".toList ++ ";Max-Age=".toList ++
        (Nat.repr (expires - lwsgs_now_secs tv_sec).toNat).toList ++ ";HttpOnly".toList := by
  unfold lwsgw_cookie_from_session
  simp only []
  rw [Int.emod_eq_of_lt (by omega) h2]
  rfl

/-- C22, evaluated at the cookie that deletes a session (expiry 0) at second 1000: the
text has the five attributes in the order of the claim, and the number after `Max-Age=`
is `2 ^ 64 - 1000`, not the rendering of `0 - 1000`; the redirect of `/confirm` for a
request that carries the session `sid_a` sends this text as its first Set-Cookie. -/
theorem cookie_delete_max_age :
    lwsgw_cookie_from_session lib0 sid_a 0 1000 =
        "id=".toList ++ sid_a ++
          ";Expires=;path=/;Max-Age=18446744073709550616;HttpOnly".toList ∧
      (18446744073709550616 : Int) = 2 ^ 64 - 1000 ∧
      ((http_confirm lib0 wsi_a vhd0 pss0 1000 rnd3).response.map
          (fun x => x.set_cookie.head?)) =
        some (some ("id=".toList ++ sid_a ++
          ";Expires=;path=/;Max-Age=18446744073709550616;HttpOnly".toList)) := by
  decide

/-- C26, evaluated at two chunks that are not the last: for the input `$lwsgs` every
byte is kept back as the beginning of a placeholder, for the empty input there is no
byte; in both cases the callback returns 0 and the bytes it emits are `0\r\n\r\n`, the
chunk that ends a chunked body. -/
theorem interpolate_zero_chunk :
    args_pending.final = false ∧
      (process_html_body lib0 vhd0 pss0 args_pending [] [] 1000 100).map
          (fun r => (r.ret, r.args.p.take r.args.len.toNat, r.args.len, r.pss.pos)) =
        some (0, ['0', '\r', '\n', '\r', '\n'], 5, 6) ∧
      (process_html_body lib0 vhd0 pss0 (args_empty 100) [] [] 1000 100).map
          (fun r => (r.ret, r.args.p.take r.args.len.toNat, r.args.len)) =
        some (0, ['0', '\r', '\n', '\r', '\n'], 5) := by
  decide

/-- C24, evaluated at a new password of 120 characters, changed inside the grace window
of the forgot flow: the change succeeds (redirect to the good URL, new salt and hash
stored), and `lwsgs_check_credentials` then rejects the user with this password.  The
text of password, confounder and salt has 164 characters: `lwsgs_hash_password` keeps 148
of them in its `buffer[150]` and passes 164 bytes to the digest, `lwsgs_check_credentials`
has the whole text in its `buffer[300]`. -/
theorem change_long_password :
    (password_text pw120 vhd_forgot_done.confounder
        (sha1_to_lwsgw_hash (fun i => 16 * i + 3))).length = 164 ∧
      (change_post lib148 wsi_a vhd_forgot_done pss0 spa_change120 1100 rnd3 mem0).map
          (fun r => (r.response.map (fun x => x.location),
            r.vhd.users.map (fun u => (u.username, u.pwsalt, u.last_forgot_validated)))) =
        some (some ['/', 'd', 'o', 'n', 'e'],
          [(bob, sha1_to_lwsgw_hash (fun i => 16 * i + 3), 0)]) ∧
      (change_post lib148 wsi_a vhd_forgot_done pss0 spa_change120 1100 rnd3 mem0).map
          (fun r => lwsgs_check_credentials lib148 r.vhd bob pw120 mem0) = some 1 := by
  decide

/-! ## Lemmas on the template interpolator -/

theorem scan_step_len (vals : Nat → CStr) (s : Scan) :
    s.len ≤ (scan_step vals s).len ∧ (scan_step vals s).len ≤ s.len + 1 := by
  unfold scan_step scan_skip
  simp only []
  repeat' split
  all_goals (simp only []; omega)

theorem scan_loop_len (vals : Nat → CStr) (max_len : Int) :
    ∀ (fuel : Nat) (s0 s : Scan) (r : Int),
      scan_loop vals max_len fuel s0 = some (r, s) → s0.len ≤ s.len := by
  intro fuel
  induction fuel with
  | zero => intro s0 s r h; simp [scan_loop] at h
  | succ n ih =>
    intro s0 s r h
    unfold scan_loop at h
    split at h
    · split at h
      · simp only [Option.some.injEq, Prod.mk.injEq] at h
        rw [← h.2]
      · exact le_trans (scan_step_len vals s0).1 (ih _ _ _ h)
    · simp only [Option.some.injEq, Prod.mk.injEq] at h
      rw [← h.2]

theorem mem_bytes_length (buf : List Char) (n : Nat) : (mem_bytes buf n).length = n := by
  unfold mem_bytes
  simp only [List.length_append, List.length_take, List.length_replicate]
  omega

theorem write_at_take (buf : List Char) (n : Nat) (data : List Char) :
    (write_at buf n data).take (n + data.length) = mem_bytes buf n ++ data := by
  unfold write_at mem_bytes
  apply List.take_left'
  simp only [List.length_append, List.length_take, List.length_replicate]
  omega

theorem hex_digit_upper (k : Nat) (h : k < 16) :
    hex_digit_value (Nat.digitChar k).toUpper = k ∧
      (Nat.digitChar k).toUpper ∈ "0123456789ABCDEF".toList := by
  interval_cases k <;> decide

theorem toDigitsCore_value :
    ∀ (fuel n : Nat) (ds : List Char), n < fuel →
      (((Nat.toDigitsCore 16 fuel n ds).map Char.toUpper).foldl
          (fun acc c => 16 * acc + hex_digit_value c) 0) =
        (ds.map Char.toUpper).foldl (fun acc c => 16 * acc + hex_digit_value c) n := by
  intro fuel
  induction fuel with
  | zero => intro n ds h; omega
  | succ f ih =>
    intro n ds h
    unfold Nat.toDigitsCore
    simp only []
    split
    · rename_i hz
      have hn : n < 16 := by
        rcases Nat.lt_or_ge n 16 with h1 | h1
        · exact h1
        · have := Nat.div_pos h1 (by norm_num : 0 < 16)
          omega
      simp only [List.map_cons, List.foldl_cons, Nat.mod_eq_of_lt hn,
        (hex_digit_upper n hn).1, Nat.mul_zero, Nat.zero_add]
    · rename_i hz
      have hlt : n / 16 < f := by
        have : n / 16 < n := Nat.div_lt_self (by omega) (by norm_num)
        omega
      rw [ih (n / 16) _ hlt]
      simp only [List.map_cons, List.foldl_cons,
        (hex_digit_upper (n % 16) (Nat.mod_lt _ (by norm_num))).1]
      rw [Nat.div_add_mod]

theorem chunk_size_value_hex (n : Nat) : chunk_size_value (hex_upper n) = n := by
  unfold chunk_size_value hex_upper Nat.toDigits
  rw [toDigitsCore_value (n + 1) n [] (Nat.lt_succ_self n)]
  rfl

theorem toDigitsCore_mem :
    ∀ (fuel n : Nat) (ds : List Char) (c : Char),
      c ∈ (Nat.toDigitsCore 16 fuel n ds).map Char.toUpper →
      c ∈ ds.map Char.toUpper ∨ c ∈ "0123456789ABCDEF".toList := by
  intro fuel
  induction fuel with
  | zero =>
    intro n ds c h
    unfold Nat.toDigitsCore at h
    exact Or.inl h
  | succ f ih =>
    intro n ds c h
    unfold Nat.toDigitsCore at h
    simp only [] at h
    have hd := (hex_digit_upper (n % 16) (Nat.mod_lt _ (by norm_num))).2
    split at h
    · rw [List.map_cons, List.mem_cons] at h
      rcases h with h | h
      · exact Or.inr (h ▸ hd)
      · exact Or.inl h
    · rcases ih _ _ c h with h1 | h1
      · rw [List.map_cons, List.mem_cons] at h1
        rcases h1 with h1 | h1
        · exact Or.inr (h1 ▸ hd)
        · exact Or.inl h1
      · exact Or.inr h1

theorem hex_upper_digits (n : Nat) (c : Char) (h : c ∈ hex_upper n) :
    c ∈ "0123456789ABCDEF".toList := by
  unfold hex_upper Nat.toDigits at h
  rcases toDigitsCore_mem _ _ _ c h with h1 | h1
  · simp at h1
  · exact h1

/-- A successful invocation is one whose replacement loop ended with 0 in a state `s`,
with room for the trailer when the chunk is the last; its outcome is the framed
chunk. -/
theorem process_html_success (lib : Lib) (vhd : per_vhost_data__generic_sessions)
    (pss : per_session_data__generic_sessions) (args : lws_process_html_args)
    (username email : CStr) (tv_sec : Int) (fuel : Nat) (res : HtmlResult)
    (h : process_html_body lib vhd pss args username email tv_sec fuel = some res)
    (hret : res.ret = 0) :
    ∃ s : Scan,
      scan_loop (html_vals lib vhd username email tv_sec) args.max_len fuel
          (scan_init pss args) = some (0, s) ∧
        ¬ (args.final = true ∧ s.len + 7 ≥ args.max_len) ∧
        res.args.p = hex_upper s.len.toNat ++ ['\r', '\n'] ++
          write_at s.buf s.len.toNat
            (if args.final then ['\r', '\n', '0', '\r', '\n', '\r', '\n'] else ['\r', '\n']) ∧
        res.args.len = s.len + ((hex_upper s.len.toNat).length + 2) +
          (if args.final then 7 else 2) ∧
        res.pss.pos = s.pos ∧ res.pss.swallow = s.swallow := by
  unfold process_html_body at h
  cases hs : scan_loop (html_vals lib vhd username email tv_sec) args.max_len fuel
      (scan_init pss args) with
  | none =>
    rw [show scan_loop (html_vals lib vhd username email tv_sec) args.max_len fuel
      { buf := args.p, sp := 0, old_len := args.len, len := 0, pos := pss.pos,
        swallow := pss.swallow, start := 0 } = none from hs] at h
    simp at h
  | some rs =>
    rcases rs with ⟨r, s⟩
    rw [show scan_loop (html_vals lib vhd username email tv_sec) args.max_len fuel
      { buf := args.p, sp := 0, old_len := args.len, len := 0, pos := pss.pos,
        swallow := pss.swallow, start := 0 } = some (r, s) from hs] at h
    simp only [] at h
    split at h
    · simp only [Option.some.injEq] at h
      rw [← h] at hret
      simp at hret
    · rename_i hr
      split at h
      · simp only [Option.some.injEq] at h
        rw [← h] at hret
        simp at hret
      · rename_i hfin
        simp only [Option.some.injEq] at h
        have hr0 : r = 0 := by simpa using hr
        subst hr0
        refine ⟨s, rfl, ?_, ?_, ?_, ?_, ?_⟩
        · intro hc
          exact hfin ⟨hc.1, hc.2⟩
        · rw [← h]
        · rw [← h]
          cases args.final <;>
            simp only [List.length_append, List.length_cons, List.length_nil, if_true,
              Bool.false_eq_true, if_false] <;> omega
        · rw [← h]
        · rw [← h]

/-- C21: for every invocation of the interpolator that returns 0, with `L` the payload
length the replacement loop counted and the payload the `L` bytes at `args->p` then: the
bytes emitted (the `args->len` bytes from the new `args->p` on) are the upper-case
hexadecimal text of `L`, CR LF, the payload, CR LF, followed by `0` CR LF CR LF exactly
when `final` is set; the hexadecimal text is made of hexadecimal digits and denotes `L`;
and `args->len` is the length of that text plus 2 plus `L` plus 2, plus 5 when `final`
is set. -/
theorem chunk_framing (lib : Lib) (vhd : per_vhost_data__generic_sessions)
    (pss : per_session_data__generic_sessions) (args : lws_process_html_args)
    (username email : CStr) (tv_sec : Int) (fuel : Nat) (res : HtmlResult)
    (h : process_html_body lib vhd pss args username email tv_sec fuel = some res)
    (hret : res.ret = 0) :
    ∃ (s : Scan) (L : Nat),
      scan_loop (html_vals lib vhd username email tv_sec) args.max_len fuel
          (scan_init pss args) = some (0, s) ∧
        s.len = (L : Int) ∧
        res.args.p.take res.args.len.toNat =
          hex_upper L ++ ['\r', '\n'] ++ mem_bytes s.buf L ++ ['\r', '\n'] ++
            (if args.final then ['0', '\r', '\n', '\r', '\n'] else []) ∧
        (∀ c ∈ hex_upper L, c ∈ "0123456789ABCDEF".toList) ∧
        chunk_size_value (hex_upper L) = L ∧
        res.args.len = ((hex_upper L).length : Int) + 2 + L + 2 +
          (if args.final then 5 else 0) := by
  rcases process_html_success lib vhd pss args username email tv_sec fuel res h hret with
    ⟨s, hs, _, hp, hlen, _, _⟩
  have h0 : (0 : Int) ≤ s.len := scan_loop_len _ _ fuel _ s 0 hs
  have hL : s.len = ((s.len.toNat : Nat) : Int) := (Int.toNat_of_nonneg h0).symm
  refine ⟨s, s.len.toNat, hs, hL, ?_, hex_upper_digits _, chunk_size_value_hex _, ?_⟩
  · rw [hp, hlen]
    cases args.final
    · have hn : (s.len + ((hex_upper s.len.toNat).length + 2) + 2).toNat =
          (hex_upper s.len.toNat ++ ['\r', '\n']).length + (s.len.toNat + 2) := by
        simp only [List.length_append, List.length_cons, List.length_nil]
        omega
      simp only [Bool.false_eq_true, if_false, hn, List.take_append, List.append_nil]
      rw [show s.len.toNat + 2 = s.len.toNat + (['\r', '\n'] : List Char).length from rfl,
        write_at_take]
      simp only [List.append_assoc]
    · have hn : (s.len + ((hex_upper s.len.toNat).length + 2) + 7).toNat =
          (hex_upper s.len.toNat ++ ['\r', '\n']).length + (s.len.toNat + 7) := by
        simp only [List.length_append, List.length_cons, List.length_nil]
        omega
      simp only [if_true, hn, List.take_append]
      rw [show s.len.toNat + 7 =
          s.len.toNat + (['\r', '\n', '0', '\r', '\n', '\r', '\n'] : List Char).length from rfl,
        write_at_take]
      simp only [List.append_assoc, List.cons_append, List.nil_append]
  · rw [hlen]
    cases args.final
    · simp only [Bool.false_eq_true, if_false]
      omega
    · simp only [if_true]
      omega

/-- The witness of C21: the last chunk `hi $lwsgs_user!` for the user `bob`. -/
theorem chunk_framing_witness :
    process_html_body lib0 vhd0 pss0 args_hi bob [] 1000 100 = some html_hi ∧
      html_hi.ret = 0 ∧
      html_hi.args.p.take html_hi.args.len.toNat =
        "7\r\nhi bob!\r\n0\r\n\r\n".toList ∧
      ∃ (s : Scan) (L : Nat),
        scan_loop (html_vals lib0 vhd0 bob [] 1000) args_hi.max_len 100
            (scan_init pss0 args_hi) = some (0, s) ∧
          s.len = (L : Int) ∧
          html_hi.args.p.take html_hi.args.len.toNat =
            hex_upper L ++ ['\r', '\n'] ++ mem_bytes s.buf L ++ ['\r', '\n'] ++
              (if args_hi.final then ['0', '\r', '\n', '\r', '\n'] else []) ∧
          (∀ c ∈ hex_upper L, c ∈ "0123456789ABCDEF".toList) ∧
          chunk_size_value (hex_upper L) = L ∧
          html_hi.args.len = ((hex_upper L).length : Int) + 2 + L + 2 +
            (if args_hi.final then 5 else 0) :=
  ⟨by decide, by decide, by decide,
    chunk_framing lib0 vhd0 pss0 args_hi bob [] 1000 100 html_hi (by decide) (by decide)⟩

/-- The replacement loop run for `k` passes that the loop condition and the test of the
padding admit, then for `fuel` passes more. -/
theorem scan_loop_iterate (vals : Nat → CStr) (max_len : Int) :
    ∀ (k fuel : Nat) (s0 : Scan),
      (∀ j < k, ((Nat.iterate (scan_step vals) j s0).sp : Int) <
          (Nat.iterate (scan_step vals) j s0).old_len ∧
        (Nat.iterate (scan_step vals) j s0).len + 7 < max_len) →
      scan_loop vals max_len (fuel + k) s0 =
        scan_loop vals max_len fuel (Nat.iterate (scan_step vals) k s0) := by
  intro k
  induction k with
  | zero => intro fuel s0 _; rfl
  | succ k ih =>
    intro fuel s0 h
    have h0 : (s0.sp : Int) < s0.old_len ∧ s0.len + 7 < max_len := h 0 (Nat.succ_pos k)
    rw [show fuel + (k + 1) = (fuel + k) + 1 from rfl, scan_loop, if_pos h0.1,
      if_neg (by omega), Function.iterate_succ_apply]
    apply ih
    intro j hj
    have := h (j + 1) (Nat.succ_lt_succ hj)
    rwa [Function.iterate_succ_apply] at this

/-- When the replacement loop ends with 0, the payload and the reserve of 7 bytes are
within `max_len`, if they were at the start or the loop made a pass. -/
theorem scan_loop_fits (vals : Nat → CStr) (max_len : Int) :
    ∀ (fuel : Nat) (s0 s : Scan), scan_loop vals max_len fuel s0 = some (0, s) →
      (s0.len + 7 ≤ max_len ∨ (s0.sp : Int) < s0.old_len) → s.len + 7 ≤ max_len := by
  intro fuel
  induction fuel with
  | zero => intro s0 s h; simp [scan_loop] at h
  | succ n ih =>
    intro s0 s h hstart
    unfold scan_loop at h
    split at h
    · split at h
      · simp at h
      · rename_i hroom
        have := (scan_step_len vals s0).2
        exact ih _ _ h (Or.inl (by omega))
    · rename_i hend
      simp only [Option.some.injEq, Prod.mk.injEq, true_and] at h
      rw [← h]
      rcases hstart with h1 | h1
      · exact h1
      · exact absurd h1 hend

/-- C23, evaluated at an empty chunk that is not the last, with `max_len = 1`: the loop
makes no pass and `final` is not set, so neither test of the reserve is made; the
callback returns 0 and writes the two bytes CR LF behind the empty payload, where one
byte has room. -/
theorem interpolate_no_room :
    (args_empty 1).max_len = 1 ∧
      (process_html_body lib0 vhd0 pss0 (args_empty 1) [] [] 1000 100).map
          (fun r => (r.ret, r.args.p.take r.args.len.toNat, r.args.len)) =
        some (0, ['0', '\r', '\n', '\r', '\n'], 5) := by
  decide

/-- The two tests of the reserve, where they are made: for every invocation of the
interpolator that returns: if it returns
0 then the payload `L` satisfies `L + 7 < max_len` when `final` is set and
`L + 7 <= max_len` when the input is not empty, so the trailing framing (7 bytes when
final, 2 when not) fits within `max_len`; it returns -1 when, after any number of passes
of the loop, input remains and the payload counted so far plus 7 reaches `max_len`; and
it returns -1 when the loop ends, `final` is set and the payload plus 7 reaches
`max_len`. -/
theorem padding_reserve (lib : Lib) (vhd : per_vhost_data__generic_sessions)
    (pss : per_session_data__generic_sessions) (args : lws_process_html_args)
    (username email : CStr) (tv_sec : Int) (fuel : Nat) (res : HtmlResult)
    (h : process_html_body lib vhd pss args username email tv_sec fuel = some res) :
    (res.ret = 0 →
        ∃ s : Scan,
          scan_loop (html_vals lib vhd username email tv_sec) args.max_len fuel
              (scan_init pss args) = some (0, s) ∧
            (args.final = true → s.len + 7 < args.max_len) ∧
            (0 < args.len → s.len + 7 ≤ args.max_len)) ∧
      (∀ k < fuel,
        (∀ j < k,
          ((Nat.iterate (scan_step (html_vals lib vhd username email tv_sec)) j
              (scan_init pss args)).sp : Int) <
            (Nat.iterate (scan_step (html_vals lib vhd username email tv_sec)) j
              (scan_init pss args)).old_len ∧
          (Nat.iterate (scan_step (html_vals lib vhd username email tv_sec)) j
              (scan_init pss args)).len + 7 < args.max_len) →
        ((Nat.iterate (scan_step (html_vals lib vhd username email tv_sec)) k
            (scan_init pss args)).sp : Int) <
          (Nat.iterate (scan_step (html_vals lib vhd username email tv_sec)) k
            (scan_init pss args)).old_len →
        (Nat.iterate (scan_step (html_vals lib vhd username email tv_sec)) k
            (scan_init pss args)).len + 7 ≥ args.max_len →
        res.ret = -1) ∧
      (∀ s : Scan,
        scan_loop (html_vals lib vhd username email tv_sec) args.max_len fuel
            (scan_init pss args) = some (0, s) →
        args.final = true → s.len + 7 ≥ args.max_len → res.ret = -1) := by
  refine ⟨?_, ?_, ?_⟩
  · intro hret
    rcases process_html_success lib vhd pss args username email tv_sec fuel res h hret with
      ⟨s, hs, hfin, _⟩
    refine ⟨s, hs, ?_, ?_⟩
    · intro hf
      by_contra hc
      exact hfin ⟨hf, by omega⟩
    · intro hlen
      exact scan_loop_fits _ _ fuel _ s hs (Or.inr (by simpa [scan_init] using hlen))
  · intro k hk hcont hsp hfull
    have hloop : scan_loop (html_vals lib vhd username email tv_sec) args.max_len fuel
        (scan_init pss args) =
        some (-1, Nat.iterate (scan_step (html_vals lib vhd username email tv_sec)) k
          (scan_init pss args)) := by
      obtain ⟨m, rfl⟩ : ∃ m, fuel = (m + 1) + k := ⟨fuel - k - 1, by omega⟩
      rw [scan_loop_iterate _ _ k (m + 1) _ hcont]
      unfold scan_loop
      rw [if_pos hsp, if_pos hfull]
    unfold process_html_body at h
    rw [show scan_loop (html_vals lib vhd username email tv_sec) args.max_len fuel
      { buf := args.p, sp := 0, old_len := args.len, len := 0, pos := pss.pos,
        swallow := pss.swallow, start := 0 } = _ from hloop] at h
    simp only [ne_eq, Int.reduceNeg, neg_eq_zero, one_ne_zero, not_false_eq_true, if_true,
      Option.some.injEq] at h
    rw [← h]
  · intro s hs hf hfull
    unfold process_html_body at h
    rw [show scan_loop (html_vals lib vhd username email tv_sec) args.max_len fuel
      { buf := args.p, sp := 0, old_len := args.len, len := 0, pos := pss.pos,
        swallow := pss.swallow, start := 0 } = _ from hs] at h
    simp only [ne_eq, not_true_eq_false, if_false, hf, hfull, and_self, if_true,
      Option.some.injEq] at h
    rw [← h]

/-- The reserve at the last chunk `hi $lwsgs_user!` for the user `bob`. -/
theorem padding_reserve_witness :
    process_html_body lib0 vhd0 pss0 args_hi bob [] 1000 100 = some html_hi ∧
      html_hi.ret = 0 ∧
      ∃ s : Scan,
        scan_loop (html_vals lib0 vhd0 bob [] 1000) args_hi.max_len 100
            (scan_init pss0 args_hi) = some (0, s) ∧
          (args_hi.final = true → s.len + 7 < args_hi.max_len) ∧
          (0 < args_hi.len → s.len + 7 ≤ args_hi.max_len) :=
  ⟨by decide, by decide,
    (padding_reserve lib0 vhd0 pss0 args_hi bob [] 1000 100 html_hi (by decide)).1
      (by decide)⟩

theorem strncmp_take (n : Nat) :
    ∀ (a b : List Char), strncmp_eq a b n = true → NUL ∉ b →
      a.take (min n b.length) = b.take (min n b.length) := by
  induction n with
  | zero => intro a b _ _; simp
  | succ n ih =>
    intro a b h hb
    cases b with
    | nil => simp
    | cons c b' =>
      have hc : c ≠ NUL := fun hc => hb (hc ▸ List.mem_cons_self _ _)
      have hb' : NUL ∉ b' := fun hx => hb (List.mem_cons_of_mem _ hx)
      unfold strncmp_eq at h
      cases a with
      | nil =>
        simp only [List.headD_nil, List.headD_cons, ne_eq] at h
        rw [if_pos (fun hx => hc hx.symm)] at h
        exact absurd h (by simp)
      | cons x a' =>
        simp only [List.headD_cons, ne_eq, List.tail_cons] at h
        by_cases hx : x = c
        · subst hx
          rw [if_neg (by simp), if_neg hc] at h
          have := ih a' b' h hb'
          simp only [List.length_cons, Nat.succ_min_succ, List.take_succ_cons, this]
        · rw [if_pos hx] at h
          exact absurd h (by simp)

theorem strncmp_take8 (a b : List Char) (n : Nat) (h : strncmp_eq a b n = true)
    (hb : NUL ∉ b) (hn : 8 ≤ n) (hl : 8 ≤ b.length) : a.take 8 = b.take 8 := by
  have h1 := congrArg (List.take 8) (strncmp_take n a b h hb)
  rw [List.take_take, List.take_take] at h1
  have hm : min 8 (min n b.length) = 8 := by omega
  rwa [hm] at h1

theorem scan_hits_eq (sw : List Char) (pos : Nat) :
    scan_hits sw pos =
      (if strncmp_eq sw (vars.getD 2 []) pos = true then
        ((if strncmp_eq sw (vars.getD 1 []) pos = true then
            (if strncmp_eq sw (vars.getD 0 []) pos = true then 1 else 0) + 1
          else (if strncmp_eq sw (vars.getD 0 []) pos = true then 1 else 0)) + 1, 2)
      else if strncmp_eq sw (vars.getD 1 []) pos = true then
        ((if strncmp_eq sw (vars.getD 0 []) pos = true then 1 else 0) + 1, 1)
      else if strncmp_eq sw (vars.getD 0 []) pos = true then (1, 0)
      else (0, 0)) := by
  have hr : List.range 3 = [0, 1, 2] := by decide
  unfold scan_hits
  rw [hr]
  simp only [List.foldl_cons, List.foldl_nil]
  by_cases h0 : strncmp_eq sw (vars.getD 0 []) pos = true <;>
    by_cases h1 : strncmp_eq sw (vars.getD 1 []) pos = true <;>
    by_cases h2 : strncmp_eq sw (vars.getD 2 []) pos = true <;>
    simp only [h0, h1, h2, if_true, if_false, Nat.zero_add, Bool.false_eq_true]

theorem take_set_self (l : List Char) (n : Nat) (c : Char) :
    (l.set n c).take n = l.take n := by
  rw [List.set_eq_take_append_cons_drop]
  split
  · rename_i h
    exact List.take_left' (by rw [List.length_take]; omega)
  · rfl

theorem vars_facts (i : Nat) (hi : i < 3) :
    vars.getD i [] ∈ vars ∧ NUL ∉ vars.getD i [] ∧ 11 ≤ (vars.getD i []).length ∧
      (vars.getD i []).length ≤ 12 := by
  interval_cases i <;> decide

theorem vars_mem (v : CStr) (h : v ∈ vars) : ∃ i < 3, v = vars.getD i [] := by
  unfold vars at h
  simp only [List.mem_cons, List.mem_singleton, List.not_mem_nil, or_false] at h
  rcases h with h | h | h
  · exact ⟨0, by norm_num, h⟩
  · exact ⟨1, by norm_num, h⟩
  · exact ⟨2, by norm_num, h⟩

theorem pending_bound (pos : Nat) (sw : List Char) (h : Pending pos sw) : pos ≤ 11 := by
  rcases h.2 with h0 | ⟨v, hv, hlt, _⟩
  · omega
  · rcases vars_mem v hv with ⟨i, hi, rfl⟩
    have := (vars_facts i hi).2.2.2
    omega

/-- Bytes that are the beginning of a placeholder with more bytes leave the scanner
pending. -/
theorem match_pending (sw : List Char) (n i : Nat) (hi : i < 3) (hlen : sw.length = 16)
    (hm : strncmp_eq sw (vars.getD i []) n = true) (hlt : n < (vars.getD i []).length) :
    Pending n sw := by
  refine ⟨hlen, Or.inr ⟨vars.getD i [], (vars_facts i hi).1, hlt, ?_⟩⟩
  have := strncmp_take n sw _ hm (vars_facts i hi).2.1
  rwa [Nat.min_eq_left (le_of_lt hlt)] at this

/-- Bytes that two placeholders begin with are fewer than 8. -/
theorem two_matches (sw : List Char) (n i j : Nat) (hi : i < 3) (hj : j < 3) (hij : i ≠ j)
    (hmi : strncmp_eq sw (vars.getD i []) n = true)
    (hmj : strncmp_eq sw (vars.getD j []) n = true) : n < 8 := by
  by_contra hn
  have h8 : 8 ≤ n := by omega
  have hi8 := strncmp_take8 sw _ n hmi (vars_facts i hi).2.1 h8
    (le_trans (by norm_num) (vars_facts i hi).2.2.1)
  have hj8 := strncmp_take8 sw _ n hmj (vars_facts j hj).2.1 h8
    (le_trans (by norm_num) (vars_facts j hj).2.2.1)
  have heq : (vars.getD i []).take 8 = (vars.getD j []).take 8 := hi8.symm.trans hj8
  revert heq
  interval_cases i <;> interval_cases j <;> first | (exact absurd rfl hij) | decide

/-- A pending scanner that swallows one byte more does not hold more bytes than the
placeholder that matches has. -/
theorem match_not_over (sw : List Char) (pos i : Nat) (c : Char) (hi : i < 3)
    (hP : Pending pos sw)
    (hm : strncmp_eq (sw.set pos c) (vars.getD i []) (pos + 1) = true) :
    pos + 1 ≤ (vars.getD i []).length := by
  by_contra hgt
  have hb := pending_bound pos sw hP
  have hf := vars_facts i hi
  have hpos : pos = 11 := by omega
  have hl : (vars.getD i []).length = 11 := by omega
  subst hpos
  rcases hP.2 with h0 | ⟨v, hv, hlt, htake⟩
  · omega
  · have h1 := strncmp_take 12 _ _ hm hf.2.1
    rw [hl, show min 12 11 = 11 from rfl, take_set_self] at h1
    rcases vars_mem v hv with ⟨k, hk, rfl⟩
    rw [h1] at htake
    revert htake hlt hl
    interval_cases i <;> interval_cases k <;> decide

theorem pending_continue (sw : List Char) (pos : Nat) (c : Char) (hP : Pending pos sw)
    (hne : (scan_hits (sw.set pos c) (pos + 1)).1 ≠ 0)
    (hnc : ¬ ((scan_hits (sw.set pos c) (pos + 1)).1 = 1 ∧
      pos + 1 = (vars.getD (scan_hits (sw.set pos c) (pos + 1)).2 []).length)) :
    Pending (pos + 1) (sw.set pos c) := by
  have hlen : (sw.set pos c).length = 16 := by rw [List.length_set]; exact hP.1
  have hover := fun i hi hm => match_not_over sw pos i c hi hP hm
  have htwo := two_matches (sw.set pos c) (pos + 1)
  have hfacts := vars_facts
  rw [scan_hits_eq] at hne hnc
  by_cases h0 : strncmp_eq (sw.set pos c) (vars.getD 0 []) (pos + 1) = true <;>
    by_cases h1 : strncmp_eq (sw.set pos c) (vars.getD 1 []) (pos + 1) = true <;>
    by_cases h2 : strncmp_eq (sw.set pos c) (vars.getD 2 []) (pos + 1) = true <;>
    simp only [h0, h1, h2, if_true, if_false, Nat.zero_add, Bool.false_eq_true,
      ne_eq, not_true_eq_false, true_and, Nat.reduceAdd, Nat.reduceEqDiff,
      OfNat.ofNat_ne_one, false_and, not_false_eq_true, one_ne_zero] at hne hnc
  · have := htwo 0 1 (by norm_num) (by norm_num) (by norm_num) h0 h1
    exact match_pending _ _ 0 (by norm_num) hlen h0 (by have := (hfacts 0 (by norm_num)).2.2.1; omega)
  · have := htwo 0 1 (by norm_num) (by norm_num) (by norm_num) h0 h1
    exact match_pending _ _ 0 (by norm_num) hlen h0 (by have := (hfacts 0 (by norm_num)).2.2.1; omega)
  · have := htwo 0 2 (by norm_num) (by norm_num) (by norm_num) h0 h2
    exact match_pending _ _ 0 (by norm_num) hlen h0 (by have := (hfacts 0 (by norm_num)).2.2.1; omega)
  · have := hover 0 (by norm_num) h0
    exact match_pending _ _ 0 (by norm_num) hlen h0 (by omega)
  · have := htwo 1 2 (by norm_num) (by norm_num) (by norm_num) h1 h2
    exact match_pending _ _ 1 (by norm_num) hlen h1 (by have := (hfacts 1 (by norm_num)).2.2.1; omega)
  · have := hover 1 (by norm_num) h1
    exact match_pending _ _ 1 (by norm_num) hlen h1 (by omega)
  · have := hover 2 (by norm_num) h2
    exact match_pending _ _ 2 (by norm_num) hlen h2 (by omega)

/-- One pass of the loop body from a pending scanner: the branch for 16 swallowed bytes
is not taken, the scanner is pending again, and the pass counts one byte of payload or
swallows one byte more. -/
theorem scan_step_pending (vals : Nat → CStr) (s : Scan) (hP : Pending s.pos s.swallow) :
    s.pos + 1 ≠ 16 ∧
      Pending (scan_step vals s).pos (scan_step vals s).swallow ∧
      ((scan_step vals s).len = s.len + 1 ∨
        ((scan_step vals s).len = s.len ∧ (scan_step vals s).pos = s.pos + 1)) := by
  have hb := pending_bound _ _ hP
  have h16 : s.pos + 1 ≠ 16 := by omega
  refine ⟨h16, ?_⟩
  have hidle : ∀ sw : List Char, sw.length = 16 → Pending 0 sw := fun sw h => ⟨h, Or.inl rfl⟩
  unfold scan_step
  simp only []
  by_cases hc : (s.pos = 0 ∧ s.buf.getD s.sp NUL = '$') ∨ s.pos ≠ 0
  · rw [if_pos hc, if_neg h16]
    by_cases hz : (scan_hits (s.swallow.set s.pos (s.buf.getD s.sp NUL)) (s.pos + 1)).1 = 0
    · rw [if_pos hz]
      unfold scan_skip
      exact ⟨hidle _ (by simp only [List.length_set]; exact hP.1), Or.inl rfl⟩
    · rw [if_neg hz]
      by_cases hd : (scan_hits (s.swallow.set s.pos (s.buf.getD s.sp NUL)) (s.pos + 1)).1 = 1 ∧
          s.pos + 1 = (vars.getD
            (scan_hits (s.swallow.set s.pos (s.buf.getD s.sp NUL)) (s.pos + 1)).2 []).length
      · rw [if_pos hd]
        exact ⟨hidle _ (by simp only [List.length_set]; exact hP.1), Or.inl rfl⟩
      · rw [if_neg hd]
        exact ⟨pending_continue _ _ _ hP hz hd, Or.inr ⟨rfl, rfl⟩⟩
  · rw [if_neg hc]
    exact ⟨hP, Or.inl rfl⟩

theorem iterate_pending (vals : Nat → CStr) (s : Scan) (hP : Pending s.pos s.swallow) :
    ∀ k, Pending (Nat.iterate (scan_step vals) k s).pos
      (Nat.iterate (scan_step vals) k s).swallow := by
  intro k
  induction k with
  | zero => exact hP
  | succ k ih =>
    rw [Function.iterate_succ_apply']
    exact (scan_step_pending vals _ ih).2.1

/-- The replacement loop from a pending scanner ends within
`12 * (max_len - len) + 11 - pos + 1` passes, with a pending scanner. -/
theorem scan_loop_ends (vals : Nat → CStr) (max_len : Int) :
    ∀ (fuel : Nat) (s : Scan), Pending s.pos s.swallow →
      12 * (max_len - s.len).toNat + (11 - s.pos) < fuel →
      ∃ (r : Int) (s' : Scan), scan_loop vals max_len fuel s = some (r, s') ∧
        Pending s'.pos s'.swallow := by
  intro fuel
  induction fuel with
  | zero => intro s _ h; omega
  | succ n ih =>
    intro s hP hfuel
    unfold scan_loop
    by_cases hsp : (s.sp : Int) < s.old_len
    · rw [if_pos hsp]
      by_cases hroom : s.len + 7 ≥ max_len
      · rw [if_pos hroom]
        exact ⟨-1, s, rfl, hP⟩
      · rw [if_neg hroom]
        rcases scan_step_pending vals s hP with ⟨_, hP', hstep⟩
        have hb := pending_bound _ _ hP
        have hb' := pending_bound _ _ hP'
        apply ih _ hP'
        rcases hstep with h1 | ⟨h1, h2⟩
        · rw [h1]
          have : (max_len - s.len).toNat = (max_len - (s.len + 1)).toNat + 1 := by omega
          omega
        · rw [h1, h2]
          omega
    · rw [if_neg hsp]
      exact ⟨0, s, rfl, hP⟩

theorem scan_loop_pending (vals : Nat → CStr) (max_len : Int) :
    ∀ (fuel : Nat) (s s' : Scan) (r : Int), scan_loop vals max_len fuel s = some (r, s') →
      Pending s.pos s.swallow → Pending s'.pos s'.swallow := by
  intro fuel
  induction fuel with
  | zero => intro s s' r h; simp [scan_loop] at h
  | succ n ih =>
    intro s s' r h hP
    unfold scan_loop at h
    split at h
    · split at h
      · simp only [Option.some.injEq, Prod.mk.injEq] at h
        rw [← h.2]
        exact hP
      · exact ih _ _ _ h (scan_step_pending vals s hP).2.1
    · simp only [Option.some.injEq, Prod.mk.injEq] at h
      rw [← h.2]
      exact hP

/-- An invocation leaves in `pss` the scanner state of the end of its loop. -/
theorem process_html_pss (lib : Lib) (vhd : per_vhost_data__generic_sessions)
    (pss : per_session_data__generic_sessions) (args : lws_process_html_args)
    (username email : CStr) (tv_sec : Int) (fuel : Nat) (res : HtmlResult)
    (h : process_html_body lib vhd pss args username email tv_sec fuel = some res) :
    ∃ (r : Int) (s : Scan),
      scan_loop (html_vals lib vhd username email tv_sec) args.max_len fuel
          (scan_init pss args) = some (r, s) ∧
        res.pss.pos = s.pos ∧ res.pss.swallow = s.swallow := by
  unfold process_html_body at h
  cases hs : scan_loop (html_vals lib vhd username email tv_sec) args.max_len fuel
      (scan_init pss args) with
  | none =>
    rw [show scan_loop (html_vals lib vhd username email tv_sec) args.max_len fuel
      { buf := args.p, sp := 0, old_len := args.len, len := 0, pos := pss.pos,
        swallow := pss.swallow, start := 0 } = none from hs] at h
    simp at h
  | some rs =>
    rcases rs with ⟨r, s⟩
    rw [show scan_loop (html_vals lib vhd username email tv_sec) args.max_len fuel
      { buf := args.p, sp := 0, old_len := args.len, len := 0, pos := pss.pos,
        swallow := pss.swallow, start := 0 } = some (r, s) from hs] at h
    simp only [] at h
    refine ⟨r, s, rfl, ?_⟩
    repeat' split at h
    all_goals
      simp only [Option.some.injEq] at h
      rw [← h]
      exact ⟨rfl, rfl⟩

theorem process_html_returns (lib : Lib) (vhd : per_vhost_data__generic_sessions)
    (pss : per_session_data__generic_sessions) (args : lws_process_html_args)
    (username email : CStr) (tv_sec : Int) (fuel : Nat) (r : Int) (s : Scan)
    (h : scan_loop (html_vals lib vhd username email tv_sec) args.max_len fuel
      (scan_init pss args) = some (r, s)) :
    ∃ res, process_html_body lib vhd pss args username email tv_sec fuel = some res := by
  unfold process_html_body
  rw [show scan_loop (html_vals lib vhd username email tv_sec) args.max_len fuel
    { buf := args.p, sp := 0, old_len := args.len, len := 0, pos := pss.pos,
      swallow := pss.swallow, start := 0 } = some (r, s) from h]
  simp only []
  repeat' split
  all_goals exact ⟨_, rfl⟩

theorem invoked_pending (lib : Lib) (pss pss' : per_session_data__generic_sessions)
    (h : Invoked lib pss pss') (hP : Pending pss.pos pss.swallow) :
    Pending pss'.pos pss'.swallow := by
  rcases h with ⟨vhd, args, username, email, tv_sec, fuel, res, hres, rfl⟩
  rcases process_html_pss lib vhd pss args username email tv_sec fuel res hres with
    ⟨r, s, hs, hpos, hsw⟩
  rw [hpos, hsw]
  exact scan_loop_pending _ _ fuel _ s r hs hP

theorem reach_pending (lib : Lib) (pss0 pss : per_session_data__generic_sessions)
    (hP : Pending pss0.pos pss0.swallow)
    (h : Relation.ReflTransGen (Invoked lib) pss0 pss) : Pending pss.pos pss.swallow := by
  induction h with
  | refl => exact hP
  | tail _ hstep ih => exact invoked_pending lib _ _ hstep ih

/-- C27: for every per-connection state reached from `pos = 0` (with the 16 bytes of
`swallow`) through any number of invocations of the interpolator on any inputs:
`pss->pos` is at most 11; in a further invocation on any input, every state that passes
of the loop body lead to has `pos` at most 11, so the body, which adds one, never has more
than 12 and the branch for `pos == 16` is not taken; and the invocation returns, its loop
ending within `12 * max_len + 12` passes. -/
theorem scanner_pending_bound (lib : Lib) (pss0 pss : per_session_data__generic_sessions)
    (h0 : pss0.pos = 0) (hsw : pss0.swallow.length = 16)
    (hreach : Relation.ReflTransGen (Invoked lib) pss0 pss) :
    pss.pos ≤ 11 ∧
      ∀ (vhd : per_vhost_data__generic_sessions) (args : lws_process_html_args)
        (username email : CStr) (tv_sec : Int),
        (∀ k,
          (Nat.iterate (scan_step (html_vals lib vhd username email tv_sec)) k
              (scan_init pss args)).pos ≤ 11 ∧
            (Nat.iterate (scan_step (html_vals lib vhd username email tv_sec)) k
              (scan_init pss args)).pos + 1 ≠ 16) ∧
          ∃ res,
            process_html_body lib vhd pss args username email tv_sec
                (12 * args.max_len.toNat + 12) = some res ∧
              res.pss.pos ≤ 11 := by
  have hP0 : Pending pss0.pos pss0.swallow := ⟨hsw, Or.inl h0⟩
  have hP := reach_pending lib pss0 pss hP0 hreach
  refine ⟨pending_bound _ _ hP, ?_⟩
  intro vhd args username email tv_sec
  have hPi : Pending (scan_init pss args).pos (scan_init pss args).swallow := hP
  refine ⟨fun k => ?_, ?_⟩
  · have hk := iterate_pending (html_vals lib vhd username email tv_sec) _ hPi k
    have hb := pending_bound _ _ hk
    exact ⟨hb, by omega⟩
  · have hfuel : 12 * (args.max_len - (scan_init pss args).len).toNat +
        (11 - (scan_init pss args).pos) < 12 * args.max_len.toNat + 12 := by
      simp only [scan_init, sub_zero]
      omega
    rcases scan_loop_ends (html_vals lib vhd username email tv_sec) args.max_len _ _ hPi hfuel
      with ⟨r, s, hs, hPs⟩
    rcases process_html_returns lib vhd pss args username email tv_sec _ r s hs with
      ⟨res, hres⟩
    refine ⟨res, hres, ?_⟩
    exact pending_bound _ _
      (invoked_pending lib pss res.pss ⟨vhd, args, username, email, tv_sec, _, res, hres, rfl⟩ hP)

/-- The witness of C27: the state after the chunk `$lwsgs`, which leaves six bytes
pending. -/
theorem scanner_pending_bound_witness :
    pss0.pos = 0 ∧ pss0.swallow.length = 16 ∧ html_pending.pss.pos = 6 ∧
      html_pending.pss.pos ≤ 11 :=
  ⟨rfl, by decide, by decide,
    (scanner_pending_bound lib0 pss0 html_pending.pss rfl (by decide)
      (Relation.ReflTransGen.single
        ⟨vhd0, args_pending, [], [], 1000, 100, html_pending, by decide, rfl⟩)).1⟩

/-! ## Lemmas on the expiry of the sessions -/

theorem now_secs_eq (A B tv : Int) (hW : NoWrap A B tv) :
    lwsgs_now_secs tv = tv ∧ (tv + A) % 2 ^ 32 = tv + A ∧ (tv + B) % 2 ^ 32 = tv + B ∧
      (tv + A) % 2 ^ 64 = tv + A ∧ (tv + B) % 2 ^ 64 = tv + B := by
  rcases hW with ⟨hA, hB, ht, hA2, hB2⟩
  unfold lwsgs_now_secs
  refine ⟨?_, ?_, ?_, ?_, ?_⟩ <;> apply Int.emod_eq_of_lt <;> omega

theorem Good.later {A B c tv : Int} {v : per_vhost_data__generic_sessions}
    (h : Good A B c v) (hc : c ≤ tv) : Good A B tv v :=
  ⟨h.1, h.2.1, le_trans h.2.2.1 hc, h.2.2.2⟩

theorem good_expire (A B tv : Int) (hW : NoWrap A B tv)
    (v : per_vhost_data__generic_sessions) (h : Good A B tv v) :
    Good A B tv (lwsgw_expire_old_sessions v tv).2 := by
  have hn := (now_secs_eq A B tv hW).1
  unfold lwsgw_expire_old_sessions
  simp only [hn]
  split
  · exact h
  · refine ⟨h.1, h.2.1, le_refl _, ?_⟩
    intro s hs
    have := (List.mem_filter.mp hs).2
    simp only [Bool.not_eq_true', decide_eq_false_iff_not, not_le] at this
    exact le_of_lt this

theorem good_update (lib : Lib) (A B tv : Int) (hW : NoWrap A B tv)
    (v : per_vhost_data__generic_sessions) (hash user : CStr) (h : Good A B tv v) :
    Good A B tv (lwsgw_update_session lib v hash user tv).2 := by
  have hn := now_secs_eq A B tv hW
  unfold lwsgw_update_session
  refine ⟨h.1, h.2.1, h.2.2.1, ?_⟩
  intro s hs
  rcases List.mem_map.mp hs with ⟨s0, hs0, hf⟩
  by_cases hname : s0.name = lib.sql_text 50 hash
  · rw [if_pos hname] at hf
    rw [← hf]
    have hl := h.2.2.1
    show v.last_session_expire ≤
      sql_number lib ((if user ≠ [] then lwsgs_now_secs tv + v.timeout_absolute_secs
        else lwsgs_now_secs tv + v.timeout_anon_absolute_secs) % 2 ^ 64)
    rw [hn.1, h.1, h.2.1]
    rcases hW with ⟨hA, hB, ht, hA2, hB2⟩
    split
    · rw [sql_number_small lib _ (by omega) (by omega)]
      omega
    · rw [sql_number_small lib _ (by omega) (by omega)]
      omega
  · rw [if_neg hname] at hf
    rw [← hf]
    exact h.2.2.2 s0 hs0

theorem good_new (lib : Lib) (A B tv : Int) (v : per_vhost_data__generic_sessions)
    (username : Option CStr) (exp : Int) (rnd : Rand) (h : Good A B tv v)
    (hexp : tv ≤ exp % 2 ^ 32) :
    Good A B tv (lwsgs_new_session_id lib v username exp rnd).2.2.1 := by
  unfold lwsgs_new_session_id lws_get_random
  rcases rnd with _ | ⟨_ | b, rest⟩
  · exact h
  · exact h
  · refine ⟨h.1, h.2.1, h.2.2.1, ?_⟩
    intro s hs
    simp only [List.mem_append, List.mem_singleton] at hs
    rcases hs with hs | hs
    · exact h.2.2.2 s hs
    · rw [hs]
      exact le_trans h.2.2.1 hexp

theorem good_new_abs (lib : Lib) (A B tv : Int) (hW : NoWrap A B tv)
    (v : per_vhost_data__generic_sessions) (username : Option CStr) (rnd : Rand)
    (h : Good A B tv v) :
    Good A B tv (lwsgs_new_session_id lib v username
      ((lwsgs_now_secs tv + v.timeout_absolute_secs) % 2 ^ 32) rnd).2.2.1 := by
  have hn := now_secs_eq A B tv hW
  apply good_new lib A B tv v username _ rnd h
  rw [hn.1, h.1, hn.2.1, hn.2.1]
  have := hW.1
  omega

theorem good_new_anon (lib : Lib) (A B tv : Int) (hW : NoWrap A B tv)
    (v : per_vhost_data__generic_sessions) (username : Option CStr) (rnd : Rand)
    (h : Good A B tv v) :
    Good A B tv (lwsgs_new_session_id lib v username
      ((lwsgs_now_secs tv + v.timeout_anon_absolute_secs) % 2 ^ 32) rnd).2.2.1 := by
  have hn := now_secs_eq A B tv hW
  apply good_new lib A B tv v username _ rnd h
  rw [hn.1, h.2.1, hn.2.2.1, hn.2.2.1]
  have := hW.2.1
  omega

theorem good_redirect (lib : Lib) (wsi : Wsi) (A B tv : Int) (hW : NoWrap A B tv)
    (v : per_vhost_data__generic_sessions) (pss : per_session_data__generic_sessions)
    (rnd : Rand) (h : Good A B tv v) :
    Good A B tv (redirect_with_cookie lib wsi v pss tv rnd).vhd := by
  unfold redirect_with_cookie
  simp only []
  have hnew := good_new_anon lib A B tv hW v (some []) rnd h
  repeat' split
  all_goals first | exact h | exact hnew

theorem good_completion (lib : Lib) (wsi : Wsi) (A B tv : Int) (hW : NoWrap A B tv)
    (v : per_vhost_data__generic_sessions) (pss : per_session_data__generic_sessions)
    (rnd : Rand) (h : Good A B tv v) :
    Good A B tv (completion_flow lib wsi v pss tv rnd).vhd := by
  unfold completion_flow
  exact good_redirect lib wsi A B tv hW _ pss rnd (good_expire A B tv hW v h)

theorem good_pass (lib : Lib) (wsi : Wsi) (A B tv : Int) (hW : NoWrap A B tv)
    (vhd : per_vhost_data__generic_sessions) (pss : per_session_data__generic_sessions)
    (spa : Spa) (cp : Option CStr) (rnd : Rand) (r : Result)
    (h : pass lib wsi vhd pss spa cp tv rnd = some r) (hG : Good A B tv vhd) :
    Good A B tv r.vhd := by
  unfold pass at h
  cases cp with
  | none => simp at h
  | some cp =>
    simp only [] at h
    repeat' split at h
    all_goals first
      | (simp at h; done)
      | (cases h
         repeat (first
           | exact hG
           | apply good_completion lib wsi A B tv hW
           | apply good_update lib A B tv hW
           | apply good_new_abs lib A B tv hW))

theorem good_reg_done (lib : Lib) (wsi : Wsi) (A B tv : Int) (hW : NoWrap A B tv)
    (vhd : per_vhost_data__generic_sessions) (pss : per_session_data__generic_sessions)
    (spa : Spa) (n : Fgs) (rnd : Rand) (r : Result)
    (h : reg_done lib wsi vhd pss spa n tv rnd = some r) (hG : Good A B tv vhd) :
    Good A B tv r.vhd := by
  unfold reg_done at h
  split at h
  · simp at h
  · cases h
    exact good_completion lib wsi A B tv hW _ _ _ hG

theorem good_login_register (lib : Lib) (wsi : Wsi) (A B tv : Int) (hW : NoWrap A B tv)
    (vhd : per_vhost_data__generic_sessions) (pss : per_session_data__generic_sessions)
    (spa : Spa) (username password : CStr) (rnd : Rand) (mem : Nat → Char) (r : Result)
    (h : login_register lib wsi vhd pss spa username password tv rnd mem = some r)
    (hG : Good A B tv vhd) : Good A B tv r.vhd := by
  unfold login_register at h
  generalize lwsgs_lookup_user lib vhd username lwsgs_user_blank = lu at h
  cases hemail : spa .FGS_EMAIL with
  | none =>
    rw [hemail] at h
    simp only [] at h
    repeat' split at h
    all_goals first
      | (simp at h; done)
      | (cases h
         exact hG)
      | exact good_reg_done lib wsi A B tv hW _ _ _ _ _ r h hG
  | some email =>
    rw [hemail] at h
    simp only [] at h
    generalize select_users [.username, .email]
      (fun row => decide (row.email = lib.sql_text 49 email)) vhd.users _ = u at h
    generalize lwsgs_hash_password lib vhd password u rnd mem = hp at h
    rcases hp with ⟨r0, u1, rnd1⟩
    simp only [] at h
    rcases hr : lws_get_random rnd1 with ⟨_ | sid_rand, rnd2⟩ <;> rw [hr] at h <;>
      simp only [] at h <;> repeat' split at h
    all_goals first
      | (simp at h; done)
      | (cases h
         exact hG)
      | exact good_reg_done lib wsi A B tv hW _ _ _ _ _ r h hG

theorem good_login_post (lib : Lib) (wsi : Wsi) (A B tv : Int) (hW : NoWrap A B tv)
    (vhd : per_vhost_data__generic_sessions) (pss : per_session_data__generic_sessions)
    (spa : Spa) (rnd : Rand) (mem : Nat → Char) (r : Result)
    (h : login_post lib wsi vhd pss spa tv rnd mem = some r) (hG : Good A B tv vhd) :
    Good A B tv r.vhd := by
  unfold login_post at h
  split at h
  · rename_i username password _ _
    split at h
    · exact good_login_register lib wsi A B tv hW vhd pss spa username password rnd mem r h hG
    · repeat' split at h
      all_goals first
        | (cases h
           exact hG)
        | exact good_pass lib wsi A B tv hW _ _ _ _ _ r h hG
        | (cases h
           exact good_completion lib wsi A B tv hW _ _ _ hG)
  · cases h
    exact hG

theorem good_login_forgot (lib : Lib) (wsi : Wsi) (A B tv : Int) (hW : NoWrap A B tv)
    (vhd : per_vhost_data__generic_sessions) (pss : per_session_data__generic_sessions)
    (spa : Spa) (rnd : Rand) (r : Result)
    (h : login_forgot lib wsi vhd pss spa tv rnd = some r) (hG : Good A B tv vhd) :
    Good A B tv r.vhd := by
  unfold login_forgot at h
  have key : ∀ u : lwsgs_user,
      (if spa .FGS_USERNAME = none ∧ spa .FGS_EMAIL = none then
          some (plain_return (-1) vhd pss)
        else if spa .FGS_FORGOT_GOOD = none ∨ spa .FGS_FORGOT_BAD = none ∨
            spa .FGS_FORGOT_POST_GOOD = none ∨ spa .FGS_FORGOT_POST_BAD = none then
          some (plain_return (-1) vhd pss)
        else
          if u.username = [] then reg_done lib wsi vhd pss spa .FGS_FORGOT_BAD tv rnd
          else
            let pss1 := { pss with ip := wsi.peer }
            match lws_get_random rnd with
            | (none, rnd1) => reg_done lib wsi vhd pss1 spa .FGS_BAD tv rnd1
            | (some sid_rand, rnd1) =>
              let hash := sha1_to_lwsgw_hash sid_rand
              let key := lib.sql_text 49 u.username
              if vhd.email.any (fun row => decide (row.username = key)) then
                reg_done lib wsi vhd pss1 spa .FGS_FORGOT_BAD tv rnd1
              else
                let vhd1 := { vhd with
                  email := vhd.email ++
                    [({ username := key,
                        content := forgot_mail lib vhd u pss1.ip hash
                          ((spa .FGS_FORGOT_POST_GOOD).getD [])
                          ((spa .FGS_FORGOT_POST_BAD).getD []) } : EmailRow)] }
                let vhd2 := { vhd1 with
                  users := vhd1.users.map (fun row =>
                    if row.username = key then
                      { row with token := hash, token_time := some (lwsgs_now_secs tv) }
                    else row) }
                reg_done lib wsi vhd2 pss1 spa .FGS_FORGOT_GOOD tv rnd1) = some r →
      Good A B tv r.vhd := by
    intro u h
    simp only [] at h
    rcases hr : lws_get_random rnd with ⟨_ | sid_rand, rnd1⟩ <;> rw [hr] at h <;>
      simp only [] at h <;> repeat' split at h
    all_goals first
      | (cases h
         exact hG)
      | exact good_reg_done lib wsi A B tv hW _ _ _ _ _ r h hG
  exact key _ h

theorem good_login_body (lib : Lib) (wsi : Wsi) (A B tv : Int) (hW : NoWrap A B tv)
    (vhd : per_vhost_data__generic_sessions) (pss : per_session_data__generic_sessions)
    (spa : Spa) (rnd : Rand) (mem : Nat → Char) (r : Result)
    (h : login_body_completion lib wsi vhd pss spa tv rnd mem = some r)
    (hG : Good A B tv vhd) : Good A B tv r.vhd := by
  unfold login_body_completion at h
  split at h
  · exact good_login_forgot lib wsi A B tv hW vhd pss spa rnd r h hG
  · exact good_login_post lib wsi A B tv hW vhd pss spa rnd mem r h hG

theorem good_change_fail (lib : Lib) (wsi : Wsi) (A B tv : Int) (hW : NoWrap A B tv)
    (vhd : per_vhost_data__generic_sessions) (pss : per_session_data__generic_sessions)
    (spa : Spa) (rnd : Rand) (r : Result)
    (h : change_fail lib wsi vhd pss spa tv rnd = some r) (hG : Good A B tv vhd) :
    Good A B tv r.vhd := by
  unfold change_fail at h
  split at h
  · simp at h
  · cases h
    exact good_completion lib wsi A B tv hW _ _ _ hG

theorem good_change_update (lib : Lib) (wsi : Wsi) (A B tv : Int) (hW : NoWrap A B tv)
    (vhd : per_vhost_data__generic_sessions) (pss : per_session_data__generic_sessions)
    (spa : Spa) (u : lwsgs_user) (rnd : Rand) (mem : Nat → Char) (r : Result)
    (h : change_update lib wsi vhd pss spa u tv rnd mem = some r) (hG : Good A B tv vhd) :
    Good A B tv r.vhd := by
  unfold change_update at h
  generalize lwsgs_hash_password lib vhd ((spa .FGS_PASSWORD).getD []) u rnd mem = hp at h
  rcases hp with ⟨r0, u1, rnd1⟩
  simp only [] at h
  split at h
  · exact good_change_fail lib wsi A B tv hW vhd pss spa rnd1 r h hG
  · split at h
    · simp at h
    · exact good_pass lib wsi A B tv hW _ _ _ _ _ r h hG

theorem good_change_with_credentials (lib : Lib) (wsi : Wsi) (A B tv : Int)
    (hW : NoWrap A B tv) (vhd : per_vhost_data__generic_sessions)
    (pss : per_session_data__generic_sessions) (spa : Spa) (u : lwsgs_user) (rnd : Rand)
    (mem : Nat → Char) (r : Result)
    (h : change_with_credentials lib wsi vhd pss spa u tv rnd mem = some r)
    (hG : Good A B tv vhd) : Good A B tv r.vhd := by
  unfold change_with_credentials at h
  split at h
  · split at h
    · exact good_change_fail lib wsi A B tv hW vhd pss spa rnd r h hG
    · exact good_change_update lib wsi A B tv hW vhd pss spa _ rnd mem r h hG
  · simp at h

theorem good_change_post (lib : Lib) (wsi : Wsi) (A B tv : Int) (hW : NoWrap A B tv)
    (vhd : per_vhost_data__generic_sessions) (pss : per_session_data__generic_sessions)
    (spa : Spa) (rnd : Rand) (mem : Nat → Char) (r : Result)
    (h : change_post lib wsi vhd pss spa tv rnd mem = some r) (hG : Good A B tv vhd) :
    Good A B tv r.vhd := by
  unfold change_post at h
  simp only [] at h
  split at h
  · rw [lookup_session_state] at h
    have hex := good_expire A B tv hW vhd hG
    repeat' split at h
    all_goals first
      | exact good_change_fail lib wsi A B tv hW _ _ _ _ r h hex
      | exact good_change_with_credentials lib wsi A B tv hW _ _ _ _ _ _ r h hex
      | exact good_change_update lib wsi A B tv hW _ _ _ _ _ _ r h hex
  · exact good_change_with_credentials lib wsi A B tv hW _ _ _ _ _ _ r h hG

theorem good_logout_post (lib : Lib) (wsi : Wsi) (A B tv : Int) (hW : NoWrap A B tv)
    (vhd : per_vhost_data__generic_sessions) (pss : per_session_data__generic_sessions)
    (spa : Spa) (rnd : Rand) (r : Result)
    (h : logout_post lib wsi vhd pss spa tv rnd = some r) (hG : Good A B tv vhd) :
    Good A B tv r.vhd := by
  unfold logout_post at h
  simp only [] at h
  repeat' split at h
  all_goals
    cases h
    repeat (first
      | exact hG
      | apply good_completion lib wsi A B tv hW
      | apply good_update lib A B tv hW)

theorem good_verf_fail (lib : Lib) (wsi : Wsi) (A B tv : Int) (hW : NoWrap A B tv)
    (vhd : per_vhost_data__generic_sessions) (pss : per_session_data__generic_sessions)
    (rnd : Rand) (hG : Good A B tv vhd) :
    Good A B tv (verf_fail lib wsi vhd pss tv rnd).vhd := by
  unfold verf_fail
  exact good_redirect lib wsi A B tv hW vhd _ rnd hG

theorem good_forgot_fail (lib : Lib) (wsi : Wsi) (A B tv : Int) (hW : NoWrap A B tv)
    (vhd : per_vhost_data__generic_sessions) (pss : per_session_data__generic_sessions)
    (rnd : Rand) (hG : Good A B tv vhd) :
    Good A B tv (forgot_fail lib wsi vhd pss tv rnd).vhd := by
  unfold forgot_fail
  exact good_redirect lib wsi A B tv hW vhd _ rnd hG

theorem good_http_confirm (lib : Lib) (wsi : Wsi) (A B tv : Int) (hW : NoWrap A B tv)
    (vhd : per_vhost_data__generic_sessions) (pss : per_session_data__generic_sessions)
    (rnd : Rand) (hG : Good A B tv vhd) :
    Good A B tv (http_confirm lib wsi vhd pss tv rnd).vhd := by
  unfold http_confirm
  simp only []
  repeat' split
  all_goals
    repeat (first
      | exact hG
      | apply good_verf_fail lib wsi A B tv hW
      | apply good_redirect lib wsi A B tv hW
      | apply good_new_abs lib A B tv hW)

theorem good_http_forgot (lib : Lib) (wsi : Wsi) (A B tv : Int) (hW : NoWrap A B tv)
    (vhd : per_vhost_data__generic_sessions) (pss : per_session_data__generic_sessions)
    (rnd : Rand) (hG : Good A B tv vhd) :
    Good A B tv (http_forgot lib wsi vhd pss tv rnd).vhd := by
  unfold http_forgot
  simp only []
  repeat' split
  all_goals
    repeat (first
      | exact hG
      | apply good_forgot_fail lib wsi A B tv hW
      | apply good_redirect lib wsi A B tv hW
      | apply good_new_abs lib A B tv hW)

theorem good_check_access_rights (lib : Lib) (wsi : Wsi) (A B tv : Int) (hW : NoWrap A B tv)
    (vhd : per_vhost_data__generic_sessions) (pss : per_session_data__generic_sessions)
    (max_len : Nat) (args_p : CStr) (rnd : Rand) (hG : Good A B tv vhd) :
    Good A B tv (check_access_rights lib wsi vhd pss max_len args_p tv rnd).vhd := by
  unfold check_access_rights
  simp only [lookup_session_state]
  have hex := good_expire A B tv hW vhd hG
  repeat' split
  all_goals
    repeat (first
      | exact hG
      | exact hex
      | apply good_redirect lib wsi A B tv hW)

theorem good_process_html_body (lib : Lib) (A B tv : Int)
    (vhd : per_vhost_data__generic_sessions) (pss : per_session_data__generic_sessions)
    (args : lws_process_html_args) (username email : CStr) (fuel : Nat) (res : HtmlResult)
    (h : process_html_body lib vhd pss args username email tv fuel = some res)
    (hG : Good A B tv vhd) : Good A B tv res.vhd := by
  unfold process_html_body at h
  repeat' split at h
  all_goals first
    | (simp at h; done)
    | (cases h
       exact hG)

theorem good_process_html (lib : Lib) (wsi : Wsi) (A B tv : Int) (hW : NoWrap A B tv)
    (vhd : per_vhost_data__generic_sessions) (pss : per_session_data__generic_sessions)
    (args : lws_process_html_args) (fuel : Nat) (res : HtmlResult)
    (h : process_html lib wsi vhd pss args tv fuel = some res)
    (hG : Good A B tv vhd) : Good A B tv res.vhd := by
  unfold process_html at h
  simp only [lookup_session_state] at h
  have hex := good_expire A B tv hW vhd hG
  repeat' split at h
  all_goals first
    | (cases h
       exact hex)
    | exact good_process_html_body lib A B tv _ _ _ _ _ _ res h hex
    | exact good_process_html_body lib A B tv _ _ _ _ _ _ res h hG

/-- The callback `on_next` leaves the session timeouts and the time of the last sweep. -/
theorem on_next_config (lib : Lib) (vhd : per_vhost_data__generic_sessions) (tv : Int) :
    (lwsgs_email_cb_on_next lib vhd tv).2.timeout_absolute_secs = vhd.timeout_absolute_secs ∧
      (lwsgs_email_cb_on_next lib vhd tv).2.timeout_anon_absolute_secs =
        vhd.timeout_anon_absolute_secs ∧
      (lwsgs_email_cb_on_next lib vhd tv).2.last_session_expire = vhd.last_session_expire := by
  unfold lwsgs_email_cb_on_next
  simp only []
  repeat' split
  all_goals exact ⟨rfl, rfl, rfl⟩

/-- At a mail queue without a quote in the first 31 characters of a user name, the
callback `on_next` leaves the sessions table as it is. -/
theorem on_next_sessions (lib : Lib) (vhd : per_vhost_data__generic_sessions) (tv : Int)
    (hq : ∀ e ∈ vhd.email, sql_quote ∉ e.username.take 31) :
    (lwsgs_email_cb_on_next lib vhd tv).2.sessions = vhd.sessions := by
  unfold lwsgs_email_cb_on_next
  simp only []
  cases he : email_first vhd.email with
  | none =>
    simp only [List.not_mem_nil, if_false]
    split <;> rfl
  | some e =>
    simp only [hq e (email_first_mem _ e he), if_false]
    split <;> rfl

theorem good_on_next (lib : Lib) (A B tv now : Int) (vhd : per_vhost_data__generic_sessions)
    (hS : (lwsgs_email_cb_on_next lib vhd tv).2.sessions = vhd.sessions)
    (hG : Good A B now vhd) : Good A B now (lwsgs_email_cb_on_next lib vhd tv).2 := by
  have hc := on_next_config lib vhd tv
  refine ⟨hc.1.trans hG.1, hc.2.1.trans hG.2.1, ?_, ?_⟩
  · rw [hc.2.2]
    exact hG.2.2.1
  · rw [hS, hc.2.2]
    exact hG.2.2.2

theorem good_on_sent (lib : Lib) (A B now : Int) (vhd : per_vhost_data__generic_sessions)
    (hG : Good A B now vhd) : Good A B now (lwsgs_email_cb_sent lib vhd).2 := hG

theorem good_add_headers (lib : Lib) (wsi : Wsi) (A B tv : Int) (hW : NoWrap A B tv)
    (vhd : per_vhost_data__generic_sessions) (pss : per_session_data__generic_sessions)
    (rnd : Rand) (hG : Good A B tv vhd) :
    Good A B tv (add_headers lib wsi vhd pss tv rnd).vhd := by
  unfold add_headers
  simp only []
  have hex := good_expire A B tv hW vhd hG
  have hnew := good_new_anon lib A B tv hW _ (some []) rnd hex
  repeat' split
  all_goals first | exact hex | exact hnew

theorem tstep_good (lib : Lib) (A B : Int)
    (p q : per_vhost_data__generic_sessions × Int) (h : TStep lib A B p q)
    (hG : Good A B p.2 p.1) : Good A B q.2 q.1 := by
  cases h with
  | login v c wsi pss spa tv rnd mem r hc hW h =>
    exact good_login_body lib wsi A B tv hW v pss spa rnd mem r h (hG.later hc)
  | confirm v c wsi pss tv rnd hc hW =>
    exact good_http_confirm lib wsi A B tv hW v pss rnd (hG.later hc)
  | forgot v c wsi pss tv rnd hc hW =>
    exact good_http_forgot lib wsi A B tv hW v pss rnd (hG.later hc)
  | change v c wsi pss spa tv rnd mem r hc hW h =>
    exact good_change_post lib wsi A B tv hW v pss spa rnd mem r h (hG.later hc)
  | logout v c wsi pss spa tv rnd r hc hW h =>
    exact good_logout_post lib wsi A B tv hW v pss spa rnd r h (hG.later hc)
  | access v c wsi pss max_len args_p tv rnd hc hW =>
    exact good_check_access_rights lib wsi A B tv hW v pss max_len args_p rnd (hG.later hc)
  | html v c wsi pss args tv fuel res hc hW h =>
    exact good_process_html lib wsi A B tv hW v pss args fuel res h (hG.later hc)
  | headers v c wsi pss tv rnd hc hW =>
    exact good_add_headers lib wsi A B tv hW v pss rnd (hG.later hc)
  | on_next v c tv hc hS => exact good_on_next lib A B tv tv v hS (hG.later hc)
  | on_sent v c => exact good_on_sent lib A B c v hG

theorem reach_good (lib : Lib) (A B : Int)
    (p q : per_vhost_data__generic_sessions × Int)
    (h : Relation.ReflTransGen (TStep lib A B) p q) (hG : Good A B p.2 p.1) :
    Good A B q.2 q.1 := by
  induction h with
  | refl => exact hG
  | tail _ hstep ih => exact tstep_good lib A B _ _ hstep ih

/-- The table that a session lookup reads at `tv`, after its throttled sweep, has no
session that expired 5 seconds before `tv` or earlier. -/
theorem good_lookup_fresh (A B tv : Int) (hW : NoWrap A B tv)
    (v : per_vhost_data__generic_sessions) (hG : Good A B tv v) :
    ∀ s ∈ (lwsgw_expire_old_sessions v tv).2.sessions, tv - 5 < s.expire := by
  have hn := (now_secs_eq A B tv hW).1
  intro s hs
  unfold lwsgw_expire_old_sessions at hs
  simp only [hn] at hs
  split at hs
  · rename_i hlt
    have := hG.2.2.2 s hs
    omega
  · have := (List.mem_filter.mp hs).2
    simp only [Bool.not_eq_true', decide_eq_false_iff_not, not_le] at this
    omega

/-- C25: from a state whose sessions do not expire before its last sweep, the last sweep
being not after the clock, through any number of operations with a clock that does not
go back, session timeouts `A` and `B` that are not negative and expiry times that stay
below `2 ^ 32` (every `expire` being set by the insert or the update of the plugin):
when `lwsgs_lookup_session` at the clock reading `tv` reports a session
as found, the row it found has `expire > tv - 5`, and so has every row of the table it
read. -/
theorem session_staleness (lib : Lib) (A B : Int)
    (v v' : per_vhost_data__generic_sessions) (c c' tv : Int) (sid buf : CStr) (len : Nat)
    (h0 : Good A B c v)
    (hreach : Relation.ReflTransGen (TStep lib A B) (v, c) (v', c'))
    (hclock : c' ≤ tv) (hW : NoWrap A B tv)
    (hfound : (lwsgs_lookup_session lib v' sid buf len tv).1 = 0) :
    (∃ s ∈ (lwsgs_lookup_session lib v' sid buf len tv).2.2.sessions,
        s.name = lib.sql_text 49 sid ∧
        (lwsgs_lookup_session lib v' sid buf len tv).2.1 = s.username.take (len - 1) ∧
        tv - 5 < s.expire) ∧
      ∀ s ∈ (lwsgs_lookup_session lib v' sid buf len tv).2.2.sessions, tv - 5 < s.expire := by
  have hG : Good A B tv v' := (reach_good lib A B (v, c) (v', c') hreach h0).later hclock
  have hfresh := good_lookup_fresh A B tv hW v' hG
  rw [lookup_session_state]
  refine ⟨?_, hfresh⟩
  rcases lookup_session_found lib v' sid buf len tv hfound with ⟨s, hs, hname, huser⟩
  exact ⟨s, hs, hname, huser, hfresh s hs⟩

/-- The witness of C25: the state with the session `sid_a` of `bob`, a request for
`/confirm` at second 500, and the lookup of `sid_a` at second 1000. -/
theorem session_staleness_witness :
    Good 36000 1200 0 vhd_session ∧ NoWrap 36000 1200 1000 ∧
      (lwsgs_lookup_session lib0 (http_confirm lib0 wsi_a vhd_session pss0 500 rnd3).vhd
        sid_a [] 32 1000).1 = 0 ∧
      ∀ s ∈ (lwsgs_lookup_session lib0 (http_confirm lib0 wsi_a vhd_session pss0 500 rnd3).vhd
          sid_a [] 32 1000).2.2.sessions, (1000 : Int) - 5 < s.expire :=
  have hG : Good 36000 1200 0 vhd_session := by
    unfold Good
    decide
  have hW5 : NoWrap 36000 1200 500 := by
    unfold NoWrap
    decide
  have hW : NoWrap 36000 1200 1000 := by
    unfold NoWrap
    decide
  ⟨hG, hW, by decide,
    (session_staleness lib0 36000 1200 vhd_session
      (http_confirm lib0 wsi_a vhd_session pss0 500 rnd3).vhd 0 500 1000 sid_a [] 32 hG
      (Relation.ReflTransGen.single
        (TStep.confirm vhd_session 0 wsi_a pss0 500 rnd3 (by decide) hW5))
      (by decide) hW (by decide)).2⟩

/-! ## The statement buffer of the lookup, the stored expiry and the order of the queue -/

/-- The lookup of a stored name of 40 characters: `s[150]` keeps 35 of them and no
closing quote, so the lookup returns -1 and the row is not found, while `bob` is. -/
theorem lookup_user_long_name :
    (∃ row ∈ vhd_name40.users, row.username = lib0.sql_text 49 name40) ∧
      (lwsgs_lookup_user lib0 vhd_name40 name40 lwsgs_user_blank).1 = -1 ∧
      (lwsgs_lookup_user lib0 vhd_bob bob lwsgs_user_blank).1 = 0 :=
  ⟨⟨_, List.mem_singleton.mpr rfl, rfl⟩, by decide, by decide⟩

/-- A register request for the stored name of 40 characters, sent with a well-formed
session cookie: the lookup fails, so the request runs on to the random draws and the
insert.  With three random values the primary key of the insert refuses the row and
the redirect goes to the reg-bad URL; with two random values, which the hash of the
password takes, the draw for the token fails and the callback returns 1 without a
response. -/
theorem register_long_duplicate :
    (login_post lib0 wsi_a vhd_name40 pss0 spa_name40 1000 rnd3 mem0).map
        (fun r => (r.response.map (fun x => (x.status, x.location)), r.vhd.users)) =
      some (some (303, ['/', 'b', 'a', 'd']), vhd_name40.users) ∧
      (login_post lib0 wsi_a vhd_name40 pss0 spa_name40 1000 rnd3.dropLast mem0).map
          (fun r => (r.response, r.vhd.users)) =
        some (none, vhd_name40.users) ∧
      (login_post lib0 wsi_a vhd_name40 pss0 spa_name40 1000 rnd3.dropLast mem0).map
          (fun r => r.ret) = some 1 := by
  decide

/-- The update of a session with a timeout of -2000 at second 1000: `%lu` prints
`2 ^ 64 - 1000`, which SQLite reads as a REAL, and the number stored is `2 ^ 64`. -/
theorem update_session_negative :
    (lwsgw_update_session lib0 vhd_negative sid_a [] 1000).2.sessions =
      [{ name := sid_a, username := [], expire := 2 ^ 64 }] := by
  decide

/-- The first select of `on_next` on a queue into which `zed` was inserted before
`amy` reads `amy`. -/
theorem email_first_least :
    email_first queue_zed_amy = some { username := ['a', 'm', 'y'], content := [] } := by
  decide

end GenericSessions
